import Mathlib

/-! # Network-policy reconciliation (go-controller/pkg/ovn/policy.go)

A shallow embedding of the network-policy code of the OVN controller.

* Go maps with a zero default (`map[string]int`, `map[string]bool`) are total
  functions or duplicate-free lists; a map that the code ranges over is a list,
  whose order stands for the iteration order of the run.
* The controller is passed explicitly.  Its `trace` field records, in program
  order, every transaction the code commits, every call of a helper that is
  declared outside policy.go and writes to the database, and every request
  made to `addToACLDeny` / `deleteFromACLDeny`.
* Declarations of package `ovn` that live outside policy.go (constants, the
  name hasher, the methods of `gressPolicy`, `createPortGroup`, ...) are the
  fields of `Env`; results that depend on the database are functions of the
  current controller state, so two calls may answer differently.
* `txn.Commit()` belongs to the OVSDB client library; a retry loop is modelled
  by its final outcome (`Env.commit`: `none` is success, `some e` an error),
  and a successful commit is reflected in the cache.
* Locks are not modelled: every function runs to completion on its own.
-/

namespace Ovn

/-! ## Data model -/

/-- The type knet.PolicyType is a string type. -/
abbrev PolicyType := String

/-- Constant knet.PolicyTypeIngress. -/
def PolicyTypeIngress : PolicyType := "Ingress"

/-- Constant knet.PolicyTypeEgress. -/
def PolicyTypeEgress : PolicyType := "Egress"

/-- A label selector; only its identity matters here. -/
abbrev LabelSelector := String

/-- One `from` / `to` entry of a rule (knet.NetworkPolicyPeer). -/
structure NetworkPolicyPeer where
  PodSelector : Option LabelSelector
  NamespaceSelector : Option LabelSelector
  IPBlock : Option (String × List String)
  deriving DecidableEq, Repr

/-- One port entry of a rule (knet.NetworkPolicyPort): protocol and port. -/
structure NetworkPolicyPort where
  Protocol : String
  Port : Int
  deriving DecidableEq, Repr

/-- An ingress or egress rule: its ports and its peers (`From` or `To`). -/
structure NetworkPolicyRule where
  Ports : List NetworkPolicyPort
  Peers : List NetworkPolicyPeer
  deriving DecidableEq, Repr

/-- The part of knet.NetworkPolicy that policy.go reads. -/
structure NetworkPolicy where
  Namespace : String
  Name : String
  PodSelector : LabelSelector
  PolicyTypes : List PolicyType
  Ingress : List NetworkPolicyRule
  Egress : List NetworkPolicyRule
  deriving DecidableEq, Repr

/-- The part of kapi.Pod that policy.go reads; `ovnAnnotation` is
`pod.Annotations["ovn"]`. -/
structure Pod where
  Namespace : String
  Name : String
  NodeName : String
  ovnAnnotation : String
  deriving DecidableEq, Repr

/-- A port constraint of a rule (struct portPolicy). -/
structure portPolicy where
  protocol : String
  port : Int
  deriving DecidableEq, Repr

/-- Per-rule record (struct gressPolicy), with the fields policy.go uses. -/
structure gressPolicy where
  policyType : PolicyType
  idx : Int
  peerAddressSets : List String
  portPolicies : List portPolicy
  ipBlockCidr : List String
  ipBlockExcept : List String
  deriving DecidableEq, Repr

/-- A row of the ACL table. -/
structure ACL where
  priority : Int
  direction : String
  match_ : String
  action : String
  external_ids : List (String × String)
  deriving DecidableEq, Repr

/-- A subscription handle (factory.Handler), described by what it watches. -/
inductive Handler where
  | localPod (ns : String) (sel : LabelSelector)
  | peerPod (ns : String) (sel : LabelSelector) (addressSet : String)
  | peerNamespace (sel : LabelSelector) (policyType : PolicyType) (idx : Int)
  | peerNamespaceAndPod (nsSel podSel : LabelSelector) (addressSet : String)
  | nestedPeerPod (ns : String) (sel : LabelSelector) (addressSet : String)
  deriving DecidableEq, Repr

/-- Per-policy record (struct namespacePolicy). -/
structure namespacePolicy where
  name : String
  namespace_ : String
  ingressPolicies : List gressPolicy
  egressPolicies : List gressPolicy
  podHandlerList : List Handler
  nsHandlerList : List Handler
  localPods : List String
  portGroupUUID : String
  portGroupName : String
  deleted : Bool
  deriving DecidableEq, Repr

/-- What the controller asks of the database and of its helpers. -/
inductive Event where
  /-- One transaction: Insert into ACL, InsertReferences into Port_Group.acls. -/
  | insertACL (row : ACL) (portGroupUUID : String)
  /-- One transaction: Update of the match column of the ACL with this uuid. -/
  | updateACLMatch (uuid : String) (newMatch : String)
  /-- One transaction: InsertReferences into Port_Group.ports. -/
  | insertPort (portGroup : String) (portUUID : String)
  /-- One transaction: DeleteReferences from Port_Group.ports. -/
  | deletePort (portGroup : String) (portUUID : String)
  /-- Entry of addToACLDeny. -/
  | addToACLDeny (portGroup : String) (logicalPort : String)
  /-- Entry of deleteFromACLDeny. -/
  | deleteFromACLDeny (portGroup : String) (logicalPort : String)
  | createPortGroup (name : String) (hashName : String)
  | deletePortGroup (hashName : String)
  | createAddressSet (name : String) (hashName : String)
  | setAddressSet (hashName : String) (addresses : List String)
  | deleteAddressSet (hashName : String)
  | shutdownHandlers (ns : String) (name : String)
  | addHandler (h : Handler)
  deriving DecidableEq, Repr

/-- The controller (struct Controller), with the fields policy.go uses, the
cached ACL and Port_Group tables, and the trace. -/
structure Controller where
  /-- Field lspIngressDenyCache. -/
  lspIngressDenyCache : String → Int
  /-- Field lspEgressDenyCache. -/
  lspEgressDenyCache : String → Int
  portGroupIngressDeny : String
  portGroupEgressDeny : String
  /-- Field namespacePolicies, keyed by namespace and name. -/
  namespacePolicies : String → String → Option namespacePolicy
  /-- Cache of the ACL table, keyed by uuid. -/
  acls : List (String × ACL)
  /-- Cache of the ports column of the Port_Group table, keyed by uuid. -/
  portGroupPorts : String → List String
  /-- Cache of the Logical_Switch_Port table: name to uuid, empty if unknown. -/
  logicalPorts : String → String
  trace : List Event

/-- Declarations of package ovn outside policy.go. -/
structure Env where
  toLport : String
  noneMatch : String
  defaultAllowPriorityInt : Int
  ipBlockDenyPriority : String
  defaultDenyPriority : String
  hashedAddressSet : String → String
  hashedPortGroup : String → String
  getIPFromOvnAnnotation : String → String
  getL3MatchFromAddressSet : gressPolicy → String
  getMatchFromIPBlock : gressPolicy → String → String → String
  getL4Match : portPolicy → Except String String
  /-- Result of createPortGroup: the uuid, or an error. -/
  createPortGroup : Controller → String → String → Except String String
  /-- Final outcome of a commit loop. -/
  commit : Controller → Event → Option String
  /-- The uuid the database gives to a row inserted by this commit. -/
  newUUID : Controller → String
  /-- Result of waitForNamespaceEvent. -/
  waitForNamespaceEvent : Controller → String → Option String
  /-- Result of registering a handler with the watch factory. -/
  addHandler : Controller → Handler → Option String
  /-- Constructor newGressPolicy. -/
  newGressPolicy : PolicyType → Int → gressPolicy
  /-- Method addPortPolicy of gressPolicy: the rule after the call. -/
  addPortPolicy : gressPolicy → NetworkPolicyPort → gressPolicy
  /-- Method addAddressSet of gressPolicy: the rule after the call. -/
  addAddressSet : gressPolicy → String → gressPolicy
  /-- Method addIPBlock of gressPolicy: the rule after the call. -/
  addIPBlock : gressPolicy → String × List String → gressPolicy
  /-- Method addAddressSet of gressPolicy: its results, the old L3 match, the new
  L3 match, and whether the address set was added. -/
  addAddressSetResult : gressPolicy → String → String × String × Bool
  /-- Method delAddressSet of gressPolicy: the rule after the call. -/
  delAddressSet : gressPolicy → String → gressPolicy
  /-- Method delAddressSet of gressPolicy: its results, the old L3 match, the new
  L3 match, and whether the address set was removed. -/
  delAddressSetResult : gressPolicy → String → String × String × Bool

/-- The controller before any policy was seen. -/
def Controller.empty (logicalPorts : String → String) : Controller where
  lspIngressDenyCache := fun _ => 0
  lspEgressDenyCache := fun _ => 0
  portGroupIngressDeny := ""
  portGroupEgressDeny := ""
  namespacePolicies := fun _ _ => none
  acls := []
  portGroupPorts := fun _ => []
  logicalPorts := logicalPorts
  trace := []

/-- Append an event to the trace. -/
def Controller.emit (oc : Controller) (e : Event) : Controller :=
  { oc with trace := oc.trace ++ [e] }

/-- Method getLogicalPortUUID: a read of the Logical_Switch_Port cache. -/
def getLogicalPortUUID (oc : Controller) (logicalPort : String) : String :=
  oc.logicalPorts logicalPort

/-! ## ACL lookup and insertion -/

/-- A value in a lookup filter or a column of a row. -/
inductive Val where
  | str (s : String)
  | int (i : Int)
  | ids (m : List (String × String))
  deriving DecidableEq, Repr

/-- The column of an ACL row under its name in the database, as the cache
returns it. -/
def ACL.col (acl : ACL) (c : String) : Option Val :=
  if c = "priority" then some (Val.int acl.priority)
  else if c = "direction" then some (Val.str acl.direction)
  else if c = "match" then some (Val.str acl.match_)
  else if c = "action" then some (Val.str acl.action)
  else if c = "external_ids" then some (Val.ids acl.external_ids)
  else none

/-- The inner loop of getACLUUIDFromMap over the entries of the external_ids
filter: every key of the filter is present in the row with the same value. -/
def externalIdsMatch (externalIds filter : List (String × String)) : Bool :=
  filter.all fun kv => externalIds.lookup kv.1 == some kv.2

/-- One round of the loop over the filters in getACLUUIDFromMap. -/
def filterMatch (acl : ACL) (f : String × Val) : Bool :=
  if f.1 = "external_ids" then
    match f.2 with
    | Val.ids m => externalIdsMatch acl.external_ids m
    | _ => false
  else acl.col f.1 == some f.2

/-- Method getACLUUIDFromMap: the uuid of the first row that passes every
filter, the empty string when there is none. -/
def getACLUUIDFromMap (acls : List (String × ACL)) (filters : List (String × Val)) :
    String :=
  match acls.find? (fun r => filters.all (filterMatch r.2)) with
  | some r => r.1
  | none => ""

/-- Method insertACL: one transaction that inserts the row and refers to it
from the acls column of the port group. -/
def insertACL (E : Env) (oc : Controller) (row : ACL) (portGroupUUID : String) :
    Option String × Controller :=
  let ev := Event.insertACL row portGroupUUID
  match E.commit oc ev with
  | none => (none, { oc.emit ev with acls := oc.acls ++ [(E.newUUID oc, row)] })
  | some e => (some e, oc.emit ev)

/-- The double quote. -/
def dquote : Char := Char.ofNat 34

/-- The line feed. -/
def newline : Char := Char.ofNat 10

/-- The literal part of the pattern: the text match= and a double quote. -/
def matchPrefix : List Char := "match=".toList ++ [dquote]

/-- The text before the last double quote, if there is a double quote. -/
def untilLastQuote : List Char → Option (List Char)
  | [] => none
  | c :: cs =>
    match untilLastQuote cs with
    | some r => some (c :: r)
    | none => if c = dquote then some [] else none

/-- The group of the leftmost match of the pattern `match="(.*)"`: at the first
position where the literal is followed, on the same line, by a double quote,
the text up to the last double quote of that line. -/
def findSubmatch : List Char → Option (List Char)
  | [] => none
  | c :: cs =>
    if matchPrefix.isPrefixOf (c :: cs) then
      match untilLastQuote (((c :: cs).drop 7).takeWhile (fun x => x != newline)) with
      | some g => some g
      | none => findSubmatch cs
    else findSubmatch cs

/-- The call r.FindStringSubmatch(s) for r = `match="(.*)"`, reduced to
element 1 of its result; none when there is no match. -/
def FindStringSubmatch (s : String) : Option String :=
  (findSubmatch s.toList).map String.mk

/-- The external_ids of an allow rule, built in addACLAllow. -/
def allowExternalIds (np : namespacePolicy) (l4Match : String) (ipBlockCidr : Bool)
    (gressNum : Int) (policyType : PolicyType) : List (String × String) :=
  [("l4Match", l4Match), ("ipblock_cidr", toString ipBlockCidr),
   ("namespace", np.namespace_), ("policy", np.name),
   (policyType ++ "_num", toString gressNum), ("policy_type", policyType)]

/-- Method addACLAllow. -/
def addACLAllow (E : Env) (oc : Controller) (np : namespacePolicy)
    (match_ l4Match : String) (ipBlockCidr : Bool) (gressNum : Int)
    (policyType : PolicyType) : Controller :=
  let direction := E.toLport
  let action := if policyType = PolicyTypeIngress then "allow-related" else "allow"
  let uuid := getACLUUIDFromMap oc.acls
    [("external_ids", Val.ids (allowExternalIds np l4Match ipBlockCidr gressNum policyType))]
  if uuid ≠ "" then oc
  else
    let match1 := match FindStringSubmatch match_ with
      | some m => m
      | none => match_
    (insertACL E oc
      { priority := E.defaultAllowPriorityInt, direction := direction, match_ := match1,
        action := action,
        external_ids := allowExternalIds np l4Match ipBlockCidr gressNum policyType }
      np.portGroupUUID).2

/-- The value of a run of decimal digits, read from the left as
strconv.ParseUint reads it: none at a character that is no digit, and the
bound 2 ^ 64 - 1 as soon as the value passes it, whatever follows. -/
def digitsValue : List Char → Nat → Option Nat
  | [], acc => some acc
  | c :: cs, acc =>
    if c.isDigit then
      if acc * 10 + (c.toNat - 48) > 2 ^ 64 - 1 then some (2 ^ 64 - 1)
      else digitsValue cs (acc * 10 + (c.toNat - 48))
    else none

/-- The call strconv.Atoi with its error dropped: an optional sign and decimal
digits give their value, cut to the range of a 64-bit integer (also when the
digits pass 2 ^ 64 before a character that is no digit); anything else gives
0. -/
def Atoi (s : String) : Int :=
  let body (cs : List Char) : Option Nat := if cs = [] then none else digitsValue cs 0
  match s.toList with
  | '-' :: cs =>
    match body cs with
    | some n => if n > 2 ^ 63 then -(2 ^ 63 : Int) else -(n : Int)
    | none => 0
  | '+' :: cs =>
    match body cs with
    | some n => if n > 2 ^ 63 - 1 then (2 ^ 63 - 1 : Int) else (n : Int)
    | none => 0
  | cs =>
    match body cs with
    | some n => if n > 2 ^ 63 - 1 then (2 ^ 63 - 1 : Int) else (n : Int)
    | none => 0

/-- The match of an ip-block deny rule, built in addIPBlockACLDeny. -/
def ipBlockDenyMatch (np : namespacePolicy) (except : String) (policyType : PolicyType) :
    String :=
  if policyType = PolicyTypeIngress then
    ("outport == @" ++ np.portGroupName) ++ " && " ++ ("ip4.src == " ++ except)
  else
    ("inport == @" ++ np.portGroupName) ++ " && " ++ ("ip4.dst == " ++ except)

/-- Method addIPBlockACLDeny. -/
def addIPBlockACLDeny (E : Env) (oc : Controller) (np : namespacePolicy)
    (except priority : String) (gressNum : Int) (policyType : PolicyType) : Controller :=
  let direction := E.toLport
  let match_ := ipBlockDenyMatch np except policyType
  let uuid := getACLUUIDFromMap oc.acls
    [("match", Val.str match_), ("action", Val.str "drop"),
     ("external_ids", Val.ids
        [("ipblock-deny-policy-type", policyType), ("namespace", np.namespace_),
         (policyType ++ "_num", toString gressNum), ("policy", np.name)])]
  if uuid ≠ "" then oc
  else
    let priorityInt := Atoi priority
    (insertACL E oc
      { priority := priorityInt, direction := direction, match_ := match_, action := "drop",
        external_ids :=
          [("namespace", np.namespace_), ("policy", np.name),
           (policyType ++ "_num", toString gressNum),
           ("ipblock-deny-policy-type", policyType)] }
      np.portGroupUUID).2

/-- The clause on the logical port: outport for an ingress rule, inport
otherwise. -/
def lportMatch (portGroupName : String) (policyType : PolicyType) : String :=
  if policyType = PolicyTypeIngress then "outport == @" ++ portGroupName
  else "inport == @" ++ portGroupName

/-- Method addACLDenyPortGroup; the first component is the returned error. -/
def addACLDenyPortGroup (E : Env) (oc : Controller)
    (portGroupUUID portGroupName priority : String) (policyType : PolicyType) :
    Option String × Controller :=
  let direction := E.toLport
  let match_ := lportMatch portGroupName policyType
  let uuid := getACLUUIDFromMap oc.acls
    [("match", Val.str match_), ("action", Val.str "drop"),
     ("external_ids", Val.ids [("default-deny-policy-type", policyType)])]
  if uuid ≠ "" then (none, oc)
  else
    let priorityInt := Atoi priority
    let r := insertACL E oc
      { priority := priorityInt, direction := direction, match_ := match_, action := "drop",
        external_ids := [("default-deny-policy-type", policyType)] }
      portGroupUUID
    match r.1 with
    | some e => (some ("error executing create ACL command for policy type " ++ policyType
        ++ " (" ++ e ++ ")"), r.2)
    | none => (none, r.2)

/-! ## Default-deny port groups -/

/-- Method addToACLDeny. -/
def addToACLDeny (E : Env) (oc : Controller) (portGroup logicalPort : String) :
    Controller :=
  let oc := oc.emit (Event.addToACLDeny portGroup logicalPort)
  let logicalPortUUID := getLogicalPortUUID oc logicalPort
  if logicalPortUUID = "" then oc
  else if logicalPortUUID ∉ oc.portGroupPorts portGroup then
    let ev := Event.insertPort portGroup logicalPortUUID
    match E.commit oc ev with
    | none =>
      { oc.emit ev with
        portGroupPorts := Function.update oc.portGroupPorts portGroup
          (oc.portGroupPorts portGroup ++ [logicalPortUUID]) }
    | some _ => oc.emit ev
  else oc

/-- Method deleteFromACLDeny. -/
def deleteFromACLDeny (E : Env) (oc : Controller) (portGroup logicalPort : String) :
    Controller :=
  let oc := oc.emit (Event.deleteFromACLDeny portGroup logicalPort)
  let logicalPortUUID := getLogicalPortUUID oc logicalPort
  if logicalPortUUID = "" then oc
  else if logicalPortUUID ∈ oc.portGroupPorts portGroup then
    let ev := Event.deletePort portGroup logicalPortUUID
    match E.commit oc ev with
    | none =>
      { oc.emit ev with
        portGroupPorts := Function.update oc.portGroupPorts portGroup
          ((oc.portGroupPorts portGroup).filter (fun u => u != logicalPortUUID)) }
    | some _ => oc.emit ev
  else oc

/-- Method createPortGroup, declared outside policy.go: the call is recorded
and its result is the answer of the environment. -/
def createPortGroup (E : Env) (oc : Controller) (name hashName : String) :
    Except String String × Controller :=
  (E.createPortGroup oc name hashName, oc.emit (Event.createPortGroup name hashName))

/-- The name createDefaultDenyPortGroup gives to the port group of a policy
type; the variable stays empty for a type that is neither. -/
def defaultDenyName (policyType : PolicyType) : String :=
  if policyType = PolicyTypeIngress then "ingressDefaultDeny"
  else if policyType = PolicyTypeEgress then "egressDefaultDeny"
  else ""

/-- Method createDefaultDenyPortGroup. -/
def createDefaultDenyPortGroup (E : Env) (oc : Controller) (policyType : PolicyType) :
    Controller :=
  if policyType = PolicyTypeIngress ∧ oc.portGroupIngressDeny ≠ "" then oc
  else if policyType ≠ PolicyTypeIngress ∧ policyType = PolicyTypeEgress ∧
      oc.portGroupEgressDeny ≠ "" then oc
  else
    let portGroupName := defaultDenyName policyType
    let r := createPortGroup E oc portGroupName portGroupName
    match r.1 with
    | Except.error _ => r.2
    | Except.ok portGroupUUID =>
      let a := addACLDenyPortGroup E r.2 portGroupUUID portGroupName
        E.defaultDenyPriority policyType
      match a.1 with
      | some _ => a.2
      | none =>
        if policyType = PolicyTypeIngress then
          { a.2 with portGroupIngressDeny := portGroupUUID }
        else if policyType = PolicyTypeEgress then
          { a.2 with portGroupEgressDeny := portGroupUUID }
        else a.2

/-- The test of localPodAddDefaultDeny and localPodDelDefaultDeny for the
ingress counter: PolicyTypes is not the one-element list with Egress. -/
def ingressCounted (policy : NetworkPolicy) : Bool :=
  !(policy.PolicyTypes.length == 1 && policy.PolicyTypes.head? == some PolicyTypeEgress)

/-- The test of localPodAddDefaultDeny and localPodDelDefaultDeny for the
egress counter. -/
def egressCounted (policy : NetworkPolicy) : Bool :=
  (policy.PolicyTypes.length == 1 && policy.PolicyTypes.head? == some PolicyTypeEgress)
    || decide (policy.Egress.length > 0) || policy.PolicyTypes.length == 2

/-- Method localPodAddDefaultDeny. -/
def localPodAddDefaultDeny (E : Env) (oc : Controller) (policy : NetworkPolicy)
    (logicalPort : String) : Controller :=
  let oc := createDefaultDenyPortGroup E oc PolicyTypeIngress
  let oc := createDefaultDenyPortGroup E oc PolicyTypeEgress
  let oc :=
    if ingressCounted policy then
      let oc :=
        (if oc.lspIngressDenyCache logicalPort = 0 then
          addToACLDeny E oc oc.portGroupIngressDeny logicalPort
        else oc)
      { oc with
        lspIngressDenyCache :=
          Function.update oc.lspIngressDenyCache logicalPort
            (oc.lspIngressDenyCache logicalPort + 1) }
    else oc
  if egressCounted policy then
    let oc :=
      (if oc.lspEgressDenyCache logicalPort = 0 then
        addToACLDeny E oc oc.portGroupEgressDeny logicalPort
      else oc)
    { oc with
      lspEgressDenyCache :=
        Function.update oc.lspEgressDenyCache logicalPort
          (oc.lspEgressDenyCache logicalPort + 1) }
  else oc

/-- Method localPodDelDefaultDeny. -/
def localPodDelDefaultDeny (E : Env) (oc : Controller) (policy : NetworkPolicy)
    (logicalPort : String) : Controller :=
  let oc :=
    if ingressCounted policy then
      if oc.lspIngressDenyCache logicalPort > 0 then
        let oc :=
          { oc with
            lspIngressDenyCache :=
              Function.update oc.lspIngressDenyCache logicalPort
                (oc.lspIngressDenyCache logicalPort - 1) }
        if oc.lspIngressDenyCache logicalPort = 0 then
          deleteFromACLDeny E oc oc.portGroupIngressDeny logicalPort
        else oc
      else oc
    else oc
  if egressCounted policy then
    if oc.lspEgressDenyCache logicalPort > 0 then
      let oc :=
        { oc with
          lspEgressDenyCache :=
            Function.update oc.lspEgressDenyCache logicalPort
              (oc.lspEgressDenyCache logicalPort - 1) }
      if oc.lspEgressDenyCache logicalPort = 0 then
        deleteFromACLDeny E oc oc.portGroupEgressDeny logicalPort
      else oc
    else oc
  else oc

/-- The second state has the counters, the logical-port cache and the policy
index of the first. -/
structure KeepsCounters (oc oc2 : Controller) : Prop where
  ingress : oc2.lspIngressDenyCache = oc.lspIngressDenyCache
  egress : oc2.lspEgressDenyCache = oc.lspEgressDenyCache
  logicalPorts : oc2.logicalPorts = oc.logicalPorts
  namespacePolicies : oc2.namespacePolicies = oc.namespacePolicies

/-! ## Traces of the default-deny helpers -/

/-- A request to add a port to, or remove it from, a default-deny port group. -/
def Event.isRequest : Event → Bool
  | Event.addToACLDeny _ _ => true
  | Event.deleteFromACLDeny _ _ => true
  | _ => false

/-- A transaction on the ports column of a port group. -/
def Event.isPortWrite : Event → Bool
  | Event.insertPort _ _ => true
  | Event.deletePort _ _ => true
  | _ => false

/-- The second state extends the trace of the first by the events `l`. -/
def Extends (oc oc2 : Controller) (l : List Event) : Prop :=
  oc2.trace = oc.trace ++ l

/-- The second state has the default-deny port groups of the first. -/
structure KeepsGroups (oc oc2 : Controller) : Prop where
  ingress : oc2.portGroupIngressDeny = oc.portGroupIngressDeny
  egress : oc2.portGroupEgressDeny = oc.portGroupEgressDeny

/-- An event of the creation of a port group and of its drop rule. -/
def Event.isCreation : Event → Bool
  | Event.createPortGroup _ _ => true
  | Event.insertACL _ _ => true
  | _ => false

/-- The part of localPodAddDefaultDeny that handles the ingress counter. -/
def addIngressStep (E : Env) (oc : Controller) (policy : NetworkPolicy) (lp : String) :
    Controller :=
  if ingressCounted policy then
    let oc1 :=
      (if oc.lspIngressDenyCache lp = 0 then
        addToACLDeny E oc oc.portGroupIngressDeny lp
      else oc)
    { oc1 with
      lspIngressDenyCache :=
        Function.update oc1.lspIngressDenyCache lp (oc1.lspIngressDenyCache lp + 1) }
  else oc

/-- The part of localPodAddDefaultDeny that handles the egress counter. -/
def addEgressStep (E : Env) (oc : Controller) (policy : NetworkPolicy) (lp : String) :
    Controller :=
  if egressCounted policy then
    let oc1 :=
      (if oc.lspEgressDenyCache lp = 0 then
        addToACLDeny E oc oc.portGroupEgressDeny lp
      else oc)
    { oc1 with
      lspEgressDenyCache :=
        Function.update oc1.lspEgressDenyCache lp (oc1.lspEgressDenyCache lp + 1) }
  else oc

/-- The policy with PolicyTypes Ingress, Ingress and no egress rule. -/
def policyIngressTwice : NetworkPolicy where
  Namespace := "dev"
  Name := "p"
  PodSelector := "app=web"
  PolicyTypes := [PolicyTypeIngress, PolicyTypeIngress]
  Ingress := []
  Egress := []

/-! ## The default-deny counters: localPodDelDefaultDeny -/

/-- The part of localPodDelDefaultDeny that handles the ingress counter. -/
def delIngressStep (E : Env) (oc : Controller) (policy : NetworkPolicy) (lp : String) :
    Controller :=
  if ingressCounted policy then
    if oc.lspIngressDenyCache lp > 0 then
      let oc1 : Controller :=
        { oc with
          lspIngressDenyCache :=
            Function.update oc.lspIngressDenyCache lp (oc.lspIngressDenyCache lp - 1) }
      if oc1.lspIngressDenyCache lp = 0 then
        deleteFromACLDeny E oc1 oc1.portGroupIngressDeny lp
      else oc1
    else oc
  else oc

/-- The part of localPodDelDefaultDeny that handles the egress counter. -/
def delEgressStep (E : Env) (oc : Controller) (policy : NetworkPolicy) (lp : String) :
    Controller :=
  if egressCounted policy then
    if oc.lspEgressDenyCache lp > 0 then
      let oc1 : Controller :=
        { oc with
          lspEgressDenyCache :=
            Function.update oc.lspEgressDenyCache lp (oc.lspEgressDenyCache lp - 1) }
      if oc1.lspEgressDenyCache lp = 0 then
        deleteFromACLDeny E oc1 oc1.portGroupEgressDeny lp
      else oc1
    else oc
  else oc

/-! ## Membership of the default-deny port groups -/

/-- States reachable from `oc0` by calls of localPodAddDefaultDeny and
localPodDelDefaultDeny. -/
inductive DenyReachable (E : Env) (oc0 : Controller) : Controller → Prop where
  | init : DenyReachable E oc0 oc0
  | add (oc : Controller) (policy : NetworkPolicy) (lp : String) :
      DenyReachable E oc0 oc → DenyReachable E oc0 (localPodAddDefaultDeny E oc policy lp)
  | del (oc : Controller) (policy : NetworkPolicy) (lp : String) :
      DenyReachable E oc0 oc → DenyReachable E oc0 (localPodDelDefaultDeny E oc policy lp)

/-- The logical port is a member of the port group: its uuid is in the ports
column of the group. -/
def isMember (oc : Controller) (portGroup logicalPort : String) : Prop :=
  getLogicalPortUUID oc logicalPort ∈ oc.portGroupPorts portGroup

/-- The database accepts what the controller asks: every commit succeeds, and
creating a port group gives a non-empty uuid, the two default-deny groups
getting different ones. -/
structure Healthy (E : Env) : Prop where
  commit_ok : ∀ oc ev, E.commit oc ev = none
  create_ok : ∀ oc n h, ∃ u, E.createPortGroup oc n h = Except.ok u ∧ u ≠ ""
  create_distinct : ∀ oc oc2 u u2,
    E.createPortGroup oc "ingressDefaultDeny" "ingressDefaultDeny" = Except.ok u →
    E.createPortGroup oc2 "egressDefaultDeny" "egressDefaultDeny" = Except.ok u2 → u ≠ u2

/-- Different logical ports with a known uuid have different uuids. -/
def DistinctUUIDs (logicalPorts : String → String) : Prop :=
  ∀ a b, logicalPorts a = logicalPorts b → logicalPorts a ≠ "" → a = b

/-- An environment in which every request succeeds: a port group gets the
uuid "pg-" followed by its name, an inserted row the uuid "acl-" followed
by the number of rows in the cache. -/
def Env.accepting : Env where
  toLport := "to-lport"
  noneMatch := "None"
  defaultAllowPriorityInt := 1001
  ipBlockDenyPriority := "1010"
  defaultDenyPriority := "1000"
  hashedAddressSet := fun s => "a" ++ s
  hashedPortGroup := fun s => "a" ++ s
  getIPFromOvnAnnotation := fun s => s
  getL3MatchFromAddressSet := fun _ => ""
  getMatchFromIPBlock := fun _ lport l4 => lport ++ l4
  getL4Match := fun p =>
    if p.protocol = "TCP" then Except.ok ("tcp && tcp.dst==" ++ toString p.port)
    else if p.protocol = "UDP" then Except.ok ("udp && udp.dst==" ++ toString p.port)
    else if p.protocol = "SCTP" then Except.ok ("sctp && sctp.dst==" ++ toString p.port)
    else Except.error "unknown port protocol"
  createPortGroup := fun _ n _ => Except.ok ("pg-" ++ n)
  commit := fun _ _ => none
  newUUID := fun oc => "acl-" ++ toString oc.acls.length
  waitForNamespaceEvent := fun _ _ => none
  addHandler := fun _ _ => none
  newGressPolicy := fun t i =>
    { policyType := t, idx := i, peerAddressSets := [], portPolicies := [],
      ipBlockCidr := [], ipBlockExcept := [] }
  addPortPolicy := fun g p =>
    { g with portPolicies := g.portPolicies ++ [{ protocol := p.Protocol, port := p.Port }] }
  addAddressSet := fun g s =>
    if s ∈ g.peerAddressSets then g else { g with peerAddressSets := g.peerAddressSets ++ [s] }
  addIPBlock := fun g b =>
    { g with ipBlockCidr := g.ipBlockCidr ++ [b.1], ipBlockExcept := g.ipBlockExcept ++ b.2 }
  addAddressSetResult := fun g s => ("", "", !g.peerAddressSets.contains s)
  delAddressSet := fun g s =>
    { g with peerAddressSets := g.peerAddressSets.filter (fun a => a != s) }
  delAddressSetResult := fun g s => ("", "", g.peerAddressSets.contains s)

/-- No default-deny port group was created yet: the counters are 0 and the
port groups of the cache have no ports. -/
def FreshInv (lps : String → String) (oc : Controller) : Prop :=
  oc.logicalPorts = lps ∧ oc.portGroupIngressDeny = "" ∧ oc.portGroupEgressDeny = "" ∧
    (∀ lp, oc.lspIngressDenyCache lp = 0) ∧ (∀ lp, oc.lspEgressDenyCache lp = 0) ∧
    ∀ pg, oc.portGroupPorts pg = []

/-- Both default-deny port groups exist and differ, and a logical port with a
known uuid is in a group exactly when its counter for the direction is
positive. -/
def GroupsInv (lps : String → String) (oc : Controller) : Prop :=
  oc.logicalPorts = lps ∧ oc.portGroupIngressDeny ≠ "" ∧ oc.portGroupEgressDeny ≠ "" ∧
    oc.portGroupIngressDeny ≠ oc.portGroupEgressDeny ∧
    ∀ lp, lps lp ≠ "" →
      (lps lp ∈ oc.portGroupPorts oc.portGroupIngressDeny ↔ 0 < oc.lspIngressDenyCache lp) ∧
      (lps lp ∈ oc.portGroupPorts oc.portGroupEgressDeny ↔ 0 < oc.lspEgressDenyCache lp)

/-- The policy allow-web of namespace dev, with policy type Ingress and no rule. -/
def policyAllowWeb : NetworkPolicy where
  Namespace := "dev"
  Name := "allow-web"
  PodSelector := "app=web"
  PolicyTypes := [PolicyTypeIngress]
  Ingress := []
  Egress := []

/-- A logical-port cache that knows the port of pod web-1 of namespace dev. -/
def webPorts : String → String := fun s => if s = "dev_web-1" then "lsp-1" else ""

/-! ## The ACL table -/

/-- Two external_ids maps are identical: every key has the same value, or
none, in both. -/
def sameIds (a b : List (String × String)) : Prop :=
  ∀ k, a.lookup k = b.lookup k

/-- The rows of the table carry non-empty uuids. -/
def UUIDsNonEmpty (acls : List (String × ACL)) : Prop :=
  ∀ r ∈ acls, r.1 ≠ ""

/-- No two rows of the table have identical external_ids. -/
def DistinctExternalIds (acls : List (String × ACL)) : Prop :=
  acls.Pairwise fun a b => ¬ sameIds a.2.external_ids b.2.external_ids

/-- No two rows of the table agree in external_ids, match and action. -/
def DistinctRules (acls : List (String × ACL)) : Prop :=
  acls.Pairwise fun a b =>
    ¬ (sameIds a.2.external_ids b.2.external_ids ∧ a.2.match_ = b.2.match_ ∧
        a.2.action = b.2.action)

/-- The match that addACLAllow stores: the group of the pattern when the
argument matches it, the argument itself otherwise. -/
def storedMatch (match_ : String) : String :=
  match FindStringSubmatch match_ with
  | some m => m
  | none => match_

/-- The row that addACLAllow inserts. -/
def allowRow (E : Env) (np : namespacePolicy) (match_ l4Match : String) (ipBlockCidr : Bool)
    (gressNum : Int) (policyType : PolicyType) : ACL where
  priority := E.defaultAllowPriorityInt
  direction := E.toLport
  match_ := storedMatch match_
  action := if policyType = PolicyTypeIngress then "allow-related" else "allow"
  external_ids := allowExternalIds np l4Match ipBlockCidr gressNum policyType

/-- The row that addIPBlockACLDeny inserts. -/
def ipBlockDenyRow (E : Env) (np : namespacePolicy) (except priority : String)
    (gressNum : Int) (policyType : PolicyType) : ACL where
  priority := Atoi priority
  direction := E.toLport
  match_ := ipBlockDenyMatch np except policyType
  action := "drop"
  external_ids :=
    [("namespace", np.namespace_), ("policy", np.name),
     (policyType ++ "_num", toString gressNum), ("ipblock-deny-policy-type", policyType)]

/-- The row that addACLDenyPortGroup inserts. -/
def defaultDenyRow (E : Env) (portGroupName priority : String) (policyType : PolicyType) :
    ACL where
  priority := Atoi priority
  direction := E.toLport
  match_ := lportMatch portGroupName policyType
  action := "drop"
  external_ids := [("default-deny-policy-type", policyType)]

/-- The record of the policy allow-web of namespace dev. -/
def npAllowWeb : namespacePolicy where
  name := "allow-web"
  namespace_ := "dev"
  ingressPolicies := []
  egressPolicies := []
  podHandlerList := []
  nsHandlerList := []
  localPods := []
  portGroupUUID := "pg-1"
  portGroupName := "a1"
  deleted := false

/-- A controller whose ACL cache holds one row: the ip-block deny rule of
ingress rule 0 of the policy allow-web for the exception 10.1.0.0/16. -/
def ocOneDeny : Controller :=
  { Controller.empty (fun _ => "") with
    acls := [("acl-0",
      ipBlockDenyRow Env.accepting npAllowWeb "\x7b10.1.0.0/16\x7d" "1010" 0 PolicyTypeIngress)] }

/-- A controller whose ACL cache holds one row: the allow rule of ingress
rule 0 of the policy allow-web, with one more entry in its external_ids. -/
def ocAllowExtra : Controller :=
  { Controller.empty (fun _ => "") with
    acls := [("acl-0",
      { allowRow Env.accepting npAllowWeb "x" "None" false 0 PolicyTypeIngress with
        external_ids :=
          allowExternalIds npAllowWeb "None" false 0 PolicyTypeIngress ++ [("owner", "other")] })] }

/-! ## The allow rules of a policy rule -/

/-- The two calls of addACLAllow that localPodAddACL makes for one layer-4
match: first the rule for the CIDR of the ip block, if there is one, then the
rule for the peer address sets. -/
def addACLAllowPair (E : Env) (oc : Controller) (np : namespacePolicy) (gress : gressPolicy)
    (lportMatch match_ l4Match : String) : Controller :=
  let oc1 :=
    (if gress.ipBlockCidr.length > 0 then
      addACLAllow E oc np (E.getMatchFromIPBlock gress lportMatch l4Match) l4Match
        true gress.idx gress.policyType
    else oc)
  addACLAllow E oc1 np match_ l4Match false gress.idx gress.policyType

/-- One round of the loop of localPodAddACL over the port policies. -/
def localPodAddACLPort (E : Env) (np : namespacePolicy) (gress : gressPolicy)
    (l3Match lportMatch : String) (oc : Controller) (port : portPolicy) : Controller :=
  match E.getL4Match port with
  | Except.error _ => oc
  | Except.ok l4Match =>
    addACLAllowPair E oc np gress lportMatch
      ("match=\"" ++ (l3Match ++ " && " ++ l4Match ++ " && " ++ lportMatch) ++ "\"") l4Match

/-- Method localPodAddACL. -/
def localPodAddACL (E : Env) (oc : Controller) (np : namespacePolicy) (gress : gressPolicy) :
    Controller :=
  let l3Match := E.getL3MatchFromAddressSet gress
  let lportMatch := lportMatch np.portGroupName gress.policyType
  let oc1 :=
    (if gress.ipBlockCidr.length > 0 ∧ gress.ipBlockExcept.length > 0 then
      addIPBlockACLDeny E oc np ("\x7b" ++ ", ".intercalate gress.ipBlockExcept ++ "\x7d")
        E.ipBlockDenyPriority gress.idx gress.policyType
    else oc)
  let oc2 :=
    (if gress.portPolicies.length = 0 then
      addACLAllowPair E oc1 np gress lportMatch
        ("match=\"" ++ (l3Match ++ " && " ++ lportMatch) ++ "\"") E.noneMatch
    else oc1)
  gress.portPolicies.foldl (localPodAddACLPort E np gress l3Match lportMatch) oc2

/-- The text has no line feed. -/
def NoNewline (s : String) : Prop := newline ∉ s.toList

/-- The second state extends the trace of the first by `l` and keeps the rows
of its ACL table. -/
def Grows (oc oc2 : Controller) (l : List Event) : Prop :=
  Extends oc oc2 l ∧ ∀ r ∈ oc.acls, r ∈ oc2.acls

/-- The text of the exception list that localPodAddACL passes on. -/
def exceptText (gress : gressPolicy) : String :=
  "\x7b" ++ ", ".intercalate gress.ipBlockExcept ++ "\x7d"

/-- An event that localPodAddACL may issue for a rule: the insertion of the
ip-block deny row, of an allow row for the CIDR, or of the allow row for the
peer address sets, without or with a layer-4 match. -/
def RuleEvent (E : Env) (np : namespacePolicy) (gress : gressPolicy) (e : Event) : Prop :=
  (gress.ipBlockCidr ≠ [] ∧ gress.ipBlockExcept ≠ [] ∧
    e = Event.insertACL (ipBlockDenyRow E np (exceptText gress) E.ipBlockDenyPriority
      gress.idx gress.policyType) np.portGroupUUID) ∨
  (∃ l4, gress.ipBlockCidr ≠ [] ∧
    e = Event.insertACL (allowRow E np
      (E.getMatchFromIPBlock gress (lportMatch np.portGroupName gress.policyType) l4) l4 true
      gress.idx gress.policyType) np.portGroupUUID) ∨
  (gress.portPolicies = [] ∧
    e = Event.insertACL (allowRow E np
      ("match=\"" ++ (E.getL3MatchFromAddressSet gress ++ " && " ++
        lportMatch np.portGroupName gress.policyType) ++ "\"")
      E.noneMatch false gress.idx gress.policyType) np.portGroupUUID) ∨
  (∃ port ∈ gress.portPolicies, ∃ l4, E.getL4Match port = Except.ok l4 ∧
    e = Event.insertACL (allowRow E np
      ("match=\"" ++ (E.getL3MatchFromAddressSet gress ++ " && " ++ l4 ++ " && " ++
        lportMatch np.portGroupName gress.policyType) ++ "\"")
      l4 false gress.idx gress.policyType) np.portGroupUUID)

/-- An ingress rule with index 0 and nothing else. -/
def gressPlain : gressPolicy where
  policyType := PolicyTypeIngress
  idx := 0
  peerAddressSets := []
  portPolicies := []
  ipBlockCidr := []
  ipBlockExcept := []

/-- The record of the policy allow-web with a line feed in the name of its
port group. -/
def npTwoLines : namespacePolicy :=
  { npAllowWeb with portGroupName := "a\n1" }

/-- An ingress rule with index 0 and one TCP port policy. -/
def gressTcp : gressPolicy where
  policyType := PolicyTypeIngress
  idx := 0
  peerAddressSets := []
  portPolicies := [{ protocol := "TCP", port := 80 }]
  ipBlockCidr := []
  ipBlockExcept := []

/-- An ingress rule for the CIDR 10.0.0.0/8 except 10.1.0.0/16, with no port
policy. -/
def gressIpBlock : gressPolicy where
  policyType := PolicyTypeIngress
  idx := 0
  peerAddressSets := []
  portPolicies := []
  ipBlockCidr := ["10.0.0.0/8"]
  ipBlockExcept := ["10.1.0.0/16"]

/-- The same rule with one port policy of a protocol that is none of TCP, UDP
and SCTP, for which no L4 match is obtained. -/
def gressIpBlockIcmp : gressPolicy :=
  { gressIpBlock with portPolicies := [{ protocol := "ICMP", port := 80 }] }

/-! ## Local pods of a policy -/

/-- Method handleLocalPodSelectorAddFunc.  The record of the policy is passed
and returned, being shared between the caller and the callback. -/
def handleLocalPodSelectorAddFunc (E : Env) (oc : Controller) (policy : NetworkPolicy)
    (np : namespacePolicy) (pod : Pod) : Controller × namespacePolicy :=
  let ipAddress := E.getIPFromOvnAnnotation pod.ovnAnnotation
  if ipAddress = "" then (oc, np)
  else
    let logicalSwitch := pod.NodeName
    if logicalSwitch = "" then (oc, np)
    else
      let logicalPort := pod.Namespace ++ "_" ++ pod.Name
      let logicalPortUUID := getLogicalPortUUID oc logicalPort
      if logicalPortUUID = "" then (oc, np)
      else if np.deleted then (oc, np)
      else if logicalPort ∈ np.localPods then (oc, np)
      else
        let oc := localPodAddDefaultDeny E oc policy logicalPort
        if np.portGroupUUID = "" then (oc, np)
        else
          let oc :=
            (if logicalPortUUID ∉ oc.portGroupPorts np.portGroupUUID then
              let ev := Event.insertPort np.portGroupUUID logicalPortUUID
              match E.commit oc ev with
              | none =>
                { oc.emit ev with
                  portGroupPorts := Function.update oc.portGroupPorts np.portGroupUUID
                    (oc.portGroupPorts np.portGroupUUID ++ [logicalPortUUID]) }
              | some _ => oc.emit ev
            else oc)
          (oc, { np with localPods := np.localPods ++ [logicalPort] })

/-- Method handleLocalPodSelectorDelFunc. -/
def handleLocalPodSelectorDelFunc (E : Env) (oc : Controller) (policy : NetworkPolicy)
    (np : namespacePolicy) (pod : Pod) : Controller × namespacePolicy :=
  let logicalSwitch := pod.NodeName
  if logicalSwitch = "" then (oc, np)
  else
    let logicalPort := pod.Namespace ++ "_" ++ pod.Name
    let logicalPortUUID := getLogicalPortUUID oc logicalPort
    if np.deleted then (oc, np)
    else if logicalPort ∉ np.localPods then (oc, np)
    else
      let np := { np with localPods := np.localPods.filter (fun lp => lp != logicalPort) }
      let oc := localPodDelDefaultDeny E oc policy logicalPort
      if logicalPortUUID = "" ∨ np.portGroupUUID = "" then (oc, np)
      else if logicalPortUUID ∈ oc.portGroupPorts np.portGroupUUID then
        let ev := Event.deletePort np.portGroupUUID logicalPortUUID
        match E.commit oc ev with
        | none =>
          ({ oc.emit ev with
              portGroupPorts := Function.update oc.portGroupPorts np.portGroupUUID
                ((oc.portGroupPorts np.portGroupUUID).filter
                  (fun u => u != logicalPortUUID)) }, np)
        | some _ => (oc.emit ev, np)
      else (oc, np)

/-- A handler is registered with the watch factory: the request is recorded,
the answer is that of the environment. -/
def registerHandler (E : Env) (oc : Controller) (h : Handler) : Option String × Controller :=
  (E.addHandler oc h, oc.emit (Event.addHandler h))

/-- Method handleLocalPodSelector: the registration; the callbacks are
handleLocalPodSelectorAddFunc (add and update) and
handleLocalPodSelectorDelFunc. -/
def handleLocalPodSelector (E : Env) (oc : Controller) (policy : NetworkPolicy)
    (np : namespacePolicy) : Controller × namespacePolicy :=
  let h := Handler.localPod policy.Namespace policy.PodSelector
  let r := registerHandler E oc h
  match r.1 with
  | some _ => (r.2, np)
  | none => (r.2, { np with podHandlerList := np.podHandlerList ++ [h] })

/-- Method handlePeerNamespaceAndPodSelector: the registration. -/
def handlePeerNamespaceAndPodSelector (E : Env) (oc : Controller)
    (namespaceSelector podSelector : LabelSelector) (addressSet : String)
    (np : namespacePolicy) : Controller × namespacePolicy :=
  let h := Handler.peerNamespaceAndPod namespaceSelector podSelector addressSet
  let r := registerHandler E oc h
  match r.1 with
  | some _ => (r.2, np)
  | none => (r.2, { np with nsHandlerList := np.nsHandlerList ++ [h] })

/-- Method handlePeerPodSelector: the registration. -/
def handlePeerPodSelector (E : Env) (oc : Controller) (policy : NetworkPolicy)
    (podSelector : LabelSelector) (addressSet : String) (np : namespacePolicy) :
    Controller × namespacePolicy :=
  let h := Handler.peerPod policy.Namespace podSelector addressSet
  let r := registerHandler E oc h
  match r.1 with
  | some _ => (r.2, np)
  | none => (r.2, { np with podHandlerList := np.podHandlerList ++ [h] })

/-- Method handlePeerNamespaceSelector: the registration. -/
def handlePeerNamespaceSelector (E : Env) (oc : Controller)
    (namespaceSelector : LabelSelector) (gress : gressPolicy) (np : namespacePolicy) :
    Controller × namespacePolicy :=
  let h := Handler.peerNamespace namespaceSelector gress.policyType gress.idx
  let r := registerHandler E oc h
  match r.1 with
  | some _ => (r.2, np)
  | none => (r.2, { np with nsHandlerList := np.nsHandlerList ++ [h] })

/-! ## Adding and deleting a policy -/

/-- Write the record of a policy into namespacePolicies, or remove it. -/
def Controller.setPolicy (oc : Controller) (ns name : String)
    (np : Option namespacePolicy) : Controller :=
  { oc with
    namespacePolicies := fun a b =>
      if a = ns ∧ b = name then np else oc.namespacePolicies a b }

/-- Function createAddressSet, declared outside policy.go, called without
addresses: the call is recorded. -/
def createAddressSet (oc : Controller) (name hashName : String) : Controller :=
  oc.emit (Event.createAddressSet name hashName)

/-- Function deleteAddressSet, declared outside policy.go: the call is
recorded. -/
def deleteAddressSet (oc : Controller) (hashName : String) : Controller :=
  oc.emit (Event.deleteAddressSet hashName)

/-- The name of the address set of the local peer pods of rule i. -/
def localPeerPods (policy : NetworkPolicy) (kind : String) (i : Nat) : String :=
  policy.Namespace ++ "." ++ policy.Name ++ "." ++ kind ++ "." ++ toString i

/-- The second loop over the peers of a rule in addNetworkPolicyPortGroup:
the watcher of one peer. -/
def addPeerHandler (E : Env) (policy : NetworkPolicy) (hashedLocalAddressSet : String)
    (gress : gressPolicy) (st : Controller × namespacePolicy) (peer : NetworkPolicyPeer) :
    Controller × namespacePolicy :=
  match peer.NamespaceSelector, peer.PodSelector with
  | some nsSel, some podSel =>
    handlePeerNamespaceAndPodSelector E st.1 nsSel podSel hashedLocalAddressSet st.2
  | some nsSel, none => handlePeerNamespaceSelector E st.1 nsSel gress st.2
  | none, some podSel => handlePeerPodSelector E st.1 policy podSel hashedLocalAddressSet st.2
  | none, none => st

/-- The rule record that addNetworkPolicyPortGroup builds for rule i before
it calls localPodAddACL. -/
def buildGress (E : Env) (policy : NetworkPolicy) (policyType : PolicyType) (kind : String)
    (i : Nat) (rule : NetworkPolicyRule) : gressPolicy :=
  let gress := E.newGressPolicy policyType i
  let gress := rule.Ports.foldl E.addPortPolicy gress
  let gress :=
    (if rule.Peers.length ≠ 0 then
      E.addAddressSet gress (E.hashedAddressSet (localPeerPods policy kind i))
    else gress)
  rule.Peers.foldl
    (fun g peer => match peer.IPBlock with
      | some b => E.addIPBlock g b
      | none => g)
    gress

/-- The body of the loop over the ingress rules (kind "ingress") and of the
loop over the egress rules (kind "egress") of addNetworkPolicyPortGroup; the
result carries the rule record to append. -/
def addGress (E : Env) (policy : NetworkPolicy) (policyType : PolicyType) (kind : String)
    (st : Controller × namespacePolicy) (i : Nat) (rule : NetworkPolicyRule) :
    (Controller × namespacePolicy) × gressPolicy :=
  let hashedLocalAddressSet :=
    if rule.Peers.length ≠ 0 then E.hashedAddressSet (localPeerPods policy kind i) else ""
  let oc :=
    (if rule.Peers.length ≠ 0 then
      createAddressSet st.1 (localPeerPods policy kind i) hashedLocalAddressSet
    else st.1)
  let gress := buildGress E policy policyType kind i rule
  let oc := localPodAddACL E oc st.2 gress
  (rule.Peers.foldl (addPeerHandler E policy hashedLocalAddressSet gress) (oc, st.2), gress)

/-- The loop over the ingress rules of addNetworkPolicyPortGroup. -/
def addIngressRules (E : Env) (policy : NetworkPolicy) (st : Controller × namespacePolicy) :
    Controller × namespacePolicy :=
  policy.Ingress.enum.foldl
    (fun st ir =>
      let r := addGress E policy PolicyTypeIngress "ingress" st ir.1 ir.2
      (r.1.1, { r.1.2 with ingressPolicies := r.1.2.ingressPolicies ++ [r.2] }))
    st

/-- The loop over the egress rules of addNetworkPolicyPortGroup.  For a peer
with a namespace selector alone this loop starts handlePeerNamespaceSelector
with the go statement; here the registration runs in program order, as in the
loop over the ingress rules. -/
def addEgressRules (E : Env) (policy : NetworkPolicy) (st : Controller × namespacePolicy) :
    Controller × namespacePolicy :=
  policy.Egress.enum.foldl
    (fun st ir =>
      let r := addGress E policy PolicyTypeEgress "egress" st ir.1 ir.2
      (r.1.1, { r.1.2 with egressPolicies := r.1.2.egressPolicies ++ [r.2] }))
    st

/-- Method addNetworkPolicyPortGroup.  The watchers it starts are registered
in program order; their callbacks run as separate steps. -/
def addNetworkPolicyPortGroup (E : Env) (oc : Controller) (policy : NetworkPolicy) :
    Controller :=
  if (oc.namespacePolicies policy.Namespace policy.Name).isSome then oc
  else
    match E.waitForNamespaceEvent oc policy.Namespace with
    | some _ => oc
    | none =>
      let readableGroupName := policy.Namespace ++ "_" ++ policy.Name
      let portGroupName := E.hashedPortGroup readableGroupName
      let r := createPortGroup E oc readableGroupName portGroupName
      match r.1 with
      | Except.error _ => r.2
      | Except.ok portGroupUUID =>
        let np : namespacePolicy :=
          { name := policy.Name, namespace_ := policy.Namespace,
            ingressPolicies := [], egressPolicies := [],
            podHandlerList := [], nsHandlerList := [], localPods := [],
            portGroupUUID := portGroupUUID, portGroupName := portGroupName,
            deleted := false }
        let st := addIngressRules E policy (r.2, np)
        let st := addEgressRules E policy st
        let st := handleLocalPodSelector E st.1 policy st.2
        st.1.setPolicy policy.Namespace policy.Name (some st.2)

/-- Method deleteNetworkPolicyPortGroup.  The second component is the record
of the policy as the call leaves it, none for a policy that is not tracked;
the callbacks registered for the policy still hold that record. -/
def deleteNetworkPolicyPortGroup (E : Env) (oc : Controller) (policy : NetworkPolicy) :
    Controller × Option namespacePolicy :=
  match oc.namespacePolicies policy.Namespace policy.Name with
  | none => (oc, none)
  | some np =>
    let np := { np with deleted := true }
    let oc := (List.range np.ingressPolicies.length).foldl
      (fun oc i => deleteAddressSet oc (E.hashedAddressSet (localPeerPods policy "ingress" i)))
      oc
    let oc := (List.range np.egressPolicies.length).foldl
      (fun oc i => deleteAddressSet oc (E.hashedAddressSet (localPeerPods policy "egress" i)))
      oc
    let oc := oc.emit (Event.shutdownHandlers np.namespace_ np.name)
    let oc := np.localPods.foldl (fun oc lp => localPodDelDefaultDeny E oc policy lp) oc
    let oc := oc.emit (Event.deletePortGroup np.portGroupName)
    (oc.setPolicy policy.Namespace policy.Name none, some np)

/-- The add or update callback of the local-pod watcher of a policy: it runs
handleLocalPodSelectorAddFunc on the record of the policy, which the callback
shares with namespacePolicies; a record that left the map is a deleted one,
on which the callback returns at once. -/
def localPodAddEvent (E : Env) (oc : Controller) (policy : NetworkPolicy) (pod : Pod) :
    Controller :=
  match oc.namespacePolicies policy.Namespace policy.Name with
  | none => oc
  | some np =>
    let r := handleLocalPodSelectorAddFunc E oc policy np pod
    r.1.setPolicy policy.Namespace policy.Name (some r.2)

/-- The delete callback of the local-pod watcher of a policy. -/
def localPodDelEvent (E : Env) (oc : Controller) (policy : NetworkPolicy) (pod : Pod) :
    Controller :=
  match oc.namespacePolicies policy.Namespace policy.Name with
  | none => oc
  | some np =>
    let r := handleLocalPodSelectorDelFunc E oc policy np pod
    r.1.setPolicy policy.Namespace policy.Name (some r.2)

/-- Whether a policy is tracked, not deleted, counted for a direction by the
given test, and has the logical port among its local pods. -/
def governs (oc : Controller) (counted : NetworkPolicy → Bool) (logicalPort : String)
    (policy : NetworkPolicy) : Bool :=
  match oc.namespacePolicies policy.Namespace policy.Name with
  | some np => !np.deleted && counted policy && decide (logicalPort ∈ np.localPods)
  | none => false

/-- The number of policies of the list that govern the logical port. -/
def governingCount (oc : Controller) (counted : NetworkPolicy → Bool) (logicalPort : String)
    (policies : List NetworkPolicy) : Nat :=
  (policies.filter (governs oc counted logicalPort)).length

/-- An environment like Env.accepting, except that createPortGroup answers
the request for the port group of a policy with an empty uuid and no error. -/
def Env.emptyPolicyGroup : Env :=
  { Env.accepting with
    createPortGroup := fun _ n _ =>
      if n = "ingressDefaultDeny" ∨ n = "egressDefaultDeny" then Except.ok ("pg-" ++ n)
      else Except.ok "" }

/-- Pod web-1 of namespace dev, scheduled and with an address. -/
def podWeb1 : Pod where
  Namespace := "dev"
  Name := "web-1"
  NodeName := "node-1"
  ovnAnnotation := "10.128.0.5"

/-- The empty controller after the policy allow-web was added, the port group
of the policy having an empty uuid. -/
def ocPolicyAdded : Controller :=
  addNetworkPolicyPortGroup Env.emptyPolicyGroup (Controller.empty webPorts) policyAllowWeb

/-- The entries of external_ids by which modifyACLAllow looks a rule up. -/
def modifyExternalIds (namespace_ policy : String) (gressNum : Int) (policyType : PolicyType) :
    List (String × String) :=
  [("namespace", namespace_), ("policy", policy),
   (policyType ++ "_num", toString gressNum), ("policy_type", policyType)]

/-- The value modifyACLAllow writes: inside the branch a new variable newMatch
is declared, which holds the group of the pattern when the argument matches
it and stays empty otherwise. -/
def writtenMatch (newMatch : String) : String :=
  match FindStringSubmatch newMatch with
  | some m => m
  | none => ""

/-- The cache of the ACL table after the match column of the row with the
given uuid was updated. -/
def updateMatch (acls : List (String × ACL)) (uuid newMatch : String) : List (String × ACL) :=
  acls.map fun r => if r.1 = uuid then (r.1, { r.2 with match_ := newMatch }) else r

/-- Method modifyACLAllow. -/
def modifyACLAllow (E : Env) (oc : Controller) (namespace_ policy oldMatch newMatch : String)
    (gressNum : Int) (policyType : PolicyType) : Controller :=
  let oldMatch := match FindStringSubmatch oldMatch with
    | some m => m
    | none => oldMatch
  let uuid := getACLUUIDFromMap oc.acls
    [("match", Val.str oldMatch),
     ("external_ids", Val.ids (modifyExternalIds namespace_ policy gressNum policyType))]
  if uuid ≠ "" then
    let ev := Event.updateACLMatch uuid (writtenMatch newMatch)
    match E.commit oc ev with
    | none => { oc.emit ev with acls := updateMatch oc.acls uuid (writtenMatch newMatch) }
    | some _ => oc.emit ev
  else oc

/-- The rows correspond one to one, with the same uuid and the same columns
other than match. -/
def SameButMatch (acls acls2 : List (String × ACL)) : Prop :=
  List.Forall₂
    (fun a b => a.1 = b.1 ∧ a.2.priority = b.2.priority ∧ a.2.direction = b.2.direction ∧
      a.2.action = b.2.action ∧ a.2.external_ids = b.2.external_ids)
    acls acls2

/-- The number of positions at which the two tables differ. -/
def changedRows (acls acls2 : List (String × ACL)) : Nat :=
  ((acls.zip acls2).filter (fun ab => decide (ab.1 ≠ ab.2))).length

/-- The empty controller after addACLAllow inserted the allow row of rule 0 of
the policy allow-web with the match a. -/
def ocOneAllow : Controller :=
  addACLAllow Env.accepting (Controller.empty (fun _ => "")) npAllowWeb "match=\"a\"" "None"
    false 0 PolicyTypeIngress

/-! ## Peer pods of a rule -/

/-- Function setAddressSet, declared outside policy.go: the call is recorded. -/
def setAddressSet (oc : Controller) (hashName : String) (addresses : List String) :
    Controller :=
  oc.emit (Event.setAddressSet hashName addresses)

/-- The address of a pod: getIPFromOvnAnnotation of its ovn annotation. -/
def podIP (E : Env) (pod : Pod) : String :=
  E.getIPFromOvnAnnotation pod.ovnAnnotation

/-- Method handlePeerPodSelectorAddUpdate.  The address map of the rule is
passed and returned; its keys are listed in the order in which the loop over
the map visits them.  The argument policy, which the method does not read, is
left out. -/
def handlePeerPodSelectorAddUpdate (E : Env) (oc : Controller) (np : namespacePolicy)
    (addressMap : List String) (addressSet : String) (pod : Pod) :
    Controller × List String :=
  let ipAddress := E.getIPFromOvnAnnotation pod.ovnAnnotation
  if ipAddress = "" ∨ ipAddress ∈ addressMap then (oc, addressMap)
  else if np.deleted then (oc, addressMap)
  else
    let addressMap := addressMap ++ [ipAddress]
    (setAddressSet oc addressSet addressMap, addressMap)

/-- Method handlePeerPodSelectorDelete, likewise without the argument policy. -/
def handlePeerPodSelectorDelete (E : Env) (oc : Controller) (np : namespacePolicy)
    (addressMap : List String) (addressSet : String) (pod : Pod) :
    Controller × List String :=
  let ipAddress := E.getIPFromOvnAnnotation pod.ovnAnnotation
  if ipAddress = "" then (oc, addressMap)
  else if np.deleted then (oc, addressMap)
  else if ipAddress ∉ addressMap then (oc, addressMap)
  else
    let addressMap := addressMap.filter (fun a => a != ipAddress)
    (setAddressSet oc addressSet addressMap, addressMap)

/-- Pod frontend-1 of namespace dev, with address 10.1.0.5. -/
def podFrontend1 : Pod where
  Namespace := "dev"
  Name := "frontend-1"
  NodeName := "node-1"
  ovnAnnotation := "10.1.0.5"

/-- An event delivered to the peer-pod watcher of a rule; an update carries
the old and the new object. -/
inductive PodEvent where
  | add (pod : Pod)
  | update (oldPod newPod : Pod)
  | delete (pod : Pod)
  deriving DecidableEq, Repr

/-- The callbacks that handlePeerPodSelector registers: add and update run
handlePeerPodSelectorAddUpdate on the (new) object, delete runs
handlePeerPodSelectorDelete. -/
def peerPodEvent (E : Env) (np : namespacePolicy) (addressSet : String)
    (st : Controller × List String) : PodEvent → Controller × List String
  | PodEvent.add pod => handlePeerPodSelectorAddUpdate E st.1 np st.2 addressSet pod
  | PodEvent.update _ pod => handlePeerPodSelectorAddUpdate E st.1 np st.2 addressSet pod
  | PodEvent.delete pod => handlePeerPodSelectorDelete E st.1 np st.2 addressSet pod

/-- A sequence of events delivered one after the other. -/
def peerPodEvents (E : Env) (np : namespacePolicy) (addressSet : String)
    (st : Controller × List String) (events : List PodEvent) : Controller × List String :=
  events.foldl (peerPodEvent E np addressSet) st

/-- Namespace and name of a pod. -/
def podKey (pod : Pod) : String × String := (pod.Namespace, pod.Name)

/-- The pods present after an event, each with its current object: an add or
update makes the object the current one of its pod, a delete removes the pod. -/
def presentAfter (pods : List Pod) : PodEvent → List Pod
  | PodEvent.add pod => pod :: pods.filter (fun q => podKey q != podKey pod)
  | PodEvent.update _ pod => pod :: pods.filter (fun q => podKey q != podKey pod)
  | PodEvent.delete pod => pods.filter (fun q => podKey q != podKey pod)

/-- The pods present after a sequence of events. -/
def presentPods (pods : List Pod) (events : List PodEvent) : List Pod :=
  events.foldl presentAfter pods

/-- The contents of an address set after the requests of a trace: the
addresses of the last setAddressSet for it, none when there is no such
request. -/
def addressSetContents (trace : List Event) (hashName : String) : List String :=
  trace.foldl
    (fun cur e => match e with
      | Event.setAddressSet h addresses => if h = hashName then addresses else cur
      | _ => cur)
    []

/-- An event that leaves the addresses of the present pods steady: an add or
update shows, for a pod that already has an address, that same address; a
delete shows the address the pod has, and no other present pod has it. -/
def SteadyEvent (E : Env) (pods : List Pod) : PodEvent → Prop
  | PodEvent.add pod =>
    ∀ q ∈ pods, podKey q = podKey pod → podIP E q = "" ∨ podIP E q = podIP E pod
  | PodEvent.update _ pod =>
    ∀ q ∈ pods, podKey q = podKey pod → podIP E q = "" ∨ podIP E q = podIP E pod
  | PodEvent.delete pod =>
    (∀ q ∈ pods, podKey q = podKey pod → podIP E q = podIP E pod) ∧
    (∀ q ∈ pods, podKey q ≠ podKey pod → podIP E pod = "" ∨ podIP E q ≠ podIP E pod)

/-- Every event of the sequence is steady for the pods present before it. -/
def SteadyEvents (E : Env) : List Pod → List PodEvent → Prop
  | _, [] => True
  | pods, e :: es => SteadyEvent E pods e ∧ SteadyEvents E (presentAfter pods e) es

/-- The tracked addresses are, each once, the addresses of the present pods,
and are what the address set holds. -/
def TracksPods (E : Env) (addressSet : String) (pods : List Pod)
    (st : Controller × List String) : Prop :=
  (∀ ip, ip ∈ st.2 ↔ ip ≠ "" ∧ ∃ q ∈ pods, podIP E q = ip) ∧ st.2.Nodup ∧
    addressSetContents st.1.trace addressSet = st.2

/-- Pod frontend-1 of namespace dev after its address changed to 10.1.0.9. -/
def podFrontend1Moved : Pod :=
  { podFrontend1 with ovnAnnotation := "10.1.0.9" }

/-- The hashed name of the address set that a createAddressSet request
creates. -/
def Event.createdSet : Event → Option String
  | Event.createAddressSet _ h => some h
  | _ => none

/-- The requests by which deleteNetworkPolicyPortGroup deletes the address
sets of the first n rules of a kind (ingress or egress). -/
def addressSetDeletes (E : Env) (policy : NetworkPolicy) (kind : String) (n : Nat) :
    List Event :=
  (List.range n).map fun i =>
    Event.deleteAddressSet (E.hashedAddressSet (localPeerPods policy kind i))

/-- The controller with events appended to its trace. -/
def Controller.emitAll (oc : Controller) (l : List Event) : Controller :=
  { oc with trace := oc.trace ++ l }

/-- A request or a transaction of the default-deny bookkeeping. -/
def Event.isDenyBookkeeping (e : Event) : Bool :=
  e.isRequest || e.isPortWrite

/-- The state in which deleteNetworkPolicyPortGroup starts its loop over the
local pods: the address sets of the rules were deleted, then the handlers shut
down. -/
def afterShutdown (E : Env) (oc : Controller) (policy : NetworkPolicy)
    (np : namespacePolicy) : Controller :=
  oc.emitAll (addressSetDeletes E policy "ingress" np.ingressPolicies.length ++
    addressSetDeletes E policy "egress" np.egressPolicies.length ++
    [Event.shutdownHandlers np.namespace_ np.name])

/-- The second state extends the trace of the first by events that create no
address set, and the record keeps its lists of rules. -/
def QuietStep (st st2 : Controller × namespacePolicy) : Prop :=
  ∃ l, Extends st.1 st2.1 l ∧ (∀ e ∈ l, e.createdSet = none) ∧
    st2.2.ingressPolicies = st.2.ingressPolicies ∧
    st2.2.egressPolicies = st.2.egressPolicies

/-- The state and the record after the loops over the rules and the
registration of the local-pod watcher in addNetworkPolicyPortGroup, when the
port group of the policy was created with the given uuid. -/
def policyAdded (E : Env) (oc : Controller) (policy : NetworkPolicy) (uuid : String) :
    Controller × namespacePolicy :=
  let st := addEgressRules E policy (addIngressRules E policy
    (oc.emit (Event.createPortGroup (policy.Namespace ++ "_" ++ policy.Name)
        (E.hashedPortGroup (policy.Namespace ++ "_" ++ policy.Name))),
      { name := policy.Name, namespace_ := policy.Namespace,
        ingressPolicies := [], egressPolicies := [],
        podHandlerList := [], nsHandlerList := [], localPods := [],
        portGroupUUID := uuid,
        portGroupName := E.hashedPortGroup (policy.Namespace ++ "_" ++ policy.Name),
        deleted := false }))
  handleLocalPodSelector E st.1 policy st.2

/-- The policy from-frontend of namespace dev: one ingress rule that allows
TCP port 80 from the pods with label app=frontend. -/
def policyFromFrontend : NetworkPolicy where
  Namespace := "dev"
  Name := "from-frontend"
  PodSelector := "app=web"
  PolicyTypes := [PolicyTypeIngress]
  Ingress :=
    [{ Ports := [{ Protocol := "TCP", Port := 80 }],
       Peers := [{ PodSelector := some "app=frontend", NamespaceSelector := none,
                   IPBlock := none }] }]
  Egress := []

/-- The empty controller after the policy from-frontend was added. -/
def ocFromFrontend : Controller :=
  addNetworkPolicyPortGroup Env.accepting (Controller.empty webPorts) policyFromFrontend

/-- The record of the policy from-frontend after it was added. -/
def npFromFrontend : namespacePolicy :=
  (policyAdded Env.accepting (Controller.empty webPorts) policyFromFrontend
    "pg-dev_from-frontend").2

/-! ## Peer namespaces of a rule -/

/-- Method handlePeerNamespaceSelectorModify. -/
def handlePeerNamespaceSelectorModify (E : Env) (oc : Controller) (gress : gressPolicy)
    (np : namespacePolicy) (oldl3Match newl3Match : String) : Controller :=
  let lportMatch := lportMatch np.portGroupName gress.policyType
  let oc :=
    (if gress.portPolicies.length = 0 then
      modifyACLAllow E oc np.namespace_ np.name
        ("match=\"" ++ (oldl3Match ++ " && " ++ lportMatch) ++ "\"")
        ("match=\"" ++ (newl3Match ++ " && " ++ lportMatch) ++ "\"")
        gress.idx gress.policyType
    else oc)
  gress.portPolicies.foldl
    (fun oc port =>
      match E.getL4Match port with
      | Except.error _ => oc
      | Except.ok l4Match =>
        modifyACLAllow E oc np.namespace_ np.name
          ("match=\"" ++ (oldl3Match ++ " && " ++ l4Match ++ " && " ++ lportMatch) ++ "\"")
          ("match=\"" ++ (newl3Match ++ " && " ++ l4Match ++ " && " ++ lportMatch) ++ "\"")
          gress.idx gress.policyType)
    oc

/-- The add callback that handlePeerNamespaceSelector registers, for a
namespace of the given name; the rule record is passed and returned. -/
def handlePeerNamespaceSelectorAddFunc (E : Env) (oc : Controller) (np : namespacePolicy)
    (gress : gressPolicy) (namespaceName : String) : Controller × gressPolicy :=
  if np.deleted then (oc, gress)
  else
    let hashedAddressSet := E.hashedAddressSet namespaceName
    let r := E.addAddressSetResult gress hashedAddressSet
    let gress := E.addAddressSet gress hashedAddressSet
    if r.2.2 then (handlePeerNamespaceSelectorModify E oc gress np r.1 r.2.1, gress)
    else (oc, gress)

/-- The delete callback that handlePeerNamespaceSelector registers. -/
def handlePeerNamespaceSelectorDelFunc (E : Env) (oc : Controller) (np : namespacePolicy)
    (gress : gressPolicy) (namespaceName : String) : Controller × gressPolicy :=
  if np.deleted then (oc, gress)
  else
    let hashedAddressSet := E.hashedAddressSet namespaceName
    let r := E.delAddressSetResult gress hashedAddressSet
    let gress := E.delAddressSet gress hashedAddressSet
    if r.2.2 then (handlePeerNamespaceSelectorModify E oc gress np r.1 r.2.1, gress)
    else (oc, gress)

/-- The add callback that handlePeerNamespaceAndPodSelector registers for the
namespaces: it registers a pod watcher in the namespace of the given name. -/
def handlePeerNamespaceAndPodSelectorAddFunc (E : Env) (oc : Controller)
    (np : namespacePolicy) (podSelector : LabelSelector) (addressSet : String)
    (namespaceName : String) : Controller × namespacePolicy :=
  if np.deleted then (oc, np)
  else
    let h := Handler.nestedPeerPod namespaceName podSelector addressSet
    let r := registerHandler E oc h
    match r.1 with
    | some _ => (r.2, np)
    | none => (r.2, { np with podHandlerList := np.podHandlerList ++ [h] })

/-- The record of the policy allow-web after the policy was deleted. -/
def npAllowWebDeleted : namespacePolicy :=
  { npAllowWeb with deleted := true, localPods := ["dev_web-1"] }

/-! ## The startup sync -/

/-- The map expectedPolicies after the first loop of
syncNetworkPoliciesPortGroup: each policy of the list replaces the map of its
namespace by the map with its own name alone; an entry none of the list is an
object that is no network policy and is skipped. -/
def expectedPolicies (networkPolicies : List (Option NetworkPolicy)) :
    String → String → Bool :=
  networkPolicies.foldl
    (fun m o => match o with
      | none => m
      | some policy =>
        Function.update m policy.Namespace (fun name => decide (name = policy.Name)))
    (fun _ _ => false)

/-- Function deletePortGroup, declared outside policy.go: the call is
recorded. -/
def deletePortGroup (oc : Controller) (hashName : String) : Controller :=
  oc.emit (Event.deletePortGroup hashName)

/-- The callback that syncNetworkPoliciesPortGroup passes to
forEachAddressSetUnhashedName, for an address set with its unhashed name, its
namespace and its policy name. -/
def syncAddressSet (E : Env) (expected : String → String → Bool) (oc : Controller)
    (a : String × String × String) : Controller :=
  if a.2.2 ≠ "" ∧ (expected a.2.1 a.2.2) = false then
    let portGroupName := a.2.1 ++ "_" ++ a.2.2
    let hashedLocalPortGroup := E.hashedPortGroup portGroupName
    let oc := deletePortGroup oc hashedLocalPortGroup
    deleteAddressSet oc (E.hashedAddressSet a.1)
  else oc

/-- Method syncNetworkPoliciesPortGroup.  The address sets are those that
forEachAddressSetUnhashedName, declared outside policy.go, visits, in its
order, each with its unhashed name, namespace and policy name. -/
def syncNetworkPoliciesPortGroup (E : Env) (oc : Controller)
    (networkPolicies : List (Option NetworkPolicy))
    (addressSets : List (String × String × String)) : Controller :=
  let expected := expectedPolicies networkPolicies
  addressSets.foldl (syncAddressSet E expected) oc

/-- The record of the policy allow-web when its port group has an empty
uuid. -/
def npNoGroup : namespacePolicy :=
  { npAllowWeb with portGroupUUID := "" }

/-- The stripping of the wrapper as the specification words it: the text
inside the wrapper when the string has the form of the text match=, a double
quote, a text and a double quote, and the string itself otherwise. -/
def strippedMatchSpec (m : String) : String :=
  if matchPrefix.isPrefixOf m.toList ∧ 8 ≤ m.toList.length ∧
      m.toList.getLast? = some dquote then
    String.mk ((m.toList.drop 7).dropLast)
  else m

/-! ## Frame lemmas: what the helpers leave alone -/

@[simp] theorem emit_lspIngressDenyCache (oc : Controller) (e : Event) :
    (oc.emit e).lspIngressDenyCache = oc.lspIngressDenyCache := rfl

@[simp] theorem emit_lspEgressDenyCache (oc : Controller) (e : Event) :
    (oc.emit e).lspEgressDenyCache = oc.lspEgressDenyCache := rfl

@[simp] theorem emit_portGroupIngressDeny (oc : Controller) (e : Event) :
    (oc.emit e).portGroupIngressDeny = oc.portGroupIngressDeny := rfl

@[simp] theorem emit_portGroupEgressDeny (oc : Controller) (e : Event) :
    (oc.emit e).portGroupEgressDeny = oc.portGroupEgressDeny := rfl

@[simp] theorem emit_trace (oc : Controller) (e : Event) :
    (oc.emit e).trace = oc.trace ++ [e] := rfl

@[simp] theorem emit_acls (oc : Controller) (e : Event) :
    (oc.emit e).acls = oc.acls := rfl

@[simp] theorem emit_portGroupPorts (oc : Controller) (e : Event) :
    (oc.emit e).portGroupPorts = oc.portGroupPorts := rfl

@[simp] theorem emit_logicalPorts (oc : Controller) (e : Event) :
    (oc.emit e).logicalPorts = oc.logicalPorts := rfl

@[simp] theorem emit_namespacePolicies (oc : Controller) (e : Event) :
    (oc.emit e).namespacePolicies = oc.namespacePolicies := rfl

theorem keepsCounters_refl (oc : Controller) : KeepsCounters oc oc :=
  ⟨rfl, rfl, rfl, rfl⟩

theorem keepsCounters_trans {a b c : Controller} (h1 : KeepsCounters a b)
    (h2 : KeepsCounters b c) : KeepsCounters a c :=
  ⟨h2.ingress.trans h1.ingress, h2.egress.trans h1.egress,
   h2.logicalPorts.trans h1.logicalPorts, h2.namespacePolicies.trans h1.namespacePolicies⟩

theorem keepsCounters_emit (oc : Controller) (e : Event) : KeepsCounters oc (oc.emit e) :=
  ⟨rfl, rfl, rfl, rfl⟩

theorem insertACL_keeps (E : Env) (oc : Controller) (row : ACL) (pg : String) :
    KeepsCounters oc (insertACL E oc row pg).2 := by
  simp only [insertACL]
  split
  · exact ⟨rfl, rfl, rfl, rfl⟩
  · exact ⟨rfl, rfl, rfl, rfl⟩

theorem addACLDenyPortGroup_keeps (E : Env) (oc : Controller)
    (u n p : String) (t : PolicyType) :
    KeepsCounters oc (addACLDenyPortGroup E oc u n p t).2 := by
  simp only [addACLDenyPortGroup]
  split
  · exact keepsCounters_refl oc
  · split <;> exact insertACL_keeps E oc _ _

theorem createPortGroup_keeps (E : Env) (oc : Controller) (n h : String) :
    KeepsCounters oc (createPortGroup E oc n h).2 :=
  ⟨rfl, rfl, rfl, rfl⟩

theorem createDefaultDenyPortGroup_keeps (E : Env) (oc : Controller) (t : PolicyType) :
    KeepsCounters oc (createDefaultDenyPortGroup E oc t) := by
  unfold createDefaultDenyPortGroup
  split
  · exact keepsCounters_refl oc
  · split
    · exact keepsCounters_refl oc
    · simp only []
      split
      · exact createPortGroup_keeps E oc _ _
      · rename_i u _
        have h := keepsCounters_trans (createPortGroup_keeps E oc (defaultDenyName t) (defaultDenyName t))
          (addACLDenyPortGroup_keeps E
            (createPortGroup E oc (defaultDenyName t) (defaultDenyName t)).2
            u (defaultDenyName t) E.defaultDenyPriority t)
        split
        · exact h
        · split
          · exact ⟨h.ingress, h.egress, h.logicalPorts, h.namespacePolicies⟩
          · split
            · exact ⟨h.ingress, h.egress, h.logicalPorts, h.namespacePolicies⟩
            · exact h

theorem addToACLDeny_keeps (E : Env) (oc : Controller) (pg lp : String) :
    KeepsCounters oc (addToACLDeny E oc pg lp) := by
  simp only [addToACLDeny]
  split
  · exact ⟨rfl, rfl, rfl, rfl⟩
  · split
    · split <;> exact ⟨rfl, rfl, rfl, rfl⟩
    · exact ⟨rfl, rfl, rfl, rfl⟩

theorem deleteFromACLDeny_keeps (E : Env) (oc : Controller) (pg lp : String) :
    KeepsCounters oc (deleteFromACLDeny E oc pg lp) := by
  simp only [deleteFromACLDeny]
  split
  · exact ⟨rfl, rfl, rfl, rfl⟩
  · split
    · split <;> exact ⟨rfl, rfl, rfl, rfl⟩
    · exact ⟨rfl, rfl, rfl, rfl⟩

theorem ingressCounted_eq_false_iff (policy : NetworkPolicy) :
    ingressCounted policy = false ↔ policy.PolicyTypes = [PolicyTypeEgress] := by
  unfold ingressCounted
  rcases h : policy.PolicyTypes with _ | ⟨a, _ | ⟨b, l⟩⟩ <;> simp

/-- The ingress counters after localPodAddDefaultDeny. -/
theorem localPodAddDefaultDeny_ingress (E : Env) (oc : Controller) (policy : NetworkPolicy)
    (lp : String) :
    (localPodAddDefaultDeny E oc policy lp).lspIngressDenyCache =
      if ingressCounted policy then
        Function.update oc.lspIngressDenyCache lp (oc.lspIngressDenyCache lp + 1)
      else oc.lspIngressDenyCache := by
  have h2 := keepsCounters_trans (createDefaultDenyPortGroup_keeps E oc PolicyTypeIngress)
    (createDefaultDenyPortGroup_keeps E
      (createDefaultDenyPortGroup E oc PolicyTypeIngress) PolicyTypeEgress)
  simp only [localPodAddDefaultDeny]
  split_ifs <;>
    simp only [(addToACLDeny_keeps E _ _ _).ingress, (addToACLDeny_keeps E _ _ _).egress,
      h2.ingress, h2.egress]

/-- The egress counters after localPodAddDefaultDeny. -/
theorem localPodAddDefaultDeny_egress (E : Env) (oc : Controller) (policy : NetworkPolicy)
    (lp : String) :
    (localPodAddDefaultDeny E oc policy lp).lspEgressDenyCache =
      if egressCounted policy then
        Function.update oc.lspEgressDenyCache lp (oc.lspEgressDenyCache lp + 1)
      else oc.lspEgressDenyCache := by
  have h2 := keepsCounters_trans (createDefaultDenyPortGroup_keeps E oc PolicyTypeIngress)
    (createDefaultDenyPortGroup_keeps E
      (createDefaultDenyPortGroup E oc PolicyTypeIngress) PolicyTypeEgress)
  simp only [localPodAddDefaultDeny]
  split_ifs <;>
    simp only [(addToACLDeny_keeps E _ _ _).ingress, (addToACLDeny_keeps E _ _ _).egress,
      h2.ingress, h2.egress]

theorem egressCounted_iff (policy : NetworkPolicy) :
    egressCounted policy = true ↔
      policy.PolicyTypes = [PolicyTypeEgress] ∨ policy.Egress ≠ [] ∨
        policy.PolicyTypes.length = 2 := by
  unfold egressCounted
  have hE : policy.Egress.length > 0 ↔ policy.Egress ≠ [] := by
    cases policy.Egress <;> simp
  rcases h : policy.PolicyTypes with _ | ⟨a, _ | ⟨b, l⟩⟩ <;> simp [hE]

/-- The ingress counters after localPodDelDefaultDeny. -/
theorem localPodDelDefaultDeny_ingress (E : Env) (oc : Controller) (policy : NetworkPolicy)
    (lp : String) :
    (localPodDelDefaultDeny E oc policy lp).lspIngressDenyCache =
      if ingressCounted policy = true ∧ oc.lspIngressDenyCache lp > 0 then
        Function.update oc.lspIngressDenyCache lp (oc.lspIngressDenyCache lp - 1)
      else oc.lspIngressDenyCache := by
  simp only [localPodDelDefaultDeny]
  split_ifs <;>
    simp_all only [(deleteFromACLDeny_keeps E _ _ _).ingress,
      (deleteFromACLDeny_keeps E _ _ _).egress, and_self, and_true, true_and, not_true,
      not_false_eq_true, and_false, false_and]

/-- The egress counters after localPodDelDefaultDeny. -/
theorem localPodDelDefaultDeny_egress (E : Env) (oc : Controller) (policy : NetworkPolicy)
    (lp : String) :
    (localPodDelDefaultDeny E oc policy lp).lspEgressDenyCache =
      if egressCounted policy = true ∧ oc.lspEgressDenyCache lp > 0 then
        Function.update oc.lspEgressDenyCache lp (oc.lspEgressDenyCache lp - 1)
      else oc.lspEgressDenyCache := by
  simp only [localPodDelDefaultDeny]
  split_ifs <;>
    simp_all only [(deleteFromACLDeny_keeps E _ _ _).ingress,
      (deleteFromACLDeny_keeps E _ _ _).egress, and_self, and_true, true_and, not_true,
      not_false_eq_true, and_false, false_and]

theorem extends_refl (oc : Controller) : Extends oc oc [] := by
  simp [Extends]

theorem extends_trans {a b c : Controller} {l1 l2 : List Event} (h1 : Extends a b l1)
    (h2 : Extends b c l2) : Extends a c (l1 ++ l2) := by
  simp only [Extends] at *
  rw [h2, h1, List.append_assoc]

theorem addToACLDeny_groups (E : Env) (oc : Controller) (pg lp : String) :
    KeepsGroups oc (addToACLDeny E oc pg lp) := by
  simp only [addToACLDeny]
  split
  · exact ⟨rfl, rfl⟩
  · split
    · split <;> exact ⟨rfl, rfl⟩
    · exact ⟨rfl, rfl⟩

theorem deleteFromACLDeny_groups (E : Env) (oc : Controller) (pg lp : String) :
    KeepsGroups oc (deleteFromACLDeny E oc pg lp) := by
  simp only [deleteFromACLDeny]
  split
  · exact ⟨rfl, rfl⟩
  · split
    · split <;> exact ⟨rfl, rfl⟩
    · exact ⟨rfl, rfl⟩

/-- The events of addToACLDeny: the request, then at most one insertion of
the uuid of the port into the ports of the group. -/
theorem addToACLDeny_trace (E : Env) (oc : Controller) (pg lp : String) :
    ∃ w, Extends oc (addToACLDeny E oc pg lp) (Event.addToACLDeny pg lp :: w) ∧
      (w = [] ∨ w = [Event.insertPort pg (getLogicalPortUUID oc lp)]) := by
  simp only [addToACLDeny, Extends]
  split
  · exact ⟨[], rfl, Or.inl rfl⟩
  · split
    · split
      · exact ⟨[Event.insertPort pg (getLogicalPortUUID oc lp)], by
          simp [Controller.emit, getLogicalPortUUID], Or.inr rfl⟩
      · exact ⟨[Event.insertPort pg (getLogicalPortUUID oc lp)], by
          simp [Controller.emit, getLogicalPortUUID], Or.inr rfl⟩
    · exact ⟨[], rfl, Or.inl rfl⟩

/-- The events of deleteFromACLDeny: the request, then at most one removal of
the uuid of the port from the ports of the group. -/
theorem deleteFromACLDeny_trace (E : Env) (oc : Controller) (pg lp : String) :
    ∃ w, Extends oc (deleteFromACLDeny E oc pg lp) (Event.deleteFromACLDeny pg lp :: w) ∧
      (w = [] ∨ w = [Event.deletePort pg (getLogicalPortUUID oc lp)]) := by
  simp only [deleteFromACLDeny, Extends]
  split
  · exact ⟨[], rfl, Or.inl rfl⟩
  · split
    · split
      · exact ⟨[Event.deletePort pg (getLogicalPortUUID oc lp)], by
          simp [Controller.emit, getLogicalPortUUID], Or.inr rfl⟩
      · exact ⟨[Event.deletePort pg (getLogicalPortUUID oc lp)], by
          simp [Controller.emit, getLogicalPortUUID], Or.inr rfl⟩
    · exact ⟨[], rfl, Or.inl rfl⟩

theorem insertACL_trace (E : Env) (oc : Controller) (row : ACL) (pg : String) :
    Extends oc (insertACL E oc row pg).2 [Event.insertACL row pg] := by
  simp only [insertACL, Extends]
  split <;> rfl

theorem addACLDenyPortGroup_trace (E : Env) (oc : Controller)
    (u n p : String) (t : PolicyType) :
    ∃ l, Extends oc (addACLDenyPortGroup E oc u n p t).2 l ∧
      ∀ e ∈ l, e.isCreation = true := by
  simp only [addACLDenyPortGroup]
  split
  · exact ⟨[], extends_refl oc, by simp⟩
  · split
    · exact ⟨_, insertACL_trace E oc _ _, by simp [Event.isCreation]⟩
    · exact ⟨_, insertACL_trace E oc _ _, by simp [Event.isCreation]⟩

theorem createDefaultDenyPortGroup_trace (E : Env) (oc : Controller) (t : PolicyType) :
    ∃ l, Extends oc (createDefaultDenyPortGroup E oc t) l ∧
      ∀ e ∈ l, e.isCreation = true := by
  unfold createDefaultDenyPortGroup
  split
  · exact ⟨[], extends_refl oc, by simp⟩
  · split
    · exact ⟨[], extends_refl oc, by simp⟩
    · simp only []
      have h0 : Extends oc (createPortGroup E oc (defaultDenyName t) (defaultDenyName t)).2
          [Event.createPortGroup (defaultDenyName t) (defaultDenyName t)] := rfl
      split
      · exact ⟨_, h0, by simp [Event.isCreation]⟩
      · rename_i u _
        obtain ⟨l, hl, hc⟩ := addACLDenyPortGroup_trace E
            (createPortGroup E oc (defaultDenyName t) (defaultDenyName t)).2
            u (defaultDenyName t) E.defaultDenyPriority t
        have h := extends_trans h0 hl
        have hall : ∀ e ∈ [Event.createPortGroup (defaultDenyName t) (defaultDenyName t)] ++ l,
            e.isCreation = true := by
          intro e he
          rcases List.mem_append.1 he with h1 | h1
          · simp at h1; subst h1; rfl
          · exact hc e h1
        split
        · exact ⟨_, h, hall⟩
        · split
          · exact ⟨_, h, hall⟩
          · split
            · exact ⟨_, h, hall⟩
            · exact ⟨_, h, hall⟩

theorem localPodAddDefaultDeny_eq (E : Env) (oc : Controller) (policy : NetworkPolicy)
    (lp : String) :
    localPodAddDefaultDeny E oc policy lp =
      addEgressStep E (addIngressStep E
        (createDefaultDenyPortGroup E (createDefaultDenyPortGroup E oc PolicyTypeIngress)
          PolicyTypeEgress) policy lp) policy lp := rfl

theorem addIngressStep_spec (E : Env) (oc : Controller) (policy : NetworkPolicy)
    (lp : String) :
    ∃ w, Extends oc (addIngressStep E oc policy lp)
        (if ingressCounted policy = true ∧ oc.lspIngressDenyCache lp = 0 then
          Event.addToACLDeny oc.portGroupIngressDeny lp :: w else []) ∧
      (w = [] ∨ w = [Event.insertPort oc.portGroupIngressDeny (getLogicalPortUUID oc lp)]) ∧
      KeepsGroups oc (addIngressStep E oc policy lp) ∧
      (addIngressStep E oc policy lp).lspEgressDenyCache = oc.lspEgressDenyCache ∧
      (addIngressStep E oc policy lp).logicalPorts = oc.logicalPorts := by
  unfold addIngressStep
  by_cases hc : ingressCounted policy = true
  · by_cases h0 : oc.lspIngressDenyCache lp = 0
    · obtain ⟨w, hw, hw2⟩ := addToACLDeny_trace E oc oc.portGroupIngressDeny lp
      have hg := addToACLDeny_groups E oc oc.portGroupIngressDeny lp
      have hk := addToACLDeny_keeps E oc oc.portGroupIngressDeny lp
      refine ⟨w, ?_, hw2, ?_, ?_, ?_⟩
      · simpa [hc, h0, Extends] using hw
      · simp only [hc, h0, if_true]
        exact ⟨hg.ingress, hg.egress⟩
      · simpa [hc, h0] using hk.egress
      · simpa [hc, h0] using hk.logicalPorts
    · refine ⟨[], ?_, Or.inl rfl, ?_, ?_, ?_⟩ <;> simp [hc, h0, Extends]
      exact ⟨rfl, rfl⟩
  · refine ⟨[], ?_, Or.inl rfl, ?_, ?_, ?_⟩ <;> simp [hc, Extends]
    exact ⟨rfl, rfl⟩

theorem addEgressStep_spec (E : Env) (oc : Controller) (policy : NetworkPolicy)
    (lp : String) :
    ∃ w, Extends oc (addEgressStep E oc policy lp)
        (if egressCounted policy = true ∧ oc.lspEgressDenyCache lp = 0 then
          Event.addToACLDeny oc.portGroupEgressDeny lp :: w else []) ∧
      (w = [] ∨ w = [Event.insertPort oc.portGroupEgressDeny (getLogicalPortUUID oc lp)]) ∧
      KeepsGroups oc (addEgressStep E oc policy lp) ∧
      (addEgressStep E oc policy lp).lspIngressDenyCache = oc.lspIngressDenyCache ∧
      (addEgressStep E oc policy lp).logicalPorts = oc.logicalPorts := by
  unfold addEgressStep
  by_cases hc : egressCounted policy = true
  · by_cases h0 : oc.lspEgressDenyCache lp = 0
    · obtain ⟨w, hw, hw2⟩ := addToACLDeny_trace E oc oc.portGroupEgressDeny lp
      have hg := addToACLDeny_groups E oc oc.portGroupEgressDeny lp
      have hk := addToACLDeny_keeps E oc oc.portGroupEgressDeny lp
      refine ⟨w, ?_, hw2, ?_, ?_, ?_⟩
      · simpa [hc, h0, Extends] using hw
      · simp only [hc, h0, if_true]
        exact ⟨hg.ingress, hg.egress⟩
      · simpa [hc, h0] using hk.ingress
      · simpa [hc, h0] using hk.logicalPorts
    · refine ⟨[], ?_, Or.inl rfl, ?_, ?_, ?_⟩ <;> simp [hc, h0, Extends]
      exact ⟨rfl, rfl⟩
  · refine ⟨[], ?_, Or.inl rfl, ?_, ?_, ?_⟩ <;> simp [hc, Extends]
    exact ⟨rfl, rfl⟩

/-! ## The default-deny counters: localPodAddDefaultDeny -/

/-- C3: localPodAddDefaultDeny raises the ingress default-deny counter of the
logical port by exactly 1, unless PolicyTypes is exactly the one-element list
with Egress, in which case the counter keeps its value; the ingress counter of
every other logical port keeps its value in both cases. -/
theorem localPodAddDefaultDeny_ingress_counter (E : Env) (oc : Controller)
    (policy : NetworkPolicy) (lp : String) :
    (localPodAddDefaultDeny E oc policy lp).lspIngressDenyCache =
      Function.update oc.lspIngressDenyCache lp
        (if policy.PolicyTypes = [PolicyTypeEgress] then oc.lspIngressDenyCache lp
         else oc.lspIngressDenyCache lp + 1) := by
  rw [localPodAddDefaultDeny_ingress]
  by_cases h : policy.PolicyTypes = [PolicyTypeEgress]
  · have hc := (ingressCounted_eq_false_iff policy).2 h
    simp [hc, h]
  · have hc : ingressCounted policy = true := by
      cases hq : ingressCounted policy
      · exact absurd ((ingressCounted_eq_false_iff policy).1 hq) h
      · rfl
    simp [hc, h]

/-- C4, the code at the failing input: for the policy whose PolicyTypes is the
list Ingress, Ingress and whose Egress is empty, none of the three conditions
holds (PolicyTypes is not the list with only Egress, there is no egress rule,
Egress is not among the policy types), and still localPodAddDefaultDeny
raises the egress counter of the port by 1, because the code tests the length
of PolicyTypes against 2. -/
theorem localPodAddDefaultDeny_egress_ingressTwice :
    policyIngressTwice.PolicyTypes ≠ [PolicyTypeEgress] ∧
    policyIngressTwice.Egress = [] ∧
    PolicyTypeEgress ∉ policyIngressTwice.PolicyTypes ∧
    ∀ (E : Env) (oc : Controller) (lp : String),
      (localPodAddDefaultDeny E oc policyIngressTwice lp).lspEgressDenyCache lp =
        oc.lspEgressDenyCache lp + 1 := by
  refine ⟨by decide, rfl, by decide, ?_⟩
  intro E oc lp
  rw [localPodAddDefaultDeny_egress]
  have hc : egressCounted policyIngressTwice = true := by decide
  simp [hc]

/-- The requests of localPodAddDefaultDeny in terms of the two tests of the
code, ingressCounted and egressCounted (the latter holds for every PolicyTypes
of length 2): it asks addToACLDeny to add the port to the ingress default-deny
port group exactly when ingressCounted holds and the ingress counter of the
port was 0 before the call, and likewise for egress with egressCounted.
Besides the events of creating the two port groups, the trace grows by nothing
else: when a counter was not 0 there is no request and no transaction on the
ports of that port group, and the counter of a direction that passes the test
is raised by 1 all the same. -/
theorem localPodAddDefaultDeny_requests (E : Env) (oc : Controller)
    (policy : NetworkPolicy) (lp : String) :
    ∃ pre wI wE : List Event,
      (localPodAddDefaultDeny E oc policy lp).trace =
        oc.trace ++ pre ++
          (if ingressCounted policy = true ∧ oc.lspIngressDenyCache lp = 0 then
            Event.addToACLDeny
              (localPodAddDefaultDeny E oc policy lp).portGroupIngressDeny lp :: wI
           else []) ++
          (if egressCounted policy = true ∧ oc.lspEgressDenyCache lp = 0 then
            Event.addToACLDeny
              (localPodAddDefaultDeny E oc policy lp).portGroupEgressDeny lp :: wE
           else []) ∧
      (∀ e ∈ pre, e.isCreation = true) ∧
      (wI = [] ∨ wI = [Event.insertPort
        (localPodAddDefaultDeny E oc policy lp).portGroupIngressDeny
        (getLogicalPortUUID oc lp)]) ∧
      (wE = [] ∨ wE = [Event.insertPort
        (localPodAddDefaultDeny E oc policy lp).portGroupEgressDeny
        (getLogicalPortUUID oc lp)]) ∧
      (localPodAddDefaultDeny E oc policy lp).lspIngressDenyCache lp =
        (if ingressCounted policy = true then oc.lspIngressDenyCache lp + 1
         else oc.lspIngressDenyCache lp) ∧
      (localPodAddDefaultDeny E oc policy lp).lspEgressDenyCache lp =
        (if egressCounted policy = true then oc.lspEgressDenyCache lp + 1
         else oc.lspEgressDenyCache lp) := by
  obtain ⟨l1, hl1, hc1⟩ := createDefaultDenyPortGroup_trace E oc PolicyTypeIngress
  obtain ⟨l2, hl2, hc2⟩ := createDefaultDenyPortGroup_trace E
    (createDefaultDenyPortGroup E oc PolicyTypeIngress) PolicyTypeEgress
  have hk := keepsCounters_trans (createDefaultDenyPortGroup_keeps E oc PolicyTypeIngress)
    (createDefaultDenyPortGroup_keeps E
      (createDefaultDenyPortGroup E oc PolicyTypeIngress) PolicyTypeEgress)
  obtain ⟨wI, hI, hwI, hgI, heI, hlI⟩ := addIngressStep_spec E
    (createDefaultDenyPortGroup E (createDefaultDenyPortGroup E oc PolicyTypeIngress)
      PolicyTypeEgress) policy lp
  obtain ⟨wE, hE, hwE, hgE, -, -⟩ := addEgressStep_spec E
    (addIngressStep E (createDefaultDenyPortGroup E
      (createDefaultDenyPortGroup E oc PolicyTypeIngress) PolicyTypeEgress) policy lp)
    policy lp
  have hci := localPodAddDefaultDeny_ingress E oc policy lp
  have hce := localPodAddDefaultDeny_egress E oc policy lp
  have hpI : (localPodAddDefaultDeny E oc policy lp).portGroupIngressDeny =
      (createDefaultDenyPortGroup E (createDefaultDenyPortGroup E oc PolicyTypeIngress)
        PolicyTypeEgress).portGroupIngressDeny := by
    rw [localPodAddDefaultDeny_eq, hgE.ingress, hgI.ingress]
  have hpE : (localPodAddDefaultDeny E oc policy lp).portGroupEgressDeny =
      (addIngressStep E (createDefaultDenyPortGroup E
        (createDefaultDenyPortGroup E oc PolicyTypeIngress) PolicyTypeEgress)
        policy lp).portGroupEgressDeny := by
    rw [localPodAddDefaultDeny_eq, hgE.egress]
  refine ⟨l1 ++ l2, wI, wE, ?_, ?_, ?_, ?_, ?_, ?_⟩
  · have h := extends_trans (extends_trans (extends_trans hl1 hl2) hI) hE
    rw [hpI, hpE]
    simp only [Extends, heI, hk.ingress, hk.egress] at h
    rw [localPodAddDefaultDeny_eq, h]
    simp only [List.append_assoc]
  · intro e he
    rcases List.mem_append.1 he with h | h
    · exact hc1 e h
    · exact hc2 e h
  · rw [hpI]
    simpa [getLogicalPortUUID, hk.logicalPorts] using hwI
  · rw [hpE]
    simpa [getLogicalPortUUID, hlI, hk.logicalPorts] using hwE
  · rw [hci]; split <;> simp
  · rw [hce]; split <;> simp

theorem delIngressStep_spec (E : Env) (oc : Controller) (policy : NetworkPolicy)
    (lp : String) :
    ∃ w, Extends oc (delIngressStep E oc policy lp)
        (if ingressCounted policy = true ∧ oc.lspIngressDenyCache lp = 1 then
          Event.deleteFromACLDeny oc.portGroupIngressDeny lp :: w else []) ∧
      (w = [] ∨ w = [Event.deletePort oc.portGroupIngressDeny (getLogicalPortUUID oc lp)]) ∧
      KeepsGroups oc (delIngressStep E oc policy lp) ∧
      (delIngressStep E oc policy lp).lspEgressDenyCache = oc.lspEgressDenyCache ∧
      (delIngressStep E oc policy lp).logicalPorts = oc.logicalPorts := by
  unfold delIngressStep
  by_cases hc : ingressCounted policy = true
  · by_cases hpos : oc.lspIngressDenyCache lp > 0
    · by_cases h1 : oc.lspIngressDenyCache lp = 1
      · obtain ⟨w, hw, hw2⟩ := deleteFromACLDeny_trace E
          { oc with
            lspIngressDenyCache :=
              Function.update oc.lspIngressDenyCache lp (oc.lspIngressDenyCache lp - 1) }
          oc.portGroupIngressDeny lp
        have hg := deleteFromACLDeny_groups E
          { oc with
            lspIngressDenyCache :=
              Function.update oc.lspIngressDenyCache lp (oc.lspIngressDenyCache lp - 1) }
          oc.portGroupIngressDeny lp
        have hk := deleteFromACLDeny_keeps E
          { oc with
            lspIngressDenyCache :=
              Function.update oc.lspIngressDenyCache lp (oc.lspIngressDenyCache lp - 1) }
          oc.portGroupIngressDeny lp
        refine ⟨w, ?_, hw2, ?_, ?_, ?_⟩
        · simpa [hc, h1, Extends] using hw
        · simp only [hc, h1, if_true, Function.update_same]
          exact ⟨by simpa [h1] using hg.ingress, by simpa [h1] using hg.egress⟩
        · simpa [hc, h1] using hk.egress
        · simpa [hc, h1] using hk.logicalPorts
      · have h0 : ¬ (oc.lspIngressDenyCache lp - 1 = 0) := by omega
        refine ⟨[], ?_, Or.inl rfl, ?_, ?_, ?_⟩ <;> simp [hc, hpos, h1, h0, Extends]
        exact ⟨rfl, rfl⟩
    · have h1 : ¬ (oc.lspIngressDenyCache lp = 1) := by omega
      refine ⟨[], ?_, Or.inl rfl, ?_, ?_, ?_⟩ <;> simp [hc, hpos, h1, Extends]
      exact ⟨rfl, rfl⟩
  · refine ⟨[], ?_, Or.inl rfl, ?_, ?_, ?_⟩ <;> simp [hc, Extends]
    exact ⟨rfl, rfl⟩

theorem delEgressStep_spec (E : Env) (oc : Controller) (policy : NetworkPolicy)
    (lp : String) :
    ∃ w, Extends oc (delEgressStep E oc policy lp)
        (if egressCounted policy = true ∧ oc.lspEgressDenyCache lp = 1 then
          Event.deleteFromACLDeny oc.portGroupEgressDeny lp :: w else []) ∧
      (w = [] ∨ w = [Event.deletePort oc.portGroupEgressDeny (getLogicalPortUUID oc lp)]) ∧
      KeepsGroups oc (delEgressStep E oc policy lp) ∧
      (delEgressStep E oc policy lp).lspIngressDenyCache = oc.lspIngressDenyCache ∧
      (delEgressStep E oc policy lp).logicalPorts = oc.logicalPorts := by
  unfold delEgressStep
  by_cases hc : egressCounted policy = true
  · by_cases hpos : oc.lspEgressDenyCache lp > 0
    · by_cases h1 : oc.lspEgressDenyCache lp = 1
      · obtain ⟨w, hw, hw2⟩ := deleteFromACLDeny_trace E
          { oc with
            lspEgressDenyCache :=
              Function.update oc.lspEgressDenyCache lp (oc.lspEgressDenyCache lp - 1) }
          oc.portGroupEgressDeny lp
        have hg := deleteFromACLDeny_groups E
          { oc with
            lspEgressDenyCache :=
              Function.update oc.lspEgressDenyCache lp (oc.lspEgressDenyCache lp - 1) }
          oc.portGroupEgressDeny lp
        have hk := deleteFromACLDeny_keeps E
          { oc with
            lspEgressDenyCache :=
              Function.update oc.lspEgressDenyCache lp (oc.lspEgressDenyCache lp - 1) }
          oc.portGroupEgressDeny lp
        refine ⟨w, ?_, hw2, ?_, ?_, ?_⟩
        · simpa [hc, h1, Extends] using hw
        · simp only [hc, h1, if_true, Function.update_same]
          exact ⟨by simpa [h1] using hg.ingress, by simpa [h1] using hg.egress⟩
        · simpa [hc, h1] using hk.ingress
        · simpa [hc, h1] using hk.logicalPorts
      · have h0 : ¬ (oc.lspEgressDenyCache lp - 1 = 0) := by omega
        refine ⟨[], ?_, Or.inl rfl, ?_, ?_, ?_⟩ <;> simp [hc, hpos, h1, h0, Extends]
        exact ⟨rfl, rfl⟩
    · have h1 : ¬ (oc.lspEgressDenyCache lp = 1) := by omega
      refine ⟨[], ?_, Or.inl rfl, ?_, ?_, ?_⟩ <;> simp [hc, hpos, h1, Extends]
      exact ⟨rfl, rfl⟩
  · refine ⟨[], ?_, Or.inl rfl, ?_, ?_, ?_⟩ <;> simp [hc, Extends]
    exact ⟨rfl, rfl⟩

theorem localPodDelDefaultDeny_eq (E : Env) (oc : Controller) (policy : NetworkPolicy)
    (lp : String) :
    localPodDelDefaultDeny E oc policy lp =
      delEgressStep E (delIngressStep E oc policy lp) policy lp := rfl

/-- C6: localPodDelDefaultDeny lowers by exactly 1 the counter of each
direction that is counted for the policy when that counter is positive; it
asks deleteFromACLDeny to remove the port from the default-deny port group of
a direction exactly when the direction is counted and its counter was 1 (so
goes from 1 to 0); the trace grows by nothing else, so a counter that stays
positive gives no removal, and a counter that is 0 stays 0 and gives no
request and no transaction on the ports of the port group. -/
theorem localPodDelDefaultDeny_requests (E : Env) (oc : Controller)
    (policy : NetworkPolicy) (lp : String) :
    ∃ wI wE : List Event,
      (localPodDelDefaultDeny E oc policy lp).trace =
        oc.trace ++
          (if ingressCounted policy = true ∧ oc.lspIngressDenyCache lp = 1 then
            Event.deleteFromACLDeny oc.portGroupIngressDeny lp :: wI
           else []) ++
          (if egressCounted policy = true ∧ oc.lspEgressDenyCache lp = 1 then
            Event.deleteFromACLDeny oc.portGroupEgressDeny lp :: wE
           else []) ∧
      (wI = [] ∨ wI = [Event.deletePort oc.portGroupIngressDeny (getLogicalPortUUID oc lp)]) ∧
      (wE = [] ∨ wE = [Event.deletePort oc.portGroupEgressDeny (getLogicalPortUUID oc lp)]) ∧
      (localPodDelDefaultDeny E oc policy lp).lspIngressDenyCache =
        Function.update oc.lspIngressDenyCache lp
          (if ingressCounted policy = true ∧ oc.lspIngressDenyCache lp > 0 then
            oc.lspIngressDenyCache lp - 1 else oc.lspIngressDenyCache lp) ∧
      (localPodDelDefaultDeny E oc policy lp).lspEgressDenyCache =
        Function.update oc.lspEgressDenyCache lp
          (if egressCounted policy = true ∧ oc.lspEgressDenyCache lp > 0 then
            oc.lspEgressDenyCache lp - 1 else oc.lspEgressDenyCache lp) := by
  obtain ⟨wI, hI, hwI, hgI, heI, hlI⟩ := delIngressStep_spec E oc policy lp
  obtain ⟨wE, hE, hwE, -, -, -⟩ := delEgressStep_spec E (delIngressStep E oc policy lp)
    policy lp
  refine ⟨wI, wE, ?_, hwI, ?_, ?_, ?_⟩
  · have h := extends_trans hI hE
    simp only [Extends, heI, hgI.egress] at h
    rw [localPodDelDefaultDeny_eq, h]
    simp only [List.append_assoc]
  · simpa [getLogicalPortUUID, hlI, hgI.egress] using hwE
  · rw [localPodDelDefaultDeny_ingress]
    split <;> simp
  · rw [localPodDelDefaultDeny_egress]
    split <;> simp

/-! ## Membership of the default-deny port groups: the invariant -/

theorem addToACLDeny_ports (E : Env) (hE : Healthy E) (oc : Controller) (pg lp : String)
    (pg2 u : String) :
    u ∈ (addToACLDeny E oc pg lp).portGroupPorts pg2 ↔
      u ∈ oc.portGroupPorts pg2 ∨
        (pg2 = pg ∧ u = getLogicalPortUUID oc lp ∧ getLogicalPortUUID oc lp ≠ "") := by
  simp only [addToACLDeny, getLogicalPortUUID, emit_logicalPorts, emit_portGroupPorts,
    hE.commit_ok]
  by_cases h0 : oc.logicalPorts lp = ""
  · simp [h0]
  · by_cases hm : oc.logicalPorts lp ∈ oc.portGroupPorts pg
    · simp only [h0, hm, if_false, not_true, emit_portGroupPorts]
      constructor
      · exact fun h => Or.inl h
      · rintro (h | ⟨rfl, rfl, -⟩)
        · exact h
        · exact hm
    · simp only [h0, hm, if_false, not_false_eq_true, if_true]
      by_cases hp : pg2 = pg
      · subst hp
        simp [Function.update_same, h0]
      · simp [Function.update_noteq hp, hp]

theorem deleteFromACLDeny_ports (E : Env) (hE : Healthy E) (oc : Controller)
    (pg lp : String) (pg2 u : String) :
    u ∈ (deleteFromACLDeny E oc pg lp).portGroupPorts pg2 ↔
      u ∈ oc.portGroupPorts pg2 ∧
        ¬ (pg2 = pg ∧ u = getLogicalPortUUID oc lp ∧ getLogicalPortUUID oc lp ≠ "") := by
  simp only [deleteFromACLDeny, getLogicalPortUUID, emit_logicalPorts, emit_portGroupPorts,
    hE.commit_ok]
  by_cases h0 : oc.logicalPorts lp = ""
  · simp [h0]
  · by_cases hm : oc.logicalPorts lp ∈ oc.portGroupPorts pg
    · simp only [h0, hm, if_false, if_true]
      by_cases hp : pg2 = pg
      · subst hp
        simp [Function.update_same, h0]
      · simp [Function.update_noteq hp, hp]
    · simp only [h0, hm, if_false, emit_portGroupPorts]
      constructor
      · intro h
        refine ⟨h, ?_⟩
        rintro ⟨rfl, rfl, -⟩
        exact hm h
      · exact fun h => h.1

theorem addIngressStep_state (E : Env) (hE : Healthy E) (oc : Controller)
    (policy : NetworkPolicy) (lp : String) :
    (addIngressStep E oc policy lp).lspIngressDenyCache =
        (if ingressCounted policy = true then
          Function.update oc.lspIngressDenyCache lp (oc.lspIngressDenyCache lp + 1)
         else oc.lspIngressDenyCache) ∧
      ∀ pg2 u, u ∈ (addIngressStep E oc policy lp).portGroupPorts pg2 ↔
        u ∈ oc.portGroupPorts pg2 ∨
          (ingressCounted policy = true ∧ oc.lspIngressDenyCache lp = 0 ∧
            pg2 = oc.portGroupIngressDeny ∧ u = getLogicalPortUUID oc lp ∧
            getLogicalPortUUID oc lp ≠ "") := by
  unfold addIngressStep
  by_cases hc : ingressCounted policy = true
  · by_cases h0 : oc.lspIngressDenyCache lp = 0
    · have hk := addToACLDeny_keeps E oc oc.portGroupIngressDeny lp
      refine ⟨?_, ?_⟩
      · simp [hc, h0, hk.ingress]
      · intro pg2 u
        simp only [hc, h0, if_true, true_and]
        exact addToACLDeny_ports E hE oc oc.portGroupIngressDeny lp pg2 u
    · simp [hc, h0]
  · simp [hc]

theorem addEgressStep_state (E : Env) (hE : Healthy E) (oc : Controller)
    (policy : NetworkPolicy) (lp : String) :
    (addEgressStep E oc policy lp).lspEgressDenyCache =
        (if egressCounted policy = true then
          Function.update oc.lspEgressDenyCache lp (oc.lspEgressDenyCache lp + 1)
         else oc.lspEgressDenyCache) ∧
      ∀ pg2 u, u ∈ (addEgressStep E oc policy lp).portGroupPorts pg2 ↔
        u ∈ oc.portGroupPorts pg2 ∨
          (egressCounted policy = true ∧ oc.lspEgressDenyCache lp = 0 ∧
            pg2 = oc.portGroupEgressDeny ∧ u = getLogicalPortUUID oc lp ∧
            getLogicalPortUUID oc lp ≠ "") := by
  unfold addEgressStep
  by_cases hc : egressCounted policy = true
  · by_cases h0 : oc.lspEgressDenyCache lp = 0
    · have hk := addToACLDeny_keeps E oc oc.portGroupEgressDeny lp
      refine ⟨?_, ?_⟩
      · simp [hc, h0, hk.egress]
      · intro pg2 u
        simp only [hc, h0, if_true, true_and]
        exact addToACLDeny_ports E hE oc oc.portGroupEgressDeny lp pg2 u
    · simp [hc, h0]
  · simp [hc]

theorem delIngressStep_state (E : Env) (hE : Healthy E) (oc : Controller)
    (policy : NetworkPolicy) (lp : String) :
    (delIngressStep E oc policy lp).lspIngressDenyCache =
        (if ingressCounted policy = true ∧ oc.lspIngressDenyCache lp > 0 then
          Function.update oc.lspIngressDenyCache lp (oc.lspIngressDenyCache lp - 1)
         else oc.lspIngressDenyCache) ∧
      ∀ pg2 u, u ∈ (delIngressStep E oc policy lp).portGroupPorts pg2 ↔
        u ∈ oc.portGroupPorts pg2 ∧
          ¬ (ingressCounted policy = true ∧ oc.lspIngressDenyCache lp = 1 ∧
            pg2 = oc.portGroupIngressDeny ∧ u = getLogicalPortUUID oc lp ∧
            getLogicalPortUUID oc lp ≠ "") := by
  unfold delIngressStep
  by_cases hc : ingressCounted policy = true
  · by_cases hpos : oc.lspIngressDenyCache lp > 0
    · by_cases h1 : oc.lspIngressDenyCache lp = 1
      · have hk := deleteFromACLDeny_keeps E
          { oc with
            lspIngressDenyCache :=
              Function.update oc.lspIngressDenyCache lp (oc.lspIngressDenyCache lp - 1) }
          oc.portGroupIngressDeny lp
        refine ⟨?_, ?_⟩
        · have hk2 := hk.ingress
          simp only [h1, sub_self] at hk2
          simp [hc, h1, hk2]
        · intro pg2 u
          simp only [hc, h1, if_true, true_and, Function.update_same]
          have h := deleteFromACLDeny_ports E hE
            { oc with
              lspIngressDenyCache :=
                Function.update oc.lspIngressDenyCache lp (oc.lspIngressDenyCache lp - 1) }
            oc.portGroupIngressDeny lp pg2 u
          simpa [h1, getLogicalPortUUID] using h
      · have h0 : ¬ (oc.lspIngressDenyCache lp - 1 = 0) := by omega
        simp [hc, hpos, h1, h0]
    · have h1 : ¬ (oc.lspIngressDenyCache lp = 1) := by omega
      simp [hc, hpos, h1]
  · simp [hc]

theorem delEgressStep_state (E : Env) (hE : Healthy E) (oc : Controller)
    (policy : NetworkPolicy) (lp : String) :
    (delEgressStep E oc policy lp).lspEgressDenyCache =
        (if egressCounted policy = true ∧ oc.lspEgressDenyCache lp > 0 then
          Function.update oc.lspEgressDenyCache lp (oc.lspEgressDenyCache lp - 1)
         else oc.lspEgressDenyCache) ∧
      ∀ pg2 u, u ∈ (delEgressStep E oc policy lp).portGroupPorts pg2 ↔
        u ∈ oc.portGroupPorts pg2 ∧
          ¬ (egressCounted policy = true ∧ oc.lspEgressDenyCache lp = 1 ∧
            pg2 = oc.portGroupEgressDeny ∧ u = getLogicalPortUUID oc lp ∧
            getLogicalPortUUID oc lp ≠ "") := by
  unfold delEgressStep
  by_cases hc : egressCounted policy = true
  · by_cases hpos : oc.lspEgressDenyCache lp > 0
    · by_cases h1 : oc.lspEgressDenyCache lp = 1
      · have hk := deleteFromACLDeny_keeps E
          { oc with
            lspEgressDenyCache :=
              Function.update oc.lspEgressDenyCache lp (oc.lspEgressDenyCache lp - 1) }
          oc.portGroupEgressDeny lp
        refine ⟨?_, ?_⟩
        · have hk2 := hk.egress
          simp only [h1, sub_self] at hk2
          simp [hc, h1, hk2]
        · intro pg2 u
          simp only [hc, h1, if_true, true_and, Function.update_same]
          have h := deleteFromACLDeny_ports E hE
            { oc with
              lspEgressDenyCache :=
                Function.update oc.lspEgressDenyCache lp (oc.lspEgressDenyCache lp - 1) }
            oc.portGroupEgressDeny lp pg2 u
          simpa [h1, getLogicalPortUUID] using h
      · have h0 : ¬ (oc.lspEgressDenyCache lp - 1 = 0) := by omega
        simp [hc, hpos, h1, h0]
    · have h1 : ¬ (oc.lspEgressDenyCache lp = 1) := by omega
      simp [hc, hpos, h1]
  · simp [hc]

theorem insertACL_groups (E : Env) (oc : Controller) (row : ACL) (pg : String) :
    KeepsGroups oc (insertACL E oc row pg).2 ∧
      (insertACL E oc row pg).2.portGroupPorts = oc.portGroupPorts := by
  simp only [insertACL]
  split <;> exact ⟨⟨rfl, rfl⟩, rfl⟩

theorem addACLDenyPortGroup_groups (E : Env) (oc : Controller)
    (u n p : String) (t : PolicyType) :
    KeepsGroups oc (addACLDenyPortGroup E oc u n p t).2 ∧
      (addACLDenyPortGroup E oc u n p t).2.portGroupPorts = oc.portGroupPorts := by
  simp only [addACLDenyPortGroup]
  split
  · exact ⟨⟨rfl, rfl⟩, rfl⟩
  · split <;> exact insertACL_groups E oc _ _

theorem addACLDenyPortGroup_ok (E : Env) (hE : Healthy E) (oc : Controller)
    (u n p : String) (t : PolicyType) :
    (addACLDenyPortGroup E oc u n p t).1 = none := by
  simp only [addACLDenyPortGroup]
  split
  · rfl
  · have h : ∀ row, (insertACL E oc row u).1 = none := by
      intro row
      simp [insertACL, hE.commit_ok]
    split
    · rename_i e he
      rw [h] at he
      cases he
    · rfl

theorem createDefaultDenyPortGroup_done (E : Env) (oc : Controller) :
    (oc.portGroupIngressDeny ≠ "" →
      createDefaultDenyPortGroup E oc PolicyTypeIngress = oc) ∧
    (oc.portGroupEgressDeny ≠ "" →
      createDefaultDenyPortGroup E oc PolicyTypeEgress = oc) := by
  have hne : PolicyTypeEgress ≠ PolicyTypeIngress := by decide
  constructor
  · intro h
    simp [createDefaultDenyPortGroup, h]
  · intro h
    simp [createDefaultDenyPortGroup, h, hne]

theorem createDefaultDenyPortGroup_ingress_new (E : Env) (hE : Healthy E) (oc : Controller)
    (h : oc.portGroupIngressDeny = "") :
    ∃ u, E.createPortGroup oc "ingressDefaultDeny" "ingressDefaultDeny" = Except.ok u ∧
      u ≠ "" ∧
      (createDefaultDenyPortGroup E oc PolicyTypeIngress).portGroupIngressDeny = u ∧
      (createDefaultDenyPortGroup E oc PolicyTypeIngress).portGroupEgressDeny =
        oc.portGroupEgressDeny ∧
      (createDefaultDenyPortGroup E oc PolicyTypeIngress).portGroupPorts =
        oc.portGroupPorts := by
  obtain ⟨u, hu, hu0⟩ := hE.create_ok oc "ingressDefaultDeny" "ingressDefaultDeny"
  have hn : defaultDenyName PolicyTypeIngress = "ingressDefaultDeny" := by decide
  have hg := addACLDenyPortGroup_groups E
    (oc.emit (Event.createPortGroup "ingressDefaultDeny" "ingressDefaultDeny"))
    u "ingressDefaultDeny" E.defaultDenyPriority PolicyTypeIngress
  have hok := addACLDenyPortGroup_ok E hE
    (oc.emit (Event.createPortGroup "ingressDefaultDeny" "ingressDefaultDeny"))
    u "ingressDefaultDeny" E.defaultDenyPriority PolicyTypeIngress
  refine ⟨u, hu, hu0, ?_⟩
  simp only [createDefaultDenyPortGroup, h, hn, createPortGroup, hu, hok, ne_eq,
    not_true_eq_false, and_false, if_false, if_true, true_and, not_true, false_and]
  exact ⟨hg.1.egress, hg.2⟩

theorem createDefaultDenyPortGroup_egress_new (E : Env) (hE : Healthy E) (oc : Controller)
    (h : oc.portGroupEgressDeny = "") :
    ∃ u, E.createPortGroup oc "egressDefaultDeny" "egressDefaultDeny" = Except.ok u ∧
      u ≠ "" ∧
      (createDefaultDenyPortGroup E oc PolicyTypeEgress).portGroupEgressDeny = u ∧
      (createDefaultDenyPortGroup E oc PolicyTypeEgress).portGroupIngressDeny =
        oc.portGroupIngressDeny ∧
      (createDefaultDenyPortGroup E oc PolicyTypeEgress).portGroupPorts =
        oc.portGroupPorts := by
  obtain ⟨u, hu, hu0⟩ := hE.create_ok oc "egressDefaultDeny" "egressDefaultDeny"
  have hn : defaultDenyName PolicyTypeEgress = "egressDefaultDeny" := by decide
  have hne : PolicyTypeEgress ≠ PolicyTypeIngress := by decide
  have hg := addACLDenyPortGroup_groups E
    (oc.emit (Event.createPortGroup "egressDefaultDeny" "egressDefaultDeny"))
    u "egressDefaultDeny" E.defaultDenyPriority PolicyTypeEgress
  have hok := addACLDenyPortGroup_ok E hE
    (oc.emit (Event.createPortGroup "egressDefaultDeny" "egressDefaultDeny"))
    u "egressDefaultDeny" E.defaultDenyPriority PolicyTypeEgress
  refine ⟨u, hu, hu0, ?_⟩
  simp only [createDefaultDenyPortGroup, h, hn, hne, createPortGroup, hu, hok, ne_eq,
    not_true_eq_false, and_false, if_false, if_true, true_and, not_true, false_and,
    not_false_eq_true]
  exact ⟨hg.1.ingress, hg.2⟩

theorem addIngressStep_inv (E : Env) (hE : Healthy E) (lps : String → String)
    (hd : DistinctUUIDs lps) (oc : Controller) (policy : NetworkPolicy) (lp : String)
    (h : GroupsInv lps oc) : GroupsInv lps (addIngressStep E oc policy lp) := by
  obtain ⟨hl, hI, hEg, hx, hinv⟩ := h
  obtain ⟨w, -, -, hg, hcegress, hlp⟩ := addIngressStep_spec E oc policy lp
  have hs := addIngressStep_state E hE oc policy lp
  refine ⟨hlp.trans hl, by rw [hg.ingress]; exact hI, by rw [hg.egress]; exact hEg,
    by rw [hg.ingress, hg.egress]; exact hx, ?_⟩
  intro lp2 h2
  have hi := hinv lp2 h2
  rw [hg.ingress, hg.egress, hcegress, hs.1]
  constructor
  ·
      have hm := hs.2 oc.portGroupIngressDeny (lps lp2)
      rw [hm]
      simp only [getLogicalPortUUID, hl, true_and]
      by_cases hlp : lp2 = lp
      · subst hlp
        by_cases hc : ingressCounted policy = true
        · simp only [hc, if_true, true_and, Function.update_same, h2, ne_eq,
            not_false_eq_true, and_true]
          rw [hi.1]
          omega
        · simp only [Bool.not_eq_true] at hc
          simp_all
      · have hne : ¬ (lps lp2 = lps lp) := fun he => hlp (hd _ _ he h2)
        simp only [hne, false_and, and_false, or_false]
        rw [hi.1]
        split
        · rw [Function.update_noteq hlp]
        · rfl
  ·
      have hm := hs.2 oc.portGroupEgressDeny (lps lp2)
      rw [hm]
      have hpg : ¬ (oc.portGroupEgressDeny = oc.portGroupIngressDeny) := fun he => hx he.symm
      simp only [hpg, false_and, and_false, or_false]
      exact hi.2

theorem addEgressStep_inv (E : Env) (hE : Healthy E) (lps : String → String)
    (hd : DistinctUUIDs lps) (oc : Controller) (policy : NetworkPolicy) (lp : String)
    (h : GroupsInv lps oc) : GroupsInv lps (addEgressStep E oc policy lp) := by
  obtain ⟨hl, hI, hEg, hx, hinv⟩ := h
  obtain ⟨w, -, -, hg, hcingress, hlp⟩ := addEgressStep_spec E oc policy lp
  have hs := addEgressStep_state E hE oc policy lp
  refine ⟨hlp.trans hl, by rw [hg.ingress]; exact hI, by rw [hg.egress]; exact hEg,
    by rw [hg.ingress, hg.egress]; exact hx, ?_⟩
  intro lp2 h2
  have hi := hinv lp2 h2
  rw [hg.ingress, hg.egress, hcingress, hs.1]
  constructor
  ·
      have hm := hs.2 oc.portGroupIngressDeny (lps lp2)
      rw [hm]
      have hpg : ¬ (oc.portGroupIngressDeny = oc.portGroupEgressDeny) := hx
      simp only [hpg, false_and, and_false, or_false]
      exact hi.1
  ·
      have hm := hs.2 oc.portGroupEgressDeny (lps lp2)
      rw [hm]
      simp only [getLogicalPortUUID, hl, true_and]
      by_cases hlp : lp2 = lp
      · subst hlp
        by_cases hc : egressCounted policy = true
        · simp only [hc, if_true, true_and, Function.update_same, h2, ne_eq,
            not_false_eq_true, and_true]
          rw [hi.2]
          omega
        · simp only [Bool.not_eq_true] at hc
          simp_all
      · have hne : ¬ (lps lp2 = lps lp) := fun he => hlp (hd _ _ he h2)
        simp only [hne, false_and, and_false, or_false]
        rw [hi.2]
        split
        · rw [Function.update_noteq hlp]
        · rfl

theorem delIngressStep_inv (E : Env) (hE : Healthy E) (lps : String → String)
    (hd : DistinctUUIDs lps) (oc : Controller) (policy : NetworkPolicy) (lp : String)
    (h : GroupsInv lps oc) : GroupsInv lps (delIngressStep E oc policy lp) := by
  obtain ⟨hl, hI, hEg, hx, hinv⟩ := h
  obtain ⟨w, -, -, hg, hcegress, hlp⟩ := delIngressStep_spec E oc policy lp
  have hs := delIngressStep_state E hE oc policy lp
  refine ⟨hlp.trans hl, by rw [hg.ingress]; exact hI, by rw [hg.egress]; exact hEg,
    by rw [hg.ingress, hg.egress]; exact hx, ?_⟩
  intro lp2 h2
  have hi := hinv lp2 h2
  rw [hg.ingress, hg.egress, hcegress, hs.1]
  constructor
  ·
      have hm := hs.2 oc.portGroupIngressDeny (lps lp2)
      rw [hm]
      simp only [getLogicalPortUUID, hl, true_and]
      by_cases hlp : lp2 = lp
      · subst hlp
        by_cases hc : ingressCounted policy = true
        · simp only [hc, true_and, h2, ne_eq, not_false_eq_true, and_true]
          rw [hi.1]
          by_cases hpos : oc.lspIngressDenyCache lp2 > 0
          · simp only [hpos, if_true, Function.update_same, true_and]
            omega
          · simp only [hpos, if_false, false_and]
        · simp only [Bool.not_eq_true] at hc
          simp_all
      · have hne : ¬ (lps lp2 = lps lp) := fun he => hlp (hd _ _ he h2)
        simp only [hne, false_and, and_false, not_false_eq_true, and_true]
        rw [hi.1]
        split
        · rw [Function.update_noteq hlp]
        · rfl
  ·
      have hm := hs.2 oc.portGroupEgressDeny (lps lp2)
      rw [hm]
      have hpg : ¬ (oc.portGroupEgressDeny = oc.portGroupIngressDeny) := fun he => hx he.symm
      simp only [hpg, false_and, and_false, not_false_eq_true, and_true]
      exact hi.2

theorem delEgressStep_inv (E : Env) (hE : Healthy E) (lps : String → String)
    (hd : DistinctUUIDs lps) (oc : Controller) (policy : NetworkPolicy) (lp : String)
    (h : GroupsInv lps oc) : GroupsInv lps (delEgressStep E oc policy lp) := by
  obtain ⟨hl, hI, hEg, hx, hinv⟩ := h
  obtain ⟨w, -, -, hg, hcingress, hlp⟩ := delEgressStep_spec E oc policy lp
  have hs := delEgressStep_state E hE oc policy lp
  refine ⟨hlp.trans hl, by rw [hg.ingress]; exact hI, by rw [hg.egress]; exact hEg,
    by rw [hg.ingress, hg.egress]; exact hx, ?_⟩
  intro lp2 h2
  have hi := hinv lp2 h2
  rw [hg.ingress, hg.egress, hcingress, hs.1]
  constructor
  ·
      have hm := hs.2 oc.portGroupIngressDeny (lps lp2)
      rw [hm]
      have hpg : ¬ (oc.portGroupIngressDeny = oc.portGroupEgressDeny) := hx
      simp only [hpg, false_and, and_false, not_false_eq_true, and_true]
      exact hi.1
  ·
      have hm := hs.2 oc.portGroupEgressDeny (lps lp2)
      rw [hm]
      simp only [getLogicalPortUUID, hl, true_and]
      by_cases hlp : lp2 = lp
      · subst hlp
        by_cases hc : egressCounted policy = true
        · simp only [hc, true_and, h2, ne_eq, not_false_eq_true, and_true]
          rw [hi.2]
          by_cases hpos : oc.lspEgressDenyCache lp2 > 0
          · simp only [hpos, if_true, Function.update_same, true_and]
            omega
          · simp only [hpos, if_false, false_and]
        · simp only [Bool.not_eq_true] at hc
          simp_all
      · have hne : ¬ (lps lp2 = lps lp) := fun he => hlp (hd _ _ he h2)
        simp only [hne, false_and, and_false, not_false_eq_true, and_true]
        rw [hi.2]
        split
        · rw [Function.update_noteq hlp]
        · rfl

theorem healthy_accepting : Healthy Env.accepting where
  commit_ok := fun _ _ => rfl
  create_ok := by
    intro oc n h
    refine ⟨"pg-" ++ n, rfl, ?_⟩
    intro he
    have := congrArg String.length he
    simp [String.length_append] at this
    exact absurd this.1 (by decide)
  create_distinct := by
    intro oc oc2 u u2 h1 h2
    simp only [Env.accepting, Except.ok.injEq] at h1 h2
    subst h1 h2
    decide

theorem freshInv_empty (lps : String → String) : FreshInv lps (Controller.empty lps) :=
  ⟨rfl, rfl, rfl, fun _ => rfl, fun _ => rfl, fun _ => rfl⟩

theorem groupsInv_create (E : Env) (hE : Healthy E) (lps : String → String) (oc : Controller)
    (h : FreshInv lps oc ∨ GroupsInv lps oc) :
    GroupsInv lps (createDefaultDenyPortGroup E
      (createDefaultDenyPortGroup E oc PolicyTypeIngress) PolicyTypeEgress) := by
  rcases h with h | h
  · obtain ⟨hl, hI, hEg, hcI, hcE, hp⟩ := h
    obtain ⟨u1, hu1, hn1, hpI1, hpE1, hports1⟩ :=
      createDefaultDenyPortGroup_ingress_new E hE oc hI
    have hk1 := createDefaultDenyPortGroup_keeps E oc PolicyTypeIngress
    have hE1 : (createDefaultDenyPortGroup E oc PolicyTypeIngress).portGroupEgressDeny = "" := by
      rw [hpE1, hEg]
    obtain ⟨u2, hu2, hn2, hpE2, hpI2, hports2⟩ :=
      createDefaultDenyPortGroup_egress_new E hE
        (createDefaultDenyPortGroup E oc PolicyTypeIngress) hE1
    have hk2 := createDefaultDenyPortGroup_keeps E
      (createDefaultDenyPortGroup E oc PolicyTypeIngress) PolicyTypeEgress
    have hdist := hE.create_distinct oc _ u1 u2 hu1 hu2
    refine ⟨by rw [hk2.logicalPorts, hk1.logicalPorts, hl], by rw [hpI2, hpI1]; exact hn1,
      by rw [hpE2]; exact hn2, by rw [hpI2, hpI1, hpE2]; exact hdist, ?_⟩
    intro lp _
    rw [hports2, hports1, hk2.ingress, hk1.ingress, hk2.egress, hk1.egress, hp, hp, hcI, hcE]
    simp
  · have hd := createDefaultDenyPortGroup_done E oc
    rw [hd.1 h.2.1, (createDefaultDenyPortGroup_done E oc).2 h.2.2.1]
    exact h

theorem localPodDelDefaultDeny_fresh (E : Env) (lps : String → String) (oc : Controller)
    (policy : NetworkPolicy) (lp : String) (h : FreshInv lps oc) :
    localPodDelDefaultDeny E oc policy lp = oc := by
  obtain ⟨-, -, -, hcI, hcE, -⟩ := h
  simp [localPodDelDefaultDeny, hcI, hcE]

theorem inv_of_reachable (E : Env) (hE : Healthy E) (lps : String → String)
    (hd : DistinctUUIDs lps) (oc : Controller)
    (hr : DenyReachable E (Controller.empty lps) oc) :
    FreshInv lps oc ∨ GroupsInv lps oc := by
  induction hr with
  | init => exact Or.inl (freshInv_empty lps)
  | add oc policy lp _ ih =>
    right
    rw [localPodAddDefaultDeny_eq]
    exact addEgressStep_inv E hE lps hd _ policy lp
      (addIngressStep_inv E hE lps hd _ policy lp (groupsInv_create E hE lps oc ih))
  | del oc policy lp _ ih =>
    rcases ih with ih | ih
    · left
      rw [localPodDelDefaultDeny_fresh E lps oc policy lp ih]
      exact ih
    · right
      rw [localPodDelDefaultDeny_eq]
      exact delEgressStep_inv E hE lps hd _ policy lp
        (delIngressStep_inv E hE lps hd _ policy lp ih)

theorem distinct_webPorts : DistinctUUIDs webPorts := by
  intro a b h ha
  unfold webPorts at *
  by_cases h1 : a = "dev_web-1" <;> by_cases h2 : b = "dev_web-1" <;> simp_all

/-- C2 as stated fails: starting from the empty controller with a
logical-port cache that knows no port, one call of localPodAddDefaultDeny for
the port dev_web-1 gives a reachable state in which the ingress counter of the
port is 1 and the port is not a member of the ingress default-deny port group
(addToACLDeny returns when the uuid of the port is unknown). -/
theorem defaultDeny_member_unknown_port :
    DenyReachable Env.accepting (Controller.empty (fun _ => ""))
      (localPodAddDefaultDeny Env.accepting (Controller.empty (fun _ => ""))
        policyAllowWeb "dev_web-1") ∧
    (localPodAddDefaultDeny Env.accepting (Controller.empty (fun _ => ""))
        policyAllowWeb "dev_web-1").lspIngressDenyCache "dev_web-1" = 1 ∧
    ¬ isMember
      (localPodAddDefaultDeny Env.accepting (Controller.empty (fun _ => ""))
        policyAllowWeb "dev_web-1")
      (localPodAddDefaultDeny Env.accepting (Controller.empty (fun _ => ""))
        policyAllowWeb "dev_web-1").portGroupIngressDeny "dev_web-1" := by
  refine ⟨DenyReachable.add _ _ _ DenyReachable.init, by decide, ?_⟩
  unfold isMember
  decide

/-- C2, amended: when the database accepts every request (commits succeed,
the two default-deny port groups get different non-empty uuids) and logical
ports have different uuids, then in every state reachable from the empty
controller by calls of localPodAddDefaultDeny and localPodDelDefaultDeny a
logical port whose uuid is known is a member of the ingress default-deny port
group exactly when its ingress counter is positive, and of the egress
default-deny port group exactly when its egress counter is positive. -/
theorem defaultDeny_member_iff_counter (E : Env) (hE : Healthy E) (lps : String → String)
    (hd : DistinctUUIDs lps) (oc : Controller)
    (hr : DenyReachable E (Controller.empty lps) oc) (lp : String) (hlp : lps lp ≠ "") :
    (isMember oc oc.portGroupIngressDeny lp ↔ 0 < oc.lspIngressDenyCache lp) ∧
    (isMember oc oc.portGroupEgressDeny lp ↔ 0 < oc.lspEgressDenyCache lp) := by
  unfold isMember getLogicalPortUUID
  rcases inv_of_reachable E hE lps hd oc hr with h | h
  · obtain ⟨hl, -, -, hcI, hcE, hp⟩ := h
    simp [hp, hcI, hcE]
  · obtain ⟨hl, -, -, -, hinv⟩ := h
    rw [hl]
    exact hinv lp hlp

/-- Witness for C2, amended: the accepting database, the port of pod web-1
known, after one call of localPodAddDefaultDeny for that port. -/
theorem defaultDeny_member_iff_counter_witness :
    webPorts "dev_web-1" ≠ "" ∧
    (isMember
        (localPodAddDefaultDeny Env.accepting (Controller.empty webPorts)
          policyAllowWeb "dev_web-1")
        (localPodAddDefaultDeny Env.accepting (Controller.empty webPorts)
          policyAllowWeb "dev_web-1").portGroupIngressDeny "dev_web-1" ↔
      0 < (localPodAddDefaultDeny Env.accepting (Controller.empty webPorts)
          policyAllowWeb "dev_web-1").lspIngressDenyCache "dev_web-1") ∧
    (isMember
        (localPodAddDefaultDeny Env.accepting (Controller.empty webPorts)
          policyAllowWeb "dev_web-1")
        (localPodAddDefaultDeny Env.accepting (Controller.empty webPorts)
          policyAllowWeb "dev_web-1").portGroupEgressDeny "dev_web-1" ↔
      0 < (localPodAddDefaultDeny Env.accepting (Controller.empty webPorts)
          policyAllowWeb "dev_web-1").lspEgressDenyCache "dev_web-1") :=
  ⟨by decide,
   defaultDeny_member_iff_counter Env.accepting healthy_accepting webPorts distinct_webPorts
     _ (DenyReachable.add _ _ _ DenyReachable.init) "dev_web-1" (by decide)⟩

/-! ## The ACL table: lookups and insertions -/

theorem num_key_ne (pt k : String) (hk : k.data.reverse.head? ≠ some 'm') :
    pt ++ "_num" ≠ k := by
  intro h
  apply hk
  rw [← h]
  simp [String.data_append]

theorem getACLUUIDFromMap_eq_empty (acls : List (String × ACL)) (filters : List (String × Val))
    (hwf : UUIDsNonEmpty acls) (h : getACLUUIDFromMap acls filters = "") :
    ∀ r ∈ acls, filters.all (filterMatch r.2) = false := by
  unfold getACLUUIDFromMap at h
  split at h
  · rename_i r hr
    exact absurd h (hwf r (List.mem_of_find?_eq_some hr))
  · rename_i hr
    intro r hm
    have := List.find?_eq_none.1 hr r hm
    simpa using this

theorem getACLUUIDFromMap_ne_empty (acls : List (String × ACL)) (filters : List (String × Val))
    (h : getACLUUIDFromMap acls filters ≠ "") :
    ∃ r ∈ acls, filters.all (filterMatch r.2) = true := by
  unfold getACLUUIDFromMap at h
  split at h
  · rename_i r hr
    exact ⟨r, List.mem_of_find?_eq_some hr, by simpa using List.find?_some hr⟩
  · exact absurd rfl h

theorem externalIdsMatch_of_sameIds (ext F G : List (String × String)) (h : sameIds ext F)
    (hG : ∀ kv ∈ G, F.lookup kv.1 = some kv.2) : externalIdsMatch ext G = true := by
  unfold externalIdsMatch
  rw [List.all_eq_true]
  intro kv hkv
  rw [h kv.1, hG kv hkv]
  simp

theorem num_key_facts (pt : String) :
    pt ++ "_num" ≠ "l4Match" ∧ pt ++ "_num" ≠ "ipblock_cidr" ∧ pt ++ "_num" ≠ "namespace" ∧
    pt ++ "_num" ≠ "policy" ∧ pt ++ "_num" ≠ "policy_type" ∧
    pt ++ "_num" ≠ "ipblock-deny-policy-type" :=
  ⟨num_key_ne _ _ (by decide), num_key_ne _ _ (by decide), num_key_ne _ _ (by decide),
   num_key_ne _ _ (by decide), num_key_ne _ _ (by decide), num_key_ne _ _ (by decide)⟩

/-- The keys of the external_ids of an allow rule are distinct: looking a key
up gives the value it was entered with. -/
theorem allowExternalIds_lookup (np : namespacePolicy) (l4 : String) (b : Bool) (n : Int)
    (pt : PolicyType) :
    ∀ kv ∈ allowExternalIds np l4 b n pt,
      (allowExternalIds np l4 b n pt).lookup kv.1 = some kv.2 := by
  obtain ⟨h1, h2, h3, h4, h5, -⟩ := num_key_facts pt
  intro kv hkv
  simp only [allowExternalIds, List.mem_cons, List.mem_singleton, List.not_mem_nil,
    or_false] at hkv
  have b1 : (pt ++ "_num" == "l4Match") = false := beq_eq_false_iff_ne.2 h1
  have b2 : (pt ++ "_num" == "ipblock_cidr") = false := beq_eq_false_iff_ne.2 h2
  have b3 : (pt ++ "_num" == "namespace") = false := beq_eq_false_iff_ne.2 h3
  have b4 : (pt ++ "_num" == "policy") = false := beq_eq_false_iff_ne.2 h4
  have b5 : ("policy_type" == pt ++ "_num") = false := beq_eq_false_iff_ne.2 (Ne.symm h5)
  rcases hkv with rfl | rfl | rfl | rfl | rfl | rfl <;>
    simp [allowExternalIds, List.lookup, b1, b2, b3, b4, b5]

theorem filter_ids (acl : ACL) (F : List (String × String)) :
    [("external_ids", Val.ids F)].all (filterMatch acl) = externalIdsMatch acl.external_ids F := by
  simp [filterMatch]

theorem filter_rule (acl : ACL) (m a : String) (G : List (String × String)) :
    [("match", Val.str m), ("action", Val.str a), ("external_ids", Val.ids G)].all
        (filterMatch acl) =
      (decide (acl.match_ = m) && decide (acl.action = a) &&
        externalIdsMatch acl.external_ids G) := by
  have hv : ∀ x y : String, (Val.str x == Val.str y) = decide (x = y) := by
    intro x y
    by_cases h : x = y <;> simp [h]
  simp [filterMatch, ACL.col, Bool.and_assoc, hv]

/-- What insertACL does to the table and the trace. -/
theorem insertACL_acls (E : Env) (oc : Controller) (row : ACL) (pg : String) :
    (insertACL E oc row pg).2.trace = oc.trace ++ [Event.insertACL row pg] ∧
    ((insertACL E oc row pg).2.acls = oc.acls ∨
      (insertACL E oc row pg).2.acls = oc.acls ++ [(E.newUUID oc, row)]) := by
  simp only [insertACL]
  split
  · exact ⟨rfl, Or.inr rfl⟩
  · exact ⟨rfl, Or.inl rfl⟩

theorem addACLAllow_cases (E : Env) (oc : Controller) (np : namespacePolicy)
    (m l4 : String) (b : Bool) (n : Int) (pt : PolicyType) :
    (getACLUUIDFromMap oc.acls
        [("external_ids", Val.ids (allowExternalIds np l4 b n pt))] ≠ "" ∧
      addACLAllow E oc np m l4 b n pt = oc) ∨
    (getACLUUIDFromMap oc.acls
        [("external_ids", Val.ids (allowExternalIds np l4 b n pt))] = "" ∧
      addACLAllow E oc np m l4 b n pt =
        (insertACL E oc (allowRow E np m l4 b n pt) np.portGroupUUID).2) := by
  by_cases h : getACLUUIDFromMap oc.acls
      [("external_ids", Val.ids (allowExternalIds np l4 b n pt))] = ""
  · right
    refine ⟨h, ?_⟩
    simp only [addACLAllow, h, ne_eq, not_true_eq_false, if_false, allowRow, storedMatch]
  · left
    refine ⟨h, ?_⟩
    simp only [addACLAllow, h, ne_eq, not_false_eq_true, if_true]

theorem addIPBlockACLDeny_cases (E : Env) (oc : Controller) (np : namespacePolicy)
    (except priority : String) (n : Int) (pt : PolicyType) :
    (getACLUUIDFromMap oc.acls
        [("match", Val.str (ipBlockDenyMatch np except pt)), ("action", Val.str "drop"),
         ("external_ids", Val.ids
            [("ipblock-deny-policy-type", pt), ("namespace", np.namespace_),
             (pt ++ "_num", toString n), ("policy", np.name)])] ≠ "" ∧
      addIPBlockACLDeny E oc np except priority n pt = oc) ∨
    (getACLUUIDFromMap oc.acls
        [("match", Val.str (ipBlockDenyMatch np except pt)), ("action", Val.str "drop"),
         ("external_ids", Val.ids
            [("ipblock-deny-policy-type", pt), ("namespace", np.namespace_),
             (pt ++ "_num", toString n), ("policy", np.name)])] = "" ∧
      addIPBlockACLDeny E oc np except priority n pt =
        (insertACL E oc (ipBlockDenyRow E np except priority n pt) np.portGroupUUID).2) := by
  by_cases h : getACLUUIDFromMap oc.acls
        [("match", Val.str (ipBlockDenyMatch np except pt)), ("action", Val.str "drop"),
         ("external_ids", Val.ids
            [("ipblock-deny-policy-type", pt), ("namespace", np.namespace_),
             (pt ++ "_num", toString n), ("policy", np.name)])] = ""
  · right
    refine ⟨h, ?_⟩
    simp only [addIPBlockACLDeny, h, ne_eq, not_true_eq_false, if_false, ipBlockDenyRow]
  · left
    refine ⟨h, ?_⟩
    simp only [addIPBlockACLDeny, h, ne_eq, not_false_eq_true, if_true]

theorem addACLDenyPortGroup_cases (E : Env) (oc : Controller)
    (u name priority : String) (pt : PolicyType) :
    (getACLUUIDFromMap oc.acls
        [("match", Val.str (lportMatch name pt)), ("action", Val.str "drop"),
         ("external_ids", Val.ids [("default-deny-policy-type", pt)])] ≠ "" ∧
      (addACLDenyPortGroup E oc u name priority pt).2 = oc) ∨
    (getACLUUIDFromMap oc.acls
        [("match", Val.str (lportMatch name pt)), ("action", Val.str "drop"),
         ("external_ids", Val.ids [("default-deny-policy-type", pt)])] = "" ∧
      (addACLDenyPortGroup E oc u name priority pt).2 =
        (insertACL E oc (defaultDenyRow E name priority pt) u).2) := by
  by_cases h : getACLUUIDFromMap oc.acls
        [("match", Val.str (lportMatch name pt)), ("action", Val.str "drop"),
         ("external_ids", Val.ids [("default-deny-policy-type", pt)])] = ""
  · right
    refine ⟨h, ?_⟩
    simp only [addACLDenyPortGroup, h, ne_eq, not_true_eq_false, if_false, defaultDenyRow]
    split <;> rfl
  · left
    refine ⟨h, ?_⟩
    simp only [addACLDenyPortGroup, h, ne_eq, not_false_eq_true, if_true]

theorem pairwise_snoc {α : Type} (R : α → α → Prop) (l : List α) (x : α)
    (h : l.Pairwise R) (hx : ∀ a ∈ l, R a x) : (l ++ [x]).Pairwise R := by
  rw [List.pairwise_append]
  refine ⟨h, List.pairwise_singleton R x, ?_⟩
  intro a ha b hb
  rw [List.mem_singleton] at hb
  subst hb
  exact hx a ha

theorem ipBlockDenyIds_lookup (E : Env) (except priority : String) (np : namespacePolicy)
    (n : Int) (pt : PolicyType) :
    ∀ kv ∈ [("ipblock-deny-policy-type", pt), ("namespace", np.namespace_),
        (pt ++ "_num", toString n), ("policy", np.name)],
      (ipBlockDenyRow E np except priority n pt).external_ids.lookup kv.1 = some kv.2 := by
  obtain ⟨-, -, h3, h4, -, h6⟩ := num_key_facts pt
  have b3 : (pt ++ "_num" == "namespace") = false := beq_eq_false_iff_ne.2 h3
  have b4 : (pt ++ "_num" == "policy") = false := beq_eq_false_iff_ne.2 h4
  have b6 : ("ipblock-deny-policy-type" == pt ++ "_num") = false :=
    beq_eq_false_iff_ne.2 (Ne.symm h6)
  intro kv hkv
  simp only [List.mem_cons, List.mem_singleton, List.not_mem_nil, or_false] at hkv
  rcases hkv with rfl | rfl | rfl | rfl <;>
    simp [ipBlockDenyRow, List.lookup, b3, b4, b6]

theorem addACLAllow_distinct (E : Env) (oc : Controller) (hwf : UUIDsNonEmpty oc.acls)
    (np : namespacePolicy) (m l4 : String) (b : Bool) (n : Int) (pt : PolicyType)
    (h : DistinctExternalIds oc.acls) :
    DistinctExternalIds (addACLAllow E oc np m l4 b n pt).acls := by
  rcases addACLAllow_cases E oc np m l4 b n pt with ⟨-, he⟩ | ⟨hn, he⟩
  · rw [he]; exact h
  · rw [he]
    rcases (insertACL_acls E oc (allowRow E np m l4 b n pt) np.portGroupUUID).2 with ha | ha
    · rw [ha]; exact h
    · rw [ha]
      refine pairwise_snoc _ _ _ h ?_
      intro a ha hs
      have hf := getACLUUIDFromMap_eq_empty _ _ hwf hn a ha
      rw [filter_ids] at hf
      have ht := externalIdsMatch_of_sameIds a.2.external_ids _ _ hs
        (allowExternalIds_lookup np l4 b n pt)
      simp only [allowRow] at ht
      rw [ht] at hf
      cases hf

theorem addIPBlockACLDeny_distinct (E : Env) (oc : Controller) (hwf : UUIDsNonEmpty oc.acls)
    (np : namespacePolicy) (except priority : String) (n : Int) (pt : PolicyType)
    (h : DistinctRules oc.acls) :
    DistinctRules (addIPBlockACLDeny E oc np except priority n pt).acls := by
  rcases addIPBlockACLDeny_cases E oc np except priority n pt with ⟨-, he⟩ | ⟨hn, he⟩
  · rw [he]; exact h
  · rw [he]
    rcases (insertACL_acls E oc (ipBlockDenyRow E np except priority n pt)
      np.portGroupUUID).2 with ha | ha
    · rw [ha]; exact h
    · rw [ha]
      refine pairwise_snoc _ _ _ h ?_
      rintro a ha ⟨hs, hm, hact⟩
      have hf := getACLUUIDFromMap_eq_empty _ _ hwf hn a ha
      rw [filter_rule] at hf
      have ht := externalIdsMatch_of_sameIds a.2.external_ids _ _ hs
        (ipBlockDenyIds_lookup E except priority np n pt)
      simp only [ipBlockDenyRow] at hm hact
      simp [hm, hact, ht] at hf

theorem addACLDenyPortGroup_distinct (E : Env) (oc : Controller)
    (hwf : UUIDsNonEmpty oc.acls) (u name priority : String) (pt : PolicyType)
    (h : DistinctRules oc.acls) :
    DistinctRules (addACLDenyPortGroup E oc u name priority pt).2.acls := by
  rcases addACLDenyPortGroup_cases E oc u name priority pt with ⟨-, he⟩ | ⟨hn, he⟩
  · rw [he]; exact h
  · rw [he]
    rcases (insertACL_acls E oc (defaultDenyRow E name priority pt) u).2 with ha | ha
    · rw [ha]; exact h
    · rw [ha]
      refine pairwise_snoc _ _ _ h ?_
      rintro a ha ⟨hs, hm, hact⟩
      have hf := getACLUUIDFromMap_eq_empty _ _ hwf hn a ha
      rw [filter_rule] at hf
      have ht := externalIdsMatch_of_sameIds a.2.external_ids
        (defaultDenyRow E name priority pt).external_ids
        [("default-deny-policy-type", pt)] hs (by
          intro kv hkv
          simp only [List.mem_singleton] at hkv
          subst hkv
          simp [defaultDenyRow, List.lookup])
      simp only [defaultDenyRow] at hm hact
      simp [hm, hact, ht] at hf

/-- C7 as stated fails for addIPBlockACLDeny: the table with the single
ip-block deny row of ingress rule 0 of dev/allow-web has pairwise distinct
external_ids; the call for the same policy and rule with another exception
list finds no row with its match, so it inserts a second row, and the two
rows of the table have identical external_ids. -/
theorem addIPBlockACLDeny_duplicates_external_ids :
    DistinctExternalIds ocOneDeny.acls ∧
    ¬ DistinctExternalIds
      (addIPBlockACLDeny Env.accepting ocOneDeny npAllowWeb "\x7b10.2.0.0/16\x7d" "1010" 0
        PolicyTypeIngress).acls := by
  constructor
  · simp [DistinctExternalIds, ocOneDeny]
  · have h : (addIPBlockACLDeny Env.accepting ocOneDeny npAllowWeb "\x7b10.2.0.0/16\x7d" "1010" 0
        PolicyTypeIngress).acls =
        [("acl-0", ipBlockDenyRow Env.accepting npAllowWeb "\x7b10.1.0.0/16\x7d" "1010" 0
            PolicyTypeIngress),
         ("acl-1", ipBlockDenyRow Env.accepting npAllowWeb "\x7b10.2.0.0/16\x7d" "1010" 0
            PolicyTypeIngress)] := by decide
    rw [h]
    intro hd
    simp only [DistinctExternalIds, List.pairwise_cons, List.mem_singleton, forall_eq] at hd
    exact hd.1 (fun _ => rfl)

/-- C7, amended: on a table whose rows carry non-empty uuids, addACLAllow
keeps the external_ids of the rows pairwise distinct, and addIPBlockACLDeny and
addACLDenyPortGroup keep the rows pairwise distinct in external_ids, match and
action taken together (they look a rule up by its match and action as well,
so a row with the external_ids of another rule of a different match may be
added). -/
theorem acl_creation_keeps_distinct (E : Env) (oc : Controller)
    (hwf : UUIDsNonEmpty oc.acls) :
    (∀ np m l4 b n pt, DistinctExternalIds oc.acls →
      DistinctExternalIds (addACLAllow E oc np m l4 b n pt).acls) ∧
    (∀ np except priority n pt, DistinctRules oc.acls →
      DistinctRules (addIPBlockACLDeny E oc np except priority n pt).acls) ∧
    (∀ u name priority pt, DistinctRules oc.acls →
      DistinctRules (addACLDenyPortGroup E oc u name priority pt).2.acls) :=
  ⟨fun np m l4 b n pt h => addACLAllow_distinct E oc hwf np m l4 b n pt h,
   fun np except priority n pt h => addIPBlockACLDeny_distinct E oc hwf np except priority n pt h,
   fun u name priority pt h => addACLDenyPortGroup_distinct E oc hwf u name priority pt h⟩

theorem uuidsNonEmpty_ocOneDeny : UUIDsNonEmpty ocOneDeny.acls := by
  intro r hr
  simp only [ocOneDeny, List.mem_singleton] at hr
  subst hr
  decide

theorem distinctRules_ocOneDeny : DistinctRules ocOneDeny.acls := by
  simp [DistinctRules, ocOneDeny]

/-- Witness for C7, amended: the table with one ip-block deny row, and the
call of addIPBlockACLDeny with another exception list. -/
theorem acl_creation_keeps_distinct_witness :
    UUIDsNonEmpty ocOneDeny.acls ∧ DistinctRules ocOneDeny.acls ∧
    DistinctRules
      (addIPBlockACLDeny Env.accepting ocOneDeny npAllowWeb "\x7b10.2.0.0/16\x7d" "1010" 0
        PolicyTypeIngress).acls :=
  ⟨uuidsNonEmpty_ocOneDeny, distinctRules_ocOneDeny,
   (acl_creation_keeps_distinct Env.accepting ocOneDeny uuidsNonEmpty_ocOneDeny).2.1
     npAllowWeb "\x7b10.2.0.0/16\x7d" "1010" 0 PolicyTypeIngress distinctRules_ocOneDeny⟩

/-- C8 as stated fails in its second half: the cache holds one row, whose
external_ids are the fingerprint and one more entry, so no row has external_ids
equal to the fingerprint; all the same addACLAllow issues no transaction (the
trace stays empty), because the lookup only asks that every entry of the
fingerprint be in the row. -/
theorem addACLAllow_superset_no_write :
    (∀ r ∈ ocAllowExtra.acls,
      ¬ sameIds r.2.external_ids (allowExternalIds npAllowWeb "None" false 0 PolicyTypeIngress)) ∧
    (addACLAllow Env.accepting ocAllowExtra npAllowWeb "x" "None" false 0
      PolicyTypeIngress).trace = [] := by
  constructor
  · intro r hr hs
    simp only [ocAllowExtra, List.mem_singleton] at hr
    subst hr
    have h := hs "owner"
    revert h
    decide
  · decide

/-- C8, amended: on a cache whose rows carry non-empty uuids, addACLAllow
leaves the controller as it is (no transaction) when some cached row holds
every entry of the fingerprint in its external_ids, in particular when the
external_ids of a row equal the fingerprint; otherwise it issues exactly one
transaction, which inserts one ACL row with exactly the fingerprint as
external_ids and adds the new row to the acls of the port group
np.portGroupUUID. -/
theorem addACLAllow_writes (E : Env) (oc : Controller) (hwf : UUIDsNonEmpty oc.acls)
    (np : namespacePolicy) (m l4 : String) (b : Bool) (n : Int) (pt : PolicyType) :
    ((∃ r ∈ oc.acls,
        externalIdsMatch r.2.external_ids (allowExternalIds np l4 b n pt) = true) →
      addACLAllow E oc np m l4 b n pt = oc) ∧
    ((∃ r ∈ oc.acls, sameIds r.2.external_ids (allowExternalIds np l4 b n pt)) →
      addACLAllow E oc np m l4 b n pt = oc) ∧
    ((¬ ∃ r ∈ oc.acls,
        externalIdsMatch r.2.external_ids (allowExternalIds np l4 b n pt) = true) →
      (addACLAllow E oc np m l4 b n pt).trace =
        oc.trace ++ [Event.insertACL
          { priority := E.defaultAllowPriorityInt, direction := E.toLport,
            match_ := storedMatch m,
            action := if pt = PolicyTypeIngress then "allow-related" else "allow",
            external_ids := allowExternalIds np l4 b n pt }
          np.portGroupUUID]) := by
  have key : (∃ r ∈ oc.acls,
      externalIdsMatch r.2.external_ids (allowExternalIds np l4 b n pt) = true) →
      addACLAllow E oc np m l4 b n pt = oc := by
    rintro ⟨r, hr, hm⟩
    rcases addACLAllow_cases E oc np m l4 b n pt with ⟨-, he⟩ | ⟨hn, -⟩
    · exact he
    · have hf := getACLUUIDFromMap_eq_empty _ _ hwf hn r hr
      rw [filter_ids, hm] at hf
      cases hf
  refine ⟨key, ?_, ?_⟩
  · rintro ⟨r, hr, hs⟩
    exact key ⟨r, hr, externalIdsMatch_of_sameIds _ _ _ hs (allowExternalIds_lookup np l4 b n pt)⟩
  · intro hno
    rcases addACLAllow_cases E oc np m l4 b n pt with ⟨hne, -⟩ | ⟨-, he⟩
    · obtain ⟨r, hr, hm⟩ := getACLUUIDFromMap_ne_empty _ _ hne
      rw [filter_ids] at hm
      exact absurd ⟨r, hr, hm⟩ hno
    · rw [he]
      exact (insertACL_acls E oc (allowRow E np m l4 b n pt) np.portGroupUUID).1

/-- Witness for C8, amended: the empty cache, where the call inserts the row. -/
theorem addACLAllow_writes_witness :
    UUIDsNonEmpty (Controller.empty (fun _ => "")).acls ∧
    (addACLAllow Env.accepting (Controller.empty (fun _ => "")) npAllowWeb
        "match=\"ip4.src == \x7b$a1\x7d && outport == @a1\"" "None" false 0
        PolicyTypeIngress).trace =
      [Event.insertACL
        { priority := 1001, direction := "to-lport",
          match_ := "ip4.src == \x7b$a1\x7d && outport == @a1",
          action := "allow-related",
          external_ids :=
            [("l4Match", "None"), ("ipblock_cidr", "false"), ("namespace", "dev"),
             ("policy", "allow-web"), ("Ingress_num", "0"), ("policy_type", "Ingress")] }
        "pg-1"] := by
  have hwf : UUIDsNonEmpty (Controller.empty (fun _ => "")).acls := by
    intro r hr
    simp [Controller.empty] at hr
  refine ⟨hwf, ?_⟩
  have h := (addACLAllow_writes Env.accepting (Controller.empty (fun _ => "")) hwf npAllowWeb
    "match=\"ip4.src == \x7b$a1\x7d && outport == @a1\"" "None" false 0 PolicyTypeIngress).2.2
    (by simp [Controller.empty])
  rw [h]
  decide

/-! ## The allow and deny rules written by localPodAddACL -/

theorem noNewline_append (a b : String) :
    NoNewline (a ++ b) ↔ NoNewline a ∧ NoNewline b := by
  simp [NoNewline, String.toList, String.data_append, not_or]

theorem untilLastQuote_snoc (l : List Char) : untilLastQuote (l ++ [dquote]) = some l := by
  induction l with
  | nil => simp [untilLastQuote]
  | cons c l ih => simp [untilLastQuote, ih]

theorem takeWhile_noNewline (l : List Char) (h : newline ∉ l) :
    (l ++ [dquote]).takeWhile (fun x => x != newline) = l ++ [dquote] := by
  rw [List.takeWhile_eq_self_iff]
  intro x hx
  rcases List.mem_append.1 hx with h1 | h1
  · have : x ≠ newline := fun he => h (he ▸ h1)
    simpa using this
  · rw [List.mem_singleton] at h1
    subst h1
    decide

/-- The pattern applied to a wrapped text without line feed gives the text. -/
theorem storedMatch_wrap (body : String) (h : NoNewline body) :
    storedMatch ("match=\"" ++ body ++ "\"") = body := by
  have hl : ("match=\"" ++ body ++ "\"").toList =
      'm' :: 'a' :: 't' :: 'c' :: 'h' :: '=' :: dquote :: (body.toList ++ [dquote]) := by
    have hq : "\"".toList = [dquote] := by decide
    have hp : "match=\"".toList = ['m', 'a', 't', 'c', 'h', '=', dquote] := by decide
    simp only [String.toList, String.data_append] at *
    rw [hp, hq]
    simp
  have hpre : matchPrefix.isPrefixOf
      ('m' :: 'a' :: 't' :: 'c' :: 'h' :: '=' :: dquote :: (body.toList ++ [dquote])) = true := by
    simp [matchPrefix, List.isPrefixOf]
  unfold storedMatch FindStringSubmatch
  rw [hl, findSubmatch, if_pos hpre]
  simp only [List.drop_succ_cons, List.drop_zero]
  rw [takeWhile_noNewline _ h, untilLastQuote_snoc]
  simp [String.toList]

theorem grows_refl (oc : Controller) : Grows oc oc [] :=
  ⟨extends_refl oc, fun _ h => h⟩

theorem grows_trans {a b c : Controller} {l1 l2 : List Event} (h1 : Grows a b l1)
    (h2 : Grows b c l2) : Grows a c (l1 ++ l2) :=
  ⟨extends_trans h1.1 h2.1, fun r hr => h2.2 r (h1.2 r hr)⟩

theorem insertACL_grows (E : Env) (oc : Controller) (row : ACL) (pg : String) :
    Grows oc (insertACL E oc row pg).2 [Event.insertACL row pg] := by
  refine ⟨insertACL_trace E oc row pg, ?_⟩
  intro r hr
  rcases (insertACL_acls E oc row pg).2 with h | h <;> rw [h]
  · exact hr
  · exact List.mem_append_left _ hr

/-- The call addACLAllow either finds a cached row that holds the fingerprint
and does nothing, or issues the insertion of its row. -/
theorem addACLAllow_grows (E : Env) (oc : Controller) (np : namespacePolicy)
    (m l4 : String) (b : Bool) (n : Int) (pt : PolicyType) :
    ((∃ r ∈ oc.acls, externalIdsMatch r.2.external_ids (allowExternalIds np l4 b n pt) = true) ∧
      Grows oc (addACLAllow E oc np m l4 b n pt) []) ∨
    Grows oc (addACLAllow E oc np m l4 b n pt)
      [Event.insertACL (allowRow E np m l4 b n pt) np.portGroupUUID] := by
  rcases addACLAllow_cases E oc np m l4 b n pt with ⟨hne, he⟩ | ⟨-, he⟩
  · left
    obtain ⟨r, hr, hm⟩ := getACLUUIDFromMap_ne_empty _ _ hne
    rw [filter_ids] at hm
    rw [he]
    exact ⟨⟨r, hr, hm⟩, grows_refl oc⟩
  · right
    rw [he]
    exact insertACL_grows E oc _ _

/-- The call addIPBlockACLDeny either finds a cached drop rule with its match
that holds its external_ids and does nothing, or issues the insertion of its
row. -/
theorem addIPBlockACLDeny_grows (E : Env) (oc : Controller) (np : namespacePolicy)
    (except priority : String) (n : Int) (pt : PolicyType) :
    ((∃ r ∈ oc.acls, r.2.match_ = ipBlockDenyMatch np except pt ∧ r.2.action = "drop" ∧
        externalIdsMatch r.2.external_ids
          [("ipblock-deny-policy-type", pt), ("namespace", np.namespace_),
           (pt ++ "_num", toString n), ("policy", np.name)] = true) ∧
      Grows oc (addIPBlockACLDeny E oc np except priority n pt) []) ∨
    Grows oc (addIPBlockACLDeny E oc np except priority n pt)
      [Event.insertACL (ipBlockDenyRow E np except priority n pt) np.portGroupUUID] := by
  rcases addIPBlockACLDeny_cases E oc np except priority n pt with ⟨hne, he⟩ | ⟨-, he⟩
  · left
    obtain ⟨r, hr, hm⟩ := getACLUUIDFromMap_ne_empty _ _ hne
    rw [filter_rule] at hm
    simp only [Bool.and_eq_true, decide_eq_true_eq] at hm
    rw [he]
    exact ⟨⟨r, hr, hm.1.1, hm.1.2, hm.2⟩, grows_refl oc⟩
  · right
    rw [he]
    exact insertACL_grows E oc _ _

/-- The events and the effect of the two calls for one layer-4 match. -/
theorem addACLAllowPair_grows (E : Env) (oc : Controller) (np : namespacePolicy)
    (gress : gressPolicy) (lport m l4 : String) :
    ∃ l, Grows oc (addACLAllowPair E oc np gress lport m l4) l ∧
      (∀ e ∈ l,
        (gress.ipBlockCidr ≠ [] ∧
          e = Event.insertACL (allowRow E np (E.getMatchFromIPBlock gress lport l4) l4 true
            gress.idx gress.policyType) np.portGroupUUID) ∨
        e = Event.insertACL (allowRow E np m l4 false gress.idx gress.policyType)
          np.portGroupUUID) ∧
      (gress.ipBlockCidr ≠ [] →
        (∃ r ∈ (addACLAllowPair E oc np gress lport m l4).acls,
          externalIdsMatch r.2.external_ids
            (allowExternalIds np l4 true gress.idx gress.policyType) = true) ∨
        Event.insertACL (allowRow E np (E.getMatchFromIPBlock gress lport l4) l4 true
            gress.idx gress.policyType) np.portGroupUUID ∈ l) := by
  unfold addACLAllowPair
  by_cases hc : gress.ipBlockCidr.length > 0
  · have hc2 : gress.ipBlockCidr ≠ [] := by
      intro h0; rw [h0] at hc; simp at hc
    simp only [hc, if_true]
    rcases addACLAllow_grows E oc np (E.getMatchFromIPBlock gress lport l4) l4 true
        gress.idx gress.policyType with ⟨⟨r, hr, hm⟩, g1⟩ | g1 <;>
      rcases addACLAllow_grows E
        (addACLAllow E oc np (E.getMatchFromIPBlock gress lport l4) l4 true gress.idx
          gress.policyType) np m l4 false gress.idx gress.policyType with ⟨-, g2⟩ | g2
    · exact ⟨_, grows_trans g1 g2, by simp, fun _ => Or.inl ⟨r, g2.2 r (g1.2 r hr), hm⟩⟩
    · exact ⟨_, grows_trans g1 g2, by simp, fun _ => Or.inl ⟨r, g2.2 r (g1.2 r hr), hm⟩⟩
    · exact ⟨_, grows_trans g1 g2, by simp [hc2], fun _ => Or.inr (by simp)⟩
    · exact ⟨_, grows_trans g1 g2, by simp [hc2], fun _ => Or.inr (by simp)⟩
  · have hc2 : gress.ipBlockCidr = [] := by
      cases h : gress.ipBlockCidr with
      | nil => rfl
      | cons a l => rw [h] at hc; simp at hc
    simp only [hc, if_false]
    rcases addACLAllow_grows E oc np m l4 false gress.idx gress.policyType with ⟨-, g2⟩ | g2
    · exact ⟨_, g2, by simp, fun h => absurd hc2 h⟩
    · exact ⟨_, g2, by simp, fun h => absurd hc2 h⟩

theorem localPodAddACLPort_fold (E : Env) (np : namespacePolicy) (gress : gressPolicy)
    (ps : List portPolicy) (hsub : ∀ p ∈ ps, p ∈ gress.portPolicies) (oc : Controller) :
    ∃ l, Grows oc (ps.foldl (localPodAddACLPort E np gress (E.getL3MatchFromAddressSet gress)
          (lportMatch np.portGroupName gress.policyType)) oc) l ∧
      (∀ e ∈ l, RuleEvent E np gress e) ∧
      (gress.ipBlockCidr ≠ [] → ∀ p ∈ ps, ∀ l4, E.getL4Match p = Except.ok l4 →
        (∃ r ∈ (ps.foldl (localPodAddACLPort E np gress (E.getL3MatchFromAddressSet gress)
            (lportMatch np.portGroupName gress.policyType)) oc).acls,
          externalIdsMatch r.2.external_ids
            (allowExternalIds np l4 true gress.idx gress.policyType) = true) ∨
        Event.insertACL (allowRow E np
          (E.getMatchFromIPBlock gress (lportMatch np.portGroupName gress.policyType) l4) l4
          true gress.idx gress.policyType) np.portGroupUUID ∈ l) := by
  induction ps generalizing oc with
  | nil => exact ⟨[], grows_refl oc, by simp, by simp⟩
  | cons q qs ih =>
    have hq : q ∈ gress.portPolicies := hsub q (List.mem_cons_self _ _)
    obtain ⟨l2, g2, he2, hc2⟩ := ih (fun p hp => hsub p (List.mem_cons_of_mem _ hp))
      (localPodAddACLPort E np gress (E.getL3MatchFromAddressSet gress)
        (lportMatch np.portGroupName gress.policyType) oc q)
    have hround : ∃ l1, Grows oc (localPodAddACLPort E np gress (E.getL3MatchFromAddressSet gress)
          (lportMatch np.portGroupName gress.policyType) oc q) l1 ∧
        (∀ e ∈ l1, RuleEvent E np gress e) ∧
        (gress.ipBlockCidr ≠ [] → ∀ l4, E.getL4Match q = Except.ok l4 →
          (∃ r ∈ (localPodAddACLPort E np gress (E.getL3MatchFromAddressSet gress)
              (lportMatch np.portGroupName gress.policyType) oc q).acls,
            externalIdsMatch r.2.external_ids
              (allowExternalIds np l4 true gress.idx gress.policyType) = true) ∨
          Event.insertACL (allowRow E np
            (E.getMatchFromIPBlock gress (lportMatch np.portGroupName gress.policyType) l4) l4
            true gress.idx gress.policyType) np.portGroupUUID ∈ l1) := by
      unfold localPodAddACLPort
      cases hg : E.getL4Match q with
      | error err => exact ⟨[], grows_refl oc, by simp, by simp⟩
      | ok l4 =>
        obtain ⟨l1, g1, he1, hc1⟩ := addACLAllowPair_grows E oc np gress
          (lportMatch np.portGroupName gress.policyType)
          ("match=\"" ++ (E.getL3MatchFromAddressSet gress ++ " && " ++ l4 ++ " && " ++
            lportMatch np.portGroupName gress.policyType) ++ "\"") l4
        refine ⟨l1, g1, ?_, ?_⟩
        · intro e he
          rcases he1 e he with ⟨hcidr, h⟩ | h
          · exact Or.inr (Or.inl ⟨l4, hcidr, h⟩)
          · exact Or.inr (Or.inr (Or.inr ⟨q, hq, l4, hg, h⟩))
        · intro hcidr l4b hb
          cases hb
          exact hc1 hcidr
    obtain ⟨l1, g1, he1, hc1⟩ := hround
    refine ⟨l1 ++ l2, ?_, ?_, ?_⟩
    · simpa [List.foldl] using grows_trans g1 g2
    · intro e he
      rcases List.mem_append.1 he with h | h
      · exact he1 e h
      · exact he2 e h
    · intro hcidr p hp l4 hl4
      simp only [List.foldl]
      rcases List.mem_cons.1 hp with h | h
      · subst h
        rcases hc1 hcidr l4 hl4 with ⟨r, hr, hm⟩ | hm
        · exact Or.inl ⟨r, g2.2 r hr, hm⟩
        · exact Or.inr (List.mem_append_left _ hm)
      · rcases hc2 hcidr p h l4 hl4 with hm | hm
        · exact Or.inl hm
        · exact Or.inr (List.mem_append_right _ hm)

theorem length_pos_iff_ne_nil {α : Type} (l : List α) : l.length > 0 ↔ l ≠ [] := by
  cases l <;> simp

/-- The events and the effect of localPodAddACL. -/
theorem localPodAddACL_grows (E : Env) (oc : Controller) (np : namespacePolicy)
    (gress : gressPolicy) :
    ∃ l, Grows oc (localPodAddACL E oc np gress) l ∧
      (∀ e ∈ l, RuleEvent E np gress e) ∧
      (gress.ipBlockCidr ≠ [] → gress.ipBlockExcept ≠ [] →
        (∃ r ∈ oc.acls,
          r.2.match_ = ipBlockDenyMatch np (exceptText gress) gress.policyType ∧
          r.2.action = "drop" ∧
          externalIdsMatch r.2.external_ids
            [("ipblock-deny-policy-type", gress.policyType), ("namespace", np.namespace_),
             (gress.policyType ++ "_num", toString gress.idx), ("policy", np.name)] = true) ∨
        ∃ rest, l = Event.insertACL (ipBlockDenyRow E np (exceptText gress)
          E.ipBlockDenyPriority gress.idx gress.policyType) np.portGroupUUID :: rest) ∧
      (gress.ipBlockCidr ≠ [] →
        (gress.portPolicies = [] ∨
          ∃ p ∈ gress.portPolicies, ∃ l4, E.getL4Match p = Except.ok l4) →
        ∃ l4,
          (∃ r ∈ (localPodAddACL E oc np gress).acls,
            externalIdsMatch r.2.external_ids
              (allowExternalIds np l4 true gress.idx gress.policyType) = true) ∨
          Event.insertACL (allowRow E np
            (E.getMatchFromIPBlock gress (lportMatch np.portGroupName gress.policyType) l4) l4
            true gress.idx gress.policyType) np.portGroupUUID ∈ l) := by
  -- the ip-block deny rule
  have h1 : ∃ l1, Grows oc
      (if gress.ipBlockCidr.length > 0 ∧ gress.ipBlockExcept.length > 0 then
        addIPBlockACLDeny E oc np (exceptText gress) E.ipBlockDenyPriority gress.idx
          gress.policyType
       else oc) l1 ∧
      (∀ e ∈ l1, RuleEvent E np gress e) ∧
      (gress.ipBlockCidr ≠ [] → gress.ipBlockExcept ≠ [] →
        (∃ r ∈ oc.acls,
          r.2.match_ = ipBlockDenyMatch np (exceptText gress) gress.policyType ∧
          r.2.action = "drop" ∧
          externalIdsMatch r.2.external_ids
            [("ipblock-deny-policy-type", gress.policyType), ("namespace", np.namespace_),
             (gress.policyType ++ "_num", toString gress.idx), ("policy", np.name)] = true) ∨
        l1 = [Event.insertACL (ipBlockDenyRow E np (exceptText gress)
          E.ipBlockDenyPriority gress.idx gress.policyType) np.portGroupUUID]) := by
    by_cases hc : gress.ipBlockCidr.length > 0 ∧ gress.ipBlockExcept.length > 0
    · have hc2 := hc
      rw [length_pos_iff_ne_nil, length_pos_iff_ne_nil] at hc2
      simp only [hc, and_self, if_true]
      rcases addIPBlockACLDeny_grows E oc np (exceptText gress) E.ipBlockDenyPriority
          gress.idx gress.policyType with ⟨hf, g⟩ | g
      · exact ⟨[], g, by simp, fun _ _ => Or.inl hf⟩
      · refine ⟨_, g, ?_, fun _ _ => Or.inr rfl⟩
        intro e he
        rw [List.mem_singleton] at he
        exact Or.inl ⟨hc2.1, hc2.2, he⟩
    · rw [if_neg hc]
      refine ⟨[], grows_refl oc, by simp, ?_⟩
      intro ha hb
      exact absurd ⟨(length_pos_iff_ne_nil _).2 ha, (length_pos_iff_ne_nil _).2 hb⟩ hc
  obtain ⟨l1, g1, he1, hd1⟩ := h1
  -- the rule without port policies
  have h2 : ∀ oc1 : Controller, ∃ l2, Grows oc1
      (if gress.portPolicies.length = 0 then
        addACLAllowPair E oc1 np gress (lportMatch np.portGroupName gress.policyType)
          ("match=\"" ++ (E.getL3MatchFromAddressSet gress ++ " && " ++
            lportMatch np.portGroupName gress.policyType) ++ "\"") E.noneMatch
       else oc1) l2 ∧
      (∀ e ∈ l2, RuleEvent E np gress e) ∧
      (gress.ipBlockCidr ≠ [] → gress.portPolicies = [] →
        (∃ r ∈ (if gress.portPolicies.length = 0 then
            addACLAllowPair E oc1 np gress (lportMatch np.portGroupName gress.policyType)
              ("match=\"" ++ (E.getL3MatchFromAddressSet gress ++ " && " ++
                lportMatch np.portGroupName gress.policyType) ++ "\"") E.noneMatch
           else oc1).acls,
          externalIdsMatch r.2.external_ids
            (allowExternalIds np E.noneMatch true gress.idx gress.policyType) = true) ∨
        Event.insertACL (allowRow E np
          (E.getMatchFromIPBlock gress (lportMatch np.portGroupName gress.policyType)
            E.noneMatch) E.noneMatch
          true gress.idx gress.policyType) np.portGroupUUID ∈ l2) := by
    intro oc1
    by_cases hp : gress.portPolicies.length = 0
    · have hp2 : gress.portPolicies = [] := List.length_eq_zero.1 hp
      simp only [hp, if_true]
      obtain ⟨l, g, he, hc⟩ := addACLAllowPair_grows E oc1 np gress
        (lportMatch np.portGroupName gress.policyType)
        ("match=\"" ++ (E.getL3MatchFromAddressSet gress ++ " && " ++
          lportMatch np.portGroupName gress.policyType) ++ "\"") E.noneMatch
      refine ⟨l, g, ?_, fun hcidr _ => hc hcidr⟩
      intro e hel
      rcases he e hel with ⟨hcidr, h⟩ | h
      · exact Or.inr (Or.inl ⟨E.noneMatch, hcidr, h⟩)
      · exact Or.inr (Or.inr (Or.inl ⟨hp2, h⟩))
    · rw [if_neg hp]
      refine ⟨[], grows_refl oc1, by simp, ?_⟩
      intro _ h0
      rw [h0] at hp
      exact absurd rfl hp
  obtain ⟨l2, g2, he2, hc2⟩ := h2
    (if gress.ipBlockCidr.length > 0 ∧ gress.ipBlockExcept.length > 0 then
        addIPBlockACLDeny E oc np (exceptText gress) E.ipBlockDenyPriority gress.idx
          gress.policyType
       else oc)
  obtain ⟨l3, g3, he3, hc3⟩ := localPodAddACLPort_fold E np gress gress.portPolicies
    (fun _ h => h)
    (if gress.portPolicies.length = 0 then
        addACLAllowPair E
          (if gress.ipBlockCidr.length > 0 ∧ gress.ipBlockExcept.length > 0 then
            addIPBlockACLDeny E oc np (exceptText gress) E.ipBlockDenyPriority gress.idx
              gress.policyType
           else oc) np gress (lportMatch np.portGroupName gress.policyType)
          ("match=\"" ++ (E.getL3MatchFromAddressSet gress ++ " && " ++
            lportMatch np.portGroupName gress.policyType) ++ "\"") E.noneMatch
       else
        (if gress.ipBlockCidr.length > 0 ∧ gress.ipBlockExcept.length > 0 then
          addIPBlockACLDeny E oc np (exceptText gress) E.ipBlockDenyPriority gress.idx
            gress.policyType
         else oc))
  refine ⟨l1 ++ l2 ++ l3, grows_trans (grows_trans g1 g2) g3, ?_, ?_, ?_⟩
  · intro e he
    rcases List.mem_append.1 he with h | h
    · rcases List.mem_append.1 h with h | h
      · exact he1 e h
      · exact he2 e h
    · exact he3 e h
  · intro ha hb
    rcases hd1 ha hb with h | h
    · exact Or.inl h
    · exact Or.inr ⟨l2 ++ l3, by rw [h]; simp⟩
  · intro hcidr hports
    rcases hports with h0 | ⟨p, hp, l4, hl4⟩
    · refine ⟨E.noneMatch, ?_⟩
      rcases hc2 hcidr h0 with ⟨r, hr, hm⟩ | hm
      · exact Or.inl ⟨r, g3.2 r hr, hm⟩
      · exact Or.inr (List.mem_append_left _ (List.mem_append_right _ hm))
    · refine ⟨l4, ?_⟩
      rcases hc3 hcidr p hp l4 hl4 with hm | hm
      · exact Or.inl hm
      · exact Or.inr (List.mem_append_right _ hm)

theorem allowRow_cidr_entry (E : Env) (np : namespacePolicy) (m l4 : String) (b : Bool)
    (n : Int) (pt : PolicyType) :
    (allowRow E np m l4 b n pt).external_ids.lookup "ipblock_cidr" = some (toString b) := by
  have h := allowExternalIds_lookup np l4 b n pt ("ipblock_cidr", toString b)
    (by simp [allowExternalIds])
  simpa [allowRow] using h

theorem ipBlockDenyRow_cidr_entry (E : Env) (np : namespacePolicy) (except priority : String)
    (n : Int) (pt : PolicyType) :
    (ipBlockDenyRow E np except priority n pt).external_ids.lookup "ipblock_cidr" = none := by
  obtain ⟨-, h2, -, -, -, -⟩ := num_key_facts pt
  have b2 : ("ipblock_cidr" == pt ++ "_num") = false := beq_eq_false_iff_ne.2 (Ne.symm h2)
  simp [ipBlockDenyRow, List.lookup, b2]

theorem noNewline_lportMatch (pg : String) (pt : PolicyType) (h : NoNewline pg) :
    NoNewline (lportMatch pg pt) := by
  unfold lportMatch
  have h1 : NoNewline "outport == @" := by unfold NoNewline; decide
  have h2 : NoNewline "inport == @" := by unfold NoNewline; decide
  split
  · exact (noNewline_append _ _).2 ⟨h1, h⟩
  · exact (noNewline_append _ _).2 ⟨h2, h⟩

theorem noNewline_and : NoNewline " && " := by unfold NoNewline; decide

/-- C9: when the L3 match, the name of the port group and every L4 match
obtained without error contain no line feed (they are built from hashed names,
which are alphanumeric, from protocols and from port numbers), every allow ACL with
ipblock_cidr = false that localPodAddACL inserts has as its stored match
exactly L3 && lport when the rule has no port policies, and exactly
L3 && L4 && lport for a port policy of the rule whose L4 match is obtained
without error, where lport is outport == @pg for an ingress rule and
inport == @pg otherwise; the stored value carries no wrapper. -/
theorem localPodAddACL_stored_match (E : Env) (oc : Controller) (np : namespacePolicy)
    (gress : gressPolicy) (h3 : NoNewline (E.getL3MatchFromAddressSet gress))
    (hpg : NoNewline np.portGroupName)
    (h4 : ∀ p ∈ gress.portPolicies, ∀ l4, E.getL4Match p = Except.ok l4 → NoNewline l4) :
    ∃ l, (localPodAddACL E oc np gress).trace = oc.trace ++ l ∧
      ∀ row pg, Event.insertACL row pg ∈ l →
        row.external_ids.lookup "ipblock_cidr" = some "false" →
        (gress.portPolicies = [] ∧
          row.match_ = E.getL3MatchFromAddressSet gress ++ " && " ++
            (if gress.policyType = PolicyTypeIngress then "outport == @" ++ np.portGroupName
             else "inport == @" ++ np.portGroupName)) ∨
        (∃ p ∈ gress.portPolicies, ∃ l4, E.getL4Match p = Except.ok l4 ∧
          row.match_ = E.getL3MatchFromAddressSet gress ++ " && " ++ l4 ++ " && " ++
            (if gress.policyType = PolicyTypeIngress then "outport == @" ++ np.portGroupName
             else "inport == @" ++ np.portGroupName)) := by
  obtain ⟨l, g, he, -, -⟩ := localPodAddACL_grows E oc np gress
  have hlp := noNewline_lportMatch np.portGroupName gress.policyType hpg
  refine ⟨l, g.1, ?_⟩
  intro row pg hmem hcidr
  rcases he _ hmem with ⟨-, -, h⟩ | ⟨l4, -, h⟩ | ⟨h0, h⟩ | ⟨p, hp, l4, hl4, h⟩
  · injection h with h _
    rw [h, ipBlockDenyRow_cidr_entry] at hcidr
    cases hcidr
  · injection h with h _
    rw [h, allowRow_cidr_entry] at hcidr
    exact absurd hcidr (by decide)
  · injection h with h _
    left
    refine ⟨h0, ?_⟩
    rw [h]
    simp only [allowRow]
    rw [storedMatch_wrap _ ((noNewline_append _ _).2
      ⟨(noNewline_append _ _).2 ⟨h3, noNewline_and⟩, hlp⟩)]
    rfl
  · injection h with h _
    right
    refine ⟨p, hp, l4, hl4, ?_⟩
    rw [h]
    simp only [allowRow]
    rw [storedMatch_wrap _ ((noNewline_append _ _).2
      ⟨(noNewline_append _ _).2 ⟨(noNewline_append _ _).2
        ⟨(noNewline_append _ _).2 ⟨h3, noNewline_and⟩, h4 p hp l4 hl4⟩, noNewline_and⟩, hlp⟩)]
    rfl

/-- Outside the hypotheses of localPodAddACL_stored_match: on a record built
by hand whose port-group name holds a line feed (no name that hashedPortGroup
gives does), the pattern of addACLAllow, whose dot does not match a line feed,
finds no match, and the allow ACL that localPodAddACL inserts stores the match
with its wrapper. -/
theorem localPodAddACL_keeps_wrapper :
    (localPodAddACL Env.accepting (Controller.empty (fun _ => "")) npTwoLines gressPlain).trace =
      [Event.insertACL
        { priority := 1001, direction := "to-lport",
          match_ := "match=\" && outport == @a\n1\"",
          action := "allow-related",
          external_ids :=
            [("l4Match", "None"), ("ipblock_cidr", "false"), ("namespace", "dev"),
             ("policy", "allow-web"), ("Ingress_num", "0"), ("policy_type", "Ingress")] }
        "pg-1"] ∧
    "match=\" && outport == @a\n1\"" ≠
      Env.accepting.getL3MatchFromAddressSet gressPlain ++ " && " ++
        ("outport == @" ++ npTwoLines.portGroupName) := by
  constructor <;> decide

/-- Witness for C9: the rule with one TCP port policy and the policy
allow-web on the empty controller, where the call inserts one allow ACL, whose
stored match is the L3 match (empty here), the L4 match and the clause on the
port group, without wrapper. -/
theorem localPodAddACL_stored_match_witness :
    NoNewline (Env.accepting.getL3MatchFromAddressSet gressTcp) ∧
    NoNewline npAllowWeb.portGroupName ∧
    (localPodAddACL Env.accepting (Controller.empty (fun _ => "")) npAllowWeb gressTcp).trace =
      [Event.insertACL
        { priority := 1001, direction := "to-lport",
          match_ := " && tcp && tcp.dst==80 && outport == @a1",
          action := "allow-related",
          external_ids :=
            [("l4Match", "tcp && tcp.dst==80"), ("ipblock_cidr", "false"),
             ("namespace", "dev"), ("policy", "allow-web"), ("Ingress_num", "0"),
             ("policy_type", "Ingress")] }
        "pg-1"] ∧
    ∃ l, (localPodAddACL Env.accepting (Controller.empty (fun _ => "")) npAllowWeb
        gressTcp).trace = (Controller.empty (fun _ => "")).trace ++ l ∧
      ∀ row pg, Event.insertACL row pg ∈ l →
        row.external_ids.lookup "ipblock_cidr" = some "false" →
        (gressTcp.portPolicies = [] ∧
          row.match_ = Env.accepting.getL3MatchFromAddressSet gressTcp ++ " && " ++
            (if gressTcp.policyType = PolicyTypeIngress then
              "outport == @" ++ npAllowWeb.portGroupName
             else "inport == @" ++ npAllowWeb.portGroupName)) ∨
        (∃ p ∈ gressTcp.portPolicies, ∃ l4, Env.accepting.getL4Match p = Except.ok l4 ∧
          row.match_ = Env.accepting.getL3MatchFromAddressSet gressTcp ++ " && " ++ l4 ++
            " && " ++
            (if gressTcp.policyType = PolicyTypeIngress then
              "outport == @" ++ npAllowWeb.portGroupName
             else "inport == @" ++ npAllowWeb.portGroupName)) := by
  have h3 : NoNewline (Env.accepting.getL3MatchFromAddressSet gressTcp) := by
    unfold NoNewline; decide
  have hpg : NoNewline npAllowWeb.portGroupName := by unfold NoNewline; decide
  refine ⟨h3, hpg, by decide,
    localPodAddACL_stored_match Env.accepting (Controller.empty (fun _ => ""))
      npAllowWeb gressTcp h3 hpg ?_⟩
  intro p hp l4 hl4
  simp only [gressTcp, List.mem_singleton] at hp
  subst hp
  have : l4 = "tcp && tcp.dst==80" := by
    have h : Env.accepting.getL4Match { protocol := "TCP", port := 80 } =
        Except.ok "tcp && tcp.dst==80" := by rfl
    rw [h] at hl4
    injection hl4 with hl4
    exact hl4.symm
  subst this
  unfold NoNewline; decide

theorem allowRow_action_ne_drop (E : Env) (np : namespacePolicy) (m l4 : String) (b : Bool)
    (n : Int) (pt : PolicyType) : (allowRow E np m l4 b n pt).action ≠ "drop" := by
  simp only [allowRow]
  split <;> decide

/-- C10, amended: for a rule with a non-empty IP-block CIDR, (1) when the
exception list c1, ..., cn is non-empty, localPodAddACL first looks up a cached
drop ACL with the match lport && ip4.src == {c1, ..., cn} for an ingress rule
and lport && ip4.dst == {c1, ..., cn} otherwise (lport being outport == @pg
resp. inport == @pg, the exceptions joined by a comma and a blank), and unless
there is one its first transaction inserts that drop ACL at ipBlockDenyPriority
into the port group of the policy; (2) when the rule has no port policies, or
a port policy whose L4 match is obtained without error, an allow ACL with
ipblock_cidr = true is in the cache after the call or its insertion was
issued; (3) when the exception list is empty, no drop ACL is inserted. -/
theorem localPodAddACL_ipBlock (E : Env) (oc : Controller) (np : namespacePolicy)
    (gress : gressPolicy) (hc : gress.ipBlockCidr ≠ []) :
    ∃ l, (localPodAddACL E oc np gress).trace = oc.trace ++ l ∧
      (gress.ipBlockExcept ≠ [] →
        (∃ r ∈ oc.acls,
          r.2.match_ = ipBlockDenyMatch np (exceptText gress) gress.policyType ∧
          r.2.action = "drop" ∧
          externalIdsMatch r.2.external_ids
            [("ipblock-deny-policy-type", gress.policyType), ("namespace", np.namespace_),
             (gress.policyType ++ "_num", toString gress.idx), ("policy", np.name)] = true) ∨
        ∃ rest, l = Event.insertACL
          { priority := Atoi E.ipBlockDenyPriority, direction := E.toLport,
            match_ := ipBlockDenyMatch np (exceptText gress) gress.policyType,
            action := "drop",
            external_ids :=
              [("namespace", np.namespace_), ("policy", np.name),
               (gress.policyType ++ "_num", toString gress.idx),
               ("ipblock-deny-policy-type", gress.policyType)] }
          np.portGroupUUID :: rest) ∧
      ipBlockDenyMatch np (exceptText gress) gress.policyType =
        (if gress.policyType = PolicyTypeIngress then
          ("outport == @" ++ np.portGroupName) ++ " && " ++
            ("ip4.src == " ++ ("\x7b" ++ ", ".intercalate gress.ipBlockExcept ++ "\x7d"))
         else
          ("inport == @" ++ np.portGroupName) ++ " && " ++
            ("ip4.dst == " ++ ("\x7b" ++ ", ".intercalate gress.ipBlockExcept ++ "\x7d"))) ∧
      ((gress.portPolicies = [] ∨
          ∃ p ∈ gress.portPolicies, ∃ l4, E.getL4Match p = Except.ok l4) →
        ∃ l4,
          (∃ r ∈ (localPodAddACL E oc np gress).acls,
            externalIdsMatch r.2.external_ids
              (allowExternalIds np l4 true gress.idx gress.policyType) = true) ∨
          ∃ row, Event.insertACL row np.portGroupUUID ∈ l ∧
            row.external_ids = allowExternalIds np l4 true gress.idx gress.policyType) ∧
      (gress.ipBlockExcept = [] →
        ∀ row pg, Event.insertACL row pg ∈ l → row.action ≠ "drop") := by
  obtain ⟨l, g, he, hd, ha⟩ := localPodAddACL_grows E oc np gress
  refine ⟨l, g.1, fun hx => hd hc hx, rfl, ?_, ?_⟩
  · intro hp
    obtain ⟨l4, h⟩ := ha hc hp
    refine ⟨l4, ?_⟩
    rcases h with h | h
    · exact Or.inl h
    · exact Or.inr ⟨_, h, rfl⟩
  · intro hx row pg hmem
    rcases he _ hmem with ⟨-, hne, -⟩ | ⟨l4, -, h⟩ | ⟨-, h⟩ | ⟨p, -, l4, -, h⟩
    · exact absurd hx hne
    · injection h with h _
      rw [h]
      exact allowRow_action_ne_drop _ _ _ _ _ _ _
    · injection h with h _
      rw [h]
      exact allowRow_action_ne_drop _ _ _ _ _ _ _
    · injection h with h _
      rw [h]
      exact allowRow_action_ne_drop _ _ _ _ _ _ _

/-- C10 as stated fails: for the rule with CIDR 10.0.0.0/8, exception
10.1.0.0/16 and one port policy whose L4 match gives an error, localPodAddACL
on the empty controller issues the insertion of the ip-block deny ACL and
nothing else; no allow ACL with ipblock_cidr = true is requested. -/
theorem localPodAddACL_no_cidr_allow :
    gressIpBlockIcmp.ipBlockCidr ≠ [] ∧ gressIpBlockIcmp.ipBlockExcept ≠ [] ∧
    (localPodAddACL Env.accepting (Controller.empty (fun _ => "")) npAllowWeb
        gressIpBlockIcmp).trace =
      [Event.insertACL
        { priority := 1010, direction := "to-lport",
          match_ := "outport == @a1 && ip4.src == \x7b10.1.0.0/16\x7d",
          action := "drop",
          external_ids :=
            [("namespace", "dev"), ("policy", "allow-web"), ("Ingress_num", "0"),
             ("ipblock-deny-policy-type", "Ingress")] }
        "pg-1"] := by
  refine ⟨by decide, by decide, by decide⟩

/-- Witness for C10, amended: the rule with CIDR 10.0.0.0/8, exception
10.1.0.0/16 and no port policy on the empty controller, where the trace is the
insertion of the deny ACL, of the allow ACL for the CIDR and of the allow ACL
for the peers. -/
theorem localPodAddACL_ipBlock_witness :
    gressIpBlock.ipBlockCidr ≠ [] ∧
    (localPodAddACL Env.accepting (Controller.empty (fun _ => "")) npAllowWeb
        gressIpBlock).trace.length = 3 ∧
    ∃ l, (localPodAddACL Env.accepting (Controller.empty (fun _ => "")) npAllowWeb
        gressIpBlock).trace = (Controller.empty (fun _ => "")).trace ++ l ∧
      (gressIpBlock.ipBlockExcept = [] →
        ∀ row pg, Event.insertACL row pg ∈ l → row.action ≠ "drop") := by
  refine ⟨by decide, by decide, ?_⟩
  obtain ⟨l, h1, -, -, -, h5⟩ := localPodAddACL_ipBlock Env.accepting
    (Controller.empty (fun _ => "")) npAllowWeb gressIpBlock (by decide)
  exact ⟨l, h1, h5⟩

/-! ## Local pods of a policy and the default-deny counters -/

/-- C1 fails on the code: from the empty controller, the policy allow-web is
added while createPortGroup answers with an empty uuid; the add callback for
pod web-1 then raises the ingress counter of dev_web-1 to 1 and returns before
it records the port in localPods, so no tracked policy governs the port; an
update of the pod raises the counter to 2, and deleting the policy leaves the
counter at 2 with no policy tracked. -/
theorem localPodAdd_counts_untracked_port :
    (ocPolicyAdded.namespacePolicies "dev" "allow-web").map
        (fun np => (np.portGroupUUID, np.localPods, np.deleted)) = some ("", [], false) ∧
    ((localPodAddEvent Env.emptyPolicyGroup ocPolicyAdded policyAllowWeb
        podWeb1).namespacePolicies "dev" "allow-web").map
        (fun np => (np.localPods, np.deleted)) = some ([], false) ∧
    (localPodAddEvent Env.emptyPolicyGroup ocPolicyAdded policyAllowWeb
        podWeb1).lspIngressDenyCache "dev_web-1" = 1 ∧
    governingCount (localPodAddEvent Env.emptyPolicyGroup ocPolicyAdded policyAllowWeb podWeb1)
        ingressCounted "dev_web-1" [policyAllowWeb] = 0 ∧
    (localPodAddEvent Env.emptyPolicyGroup
        (localPodAddEvent Env.emptyPolicyGroup ocPolicyAdded policyAllowWeb podWeb1)
        policyAllowWeb podWeb1).lspIngressDenyCache "dev_web-1" = 2 ∧
    (deleteNetworkPolicyPortGroup Env.emptyPolicyGroup
        (localPodAddEvent Env.emptyPolicyGroup
          (localPodAddEvent Env.emptyPolicyGroup ocPolicyAdded policyAllowWeb podWeb1)
          policyAllowWeb podWeb1)
        policyAllowWeb).1.lspIngressDenyCache "dev_web-1" = 2 := by
  refine ⟨by decide, by decide, by decide, by decide, by decide, by decide⟩

/-- C11: with the constant toLport being to-lport, every ACL row inserted by
addACLAllow, addIPBlockACLDeny or addACLDenyPortGroup (the three callers of
insertACL) has direction to-lport; a row inserted by addACLAllow has action
allow-related when the policy type is Ingress and allow when it is Egress;
a row inserted by addIPBlockACLDeny or addACLDenyPortGroup has action drop. -/
theorem inserted_rows_direction_action (E : Env) (hdir : E.toLport = "to-lport")
    (oc : Controller) :
    (∀ (np : namespacePolicy) (m l4 : String) (b : Bool) (n : Int) (pt : PolicyType),
      ∃ l, (addACLAllow E oc np m l4 b n pt).trace = oc.trace ++ l ∧
        ∀ row pg, Event.insertACL row pg ∈ l →
          row.direction = "to-lport" ∧
          (pt = PolicyTypeIngress → row.action = "allow-related") ∧
          (pt = PolicyTypeEgress → row.action = "allow")) ∧
    (∀ (np : namespacePolicy) (except priority : String) (n : Int) (pt : PolicyType),
      ∃ l, (addIPBlockACLDeny E oc np except priority n pt).trace = oc.trace ++ l ∧
        ∀ row pg, Event.insertACL row pg ∈ l →
          row.direction = "to-lport" ∧ row.action = "drop") ∧
    (∀ (u name priority : String) (pt : PolicyType),
      ∃ l, (addACLDenyPortGroup E oc u name priority pt).2.trace = oc.trace ++ l ∧
        ∀ row pg, Event.insertACL row pg ∈ l →
          row.direction = "to-lport" ∧ row.action = "drop") := by
  refine ⟨?_, ?_, ?_⟩
  · intro np m l4 b n pt
    rcases addACLAllow_cases E oc np m l4 b n pt with ⟨-, he⟩ | ⟨-, he⟩
    · exact ⟨[], by rw [he, List.append_nil], fun _ _ h => absurd h (List.not_mem_nil _)⟩
    · refine ⟨[Event.insertACL (allowRow E np m l4 b n pt) np.portGroupUUID], ?_, ?_⟩
      · rw [he]
        exact (insertACL_acls E oc _ _).1
      · intro row pg h
        rw [List.mem_singleton] at h
        injection h with h _
        subst h
        refine ⟨hdir, ?_, ?_⟩
        · intro hp
          simp only [allowRow, hp, if_true]
        · intro hp
          subst hp
          simp only [allowRow]
          decide
  · intro np except priority n pt
    rcases addIPBlockACLDeny_cases E oc np except priority n pt with ⟨-, he⟩ | ⟨-, he⟩
    · exact ⟨[], by rw [he, List.append_nil], fun _ _ h => absurd h (List.not_mem_nil _)⟩
    · refine ⟨[Event.insertACL (ipBlockDenyRow E np except priority n pt) np.portGroupUUID],
        ?_, ?_⟩
      · rw [he]
        exact (insertACL_acls E oc _ _).1
      · intro row pg h
        rw [List.mem_singleton] at h
        injection h with h _
        subst h
        exact ⟨hdir, rfl⟩
  · intro u name priority pt
    rcases addACLDenyPortGroup_cases E oc u name priority pt with ⟨-, he⟩ | ⟨-, he⟩
    · exact ⟨[], by rw [he, List.append_nil], fun _ _ h => absurd h (List.not_mem_nil _)⟩
    · refine ⟨[Event.insertACL (defaultDenyRow E name priority pt) u], ?_, ?_⟩
      · rw [he]
        exact (insertACL_acls E oc _ _).1
      · intro row pg h
        rw [List.mem_singleton] at h
        injection h with h _
        subst h
        exact ⟨hdir, rfl⟩

/-- Witness for C11: the accepting environment and the empty controller, where
addACLAllow for an egress rule inserts one row, with action allow. -/
theorem inserted_rows_direction_action_witness :
    Env.accepting.toLport = "to-lport" ∧
    (addACLAllow Env.accepting (Controller.empty (fun _ => "")) npAllowWeb "m" "None" false 0
        PolicyTypeEgress).trace.length = 1 ∧
    ∃ l, (addACLAllow Env.accepting (Controller.empty (fun _ => "")) npAllowWeb "m" "None"
        false 0 PolicyTypeEgress).trace = (Controller.empty (fun _ => "")).trace ++ l ∧
      ∀ row pg, Event.insertACL row pg ∈ l →
        row.direction = "to-lport" ∧
        (PolicyTypeEgress = PolicyTypeIngress → row.action = "allow-related") ∧
        (PolicyTypeEgress = PolicyTypeEgress → row.action = "allow") :=
  ⟨rfl, by decide,
    (inserted_rows_direction_action Env.accepting rfl (Controller.empty (fun _ => ""))).1
      npAllowWeb "m" "None" false 0 PolicyTypeEgress⟩

theorem changedRows_self (l : List (String × ACL)) : changedRows l l = 0 := by
  induction l with
  | nil => rfl
  | cons a t ih =>
    simp only [changedRows, List.zip_cons_cons, ne_eq, not_true_eq_false, decide_False,
      List.filter_cons_of_neg, Bool.false_eq_true, not_false_eq_true] at ih ⊢
    exact ih

theorem updateMatch_of_not_mem (l : List (String × ACL)) (u m : String)
    (h : u ∉ l.map Prod.fst) : updateMatch l u m = l := by
  induction l with
  | nil => rfl
  | cons a t ih =>
    simp only [List.map_cons, List.mem_cons, not_or] at h
    have ht : updateMatch t u m = t := ih h.2
    have ha : ¬ a.1 = u := fun e => h.1 e.symm
    simp only [updateMatch, List.map_cons, ha, if_false] at ht ⊢
    rw [ht]

theorem changedRows_cons (a b : String × ACL) (t t2 : List (String × ACL)) :
    changedRows (a :: t) (b :: t2) = (if a = b then 0 else 1) + changedRows t t2 := by
  by_cases h : a = b
  · simp [changedRows, h]
  · simp [changedRows, h, Nat.add_comm]

theorem updateMatch_cons (a : String × ACL) (t : List (String × ACL)) (u m : String) :
    updateMatch (a :: t) u m =
      (if a.1 = u then (a.1, { a.2 with match_ := m }) else a) :: updateMatch t u m := rfl

/-- On a table keyed by uuid, an update of the match column by uuid changes at
most one row. -/
theorem changedRows_updateMatch (l : List (String × ACL)) (u m : String)
    (h : (l.map Prod.fst).Nodup) : changedRows l (updateMatch l u m) ≤ 1 := by
  induction l with
  | nil => simp [changedRows, updateMatch]
  | cons a t ih =>
    rw [List.map_cons, List.nodup_cons] at h
    rw [updateMatch_cons, changedRows_cons]
    by_cases ha : a.1 = u
    · have : u ∉ t.map Prod.fst := ha ▸ h.1
      rw [updateMatch_of_not_mem t u m this, changedRows_self]
      split_ifs <;> simp
    · have ih2 := ih h.2
      simp only [ha, if_false, if_true]
      omega

theorem sameButMatch_refl (l : List (String × ACL)) : SameButMatch l l := by
  unfold SameButMatch
  rw [List.forall₂_same]
  intro a _
  exact ⟨rfl, rfl, rfl, rfl, rfl⟩

theorem sameButMatch_updateMatch (l : List (String × ACL)) (u m : String) :
    SameButMatch l (updateMatch l u m) := by
  unfold SameButMatch updateMatch
  rw [List.forall₂_map_right_iff, List.forall₂_same]
  intro a _
  by_cases ha : a.1 = u
  · simp only [ha, if_true]
    exact ⟨trivial, trivial, trivial, trivial, trivial⟩
  · simp only [ha, if_false]
    exact ⟨trivial, trivial, trivial, trivial, trivial⟩

/-- The definition of modifyACLAllow with the stripped old match named. -/
theorem modifyACLAllow_eq (E : Env) (oc : Controller) (ns p oldMatch newMatch : String)
    (n : Int) (pt : PolicyType) :
    modifyACLAllow E oc ns p oldMatch newMatch n pt =
      if getACLUUIDFromMap oc.acls
          [("match", Val.str (storedMatch oldMatch)),
           ("external_ids", Val.ids (modifyExternalIds ns p n pt))] ≠ "" then
        match E.commit oc (Event.updateACLMatch (getACLUUIDFromMap oc.acls
            [("match", Val.str (storedMatch oldMatch)),
             ("external_ids", Val.ids (modifyExternalIds ns p n pt))])
            (writtenMatch newMatch)) with
        | none =>
          { oc.emit (Event.updateACLMatch (getACLUUIDFromMap oc.acls
              [("match", Val.str (storedMatch oldMatch)),
               ("external_ids", Val.ids (modifyExternalIds ns p n pt))])
              (writtenMatch newMatch)) with
            acls := updateMatch oc.acls (getACLUUIDFromMap oc.acls
              [("match", Val.str (storedMatch oldMatch)),
               ("external_ids", Val.ids (modifyExternalIds ns p n pt))])
              (writtenMatch newMatch) }
        | some _ =>
          oc.emit (Event.updateACLMatch (getACLUUIDFromMap oc.acls
            [("match", Val.str (storedMatch oldMatch)),
             ("external_ids", Val.ids (modifyExternalIds ns p n pt))])
            (writtenMatch newMatch))
      else oc := rfl

/-- The three outcomes of modifyACLAllow. -/
theorem modifyACLAllow_cases (E : Env) (oc : Controller) (ns p oldMatch newMatch : String)
    (n : Int) (pt : PolicyType) :
    (getACLUUIDFromMap oc.acls
        [("match", Val.str (storedMatch oldMatch)),
         ("external_ids", Val.ids (modifyExternalIds ns p n pt))] = "" ∧
      modifyACLAllow E oc ns p oldMatch newMatch n pt = oc) ∨
    (∃ u, u ≠ "" ∧
      u = getACLUUIDFromMap oc.acls
        [("match", Val.str (storedMatch oldMatch)),
         ("external_ids", Val.ids (modifyExternalIds ns p n pt))] ∧
      (modifyACLAllow E oc ns p oldMatch newMatch n pt).trace =
        oc.trace ++ [Event.updateACLMatch u (writtenMatch newMatch)] ∧
      ((modifyACLAllow E oc ns p oldMatch newMatch n pt).acls = oc.acls ∨
       (modifyACLAllow E oc ns p oldMatch newMatch n pt).acls =
        updateMatch oc.acls u (writtenMatch newMatch))) := by
  rw [modifyACLAllow_eq]
  by_cases h : getACLUUIDFromMap oc.acls
        [("match", Val.str (storedMatch oldMatch)),
         ("external_ids", Val.ids (modifyExternalIds ns p n pt))] = ""
  · left
    refine ⟨h, ?_⟩
    simp only [h, ne_eq, not_true_eq_false, if_false]
  · right
    refine ⟨_, h, rfl, ?_⟩
    simp only [h, ne_eq, not_false_eq_true, if_true]
    split
    · exact ⟨rfl, Or.inr rfl⟩
    · exact ⟨rfl, Or.inl rfl⟩

theorem filter_match_ids (acl : ACL) (m : String) (G : List (String × String)) :
    [("match", Val.str m), ("external_ids", Val.ids G)].all (filterMatch acl) =
      (decide (acl.match_ = m) && externalIdsMatch acl.external_ids G) := by
  have hv : ∀ x y : String, (Val.str x == Val.str y) = decide (x = y) := by
    intro x y
    by_cases h : x = y <;> simp [h]
  simp [filterMatch, ACL.col, hv]

/-- C12: on an ACL table keyed by uuid, modifyACLAllow leaves the rows of the
table in place with their uuid, priority, direction, action and external_ids
(only the match column can differ), changes at most one row, and when no
cached row has both the old match (the text inside its wrapper) and the
entries namespace, policy, the rule number and policy_type in its
external_ids, it issues no write and changes nothing. -/
theorem modifyACLAllow_only_match (E : Env) (oc : Controller)
    (ns p oldMatch newMatch : String) (n : Int) (pt : PolicyType)
    (hkey : (oc.acls.map Prod.fst).Nodup) :
    SameButMatch oc.acls (modifyACLAllow E oc ns p oldMatch newMatch n pt).acls ∧
    changedRows oc.acls (modifyACLAllow E oc ns p oldMatch newMatch n pt).acls ≤ 1 ∧
    ((∀ r ∈ oc.acls, ¬ (r.2.match_ = storedMatch oldMatch ∧
        externalIdsMatch r.2.external_ids (modifyExternalIds ns p n pt) = true)) →
      modifyACLAllow E oc ns p oldMatch newMatch n pt = oc) := by
  rcases modifyACLAllow_cases E oc ns p oldMatch newMatch n pt with
    ⟨-, he⟩ | ⟨u, hu, hget, -, ha | ha⟩
  · rw [he]
    exact ⟨sameButMatch_refl _, by rw [changedRows_self]; omega, fun _ => rfl⟩
  · rw [ha]
    refine ⟨sameButMatch_refl _, by rw [changedRows_self]; omega, ?_⟩
    intro hno
    obtain ⟨r, hr, hm⟩ := getACLUUIDFromMap_ne_empty _ _ (hget ▸ hu)
    rw [filter_match_ids] at hm
    simp only [Bool.and_eq_true, decide_eq_true_eq] at hm
    exact absurd hm (hno r hr)
  · rw [ha]
    refine ⟨sameButMatch_updateMatch _ _ _, changedRows_updateMatch _ _ _ hkey, ?_⟩
    intro hno
    obtain ⟨r, hr, hm⟩ := getACLUUIDFromMap_ne_empty _ _ (hget ▸ hu)
    rw [filter_match_ids] at hm
    simp only [Bool.and_eq_true, decide_eq_true_eq] at hm
    exact absurd hm (hno r hr)

/-- Witness for C12: the table with one allow row, whose match a the call
rewrites to b in one update. -/
theorem modifyACLAllow_only_match_witness :
    (ocOneAllow.acls.map Prod.fst).Nodup ∧
    (modifyACLAllow Env.accepting ocOneAllow "dev" "allow-web" "match=\"a\"" "match=\"b\"" 0
        PolicyTypeIngress).trace =
      ocOneAllow.trace ++ [Event.updateACLMatch "acl-0" "b"] ∧
    (modifyACLAllow Env.accepting ocOneAllow "dev" "allow-web" "match=\"a\"" "match=\"b\"" 0
        PolicyTypeIngress).acls.map (fun r => r.2.match_) = ["b"] ∧
    SameButMatch ocOneAllow.acls
      (modifyACLAllow Env.accepting ocOneAllow "dev" "allow-web" "match=\"a\"" "match=\"b\"" 0
        PolicyTypeIngress).acls ∧
    changedRows ocOneAllow.acls
      (modifyACLAllow Env.accepting ocOneAllow "dev" "allow-web" "match=\"a\"" "match=\"b\"" 0
        PolicyTypeIngress).acls ≤ 1 :=
  have h := modifyACLAllow_only_match Env.accepting ocOneAllow "dev" "allow-web"
    "match=\"a\"" "match=\"b\"" 0 PolicyTypeIngress (by decide)
  ⟨by decide, by decide, by decide, h.1, h.2.1⟩

/-- C13: for a policy that is not deleted and an address map without
repetition, (1) the add/update callback for a pod whose address ip is not
empty and not tracked issues one setAddressSet for the address set of the
rule, with the tracked addresses and ip, each once, and tracks that list;
(2) the delete callback for a pod whose address is tracked issues one
setAddressSet with the tracked addresses other than ip, each once (none when
ip was the only one), and tracks that list; (3) an add/update for a tracked
address and a delete for an untracked address change nothing and issue no
request. -/
theorem peerPod_callbacks_replace (E : Env) (oc : Controller) (np : namespacePolicy)
    (addressMap : List String) (addressSet : String) (pod : Pod)
    (hnp : np.deleted = false) (hnd : addressMap.Nodup) (hne : "" ∉ addressMap) :
    (podIP E pod ≠ "" → podIP E pod ∉ addressMap →
      ∃ addrs, handlePeerPodSelectorAddUpdate E oc np addressMap addressSet pod =
          (oc.emit (Event.setAddressSet addressSet addrs), addrs) ∧
        addrs.Nodup ∧ ∀ a, a ∈ addrs ↔ a ∈ addressMap ∨ a = podIP E pod) ∧
    (podIP E pod ∈ addressMap →
      ∃ addrs, handlePeerPodSelectorDelete E oc np addressMap addressSet pod =
          (oc.emit (Event.setAddressSet addressSet addrs), addrs) ∧
        addrs.Nodup ∧ (∀ a, a ∈ addrs ↔ a ∈ addressMap ∧ a ≠ podIP E pod) ∧
        (addressMap = [podIP E pod] → addrs = [])) ∧
    (podIP E pod ∈ addressMap →
      handlePeerPodSelectorAddUpdate E oc np addressMap addressSet pod = (oc, addressMap)) ∧
    (podIP E pod ∉ addressMap →
      handlePeerPodSelectorDelete E oc np addressMap addressSet pod = (oc, addressMap)) := by
  refine ⟨?_, ?_, ?_, ?_⟩
  · intro h1 h2
    refine ⟨addressMap ++ [podIP E pod], ?_, ?_, ?_⟩
    · unfold podIP at h1 h2
      simp [handlePeerPodSelectorAddUpdate, h1, h2, hnp, setAddressSet, podIP]
    · rw [List.nodup_append]
      refine ⟨hnd, List.nodup_singleton _, ?_⟩
      intro a ha hb
      rw [List.mem_singleton] at hb
      exact h2 (hb ▸ ha)
    · intro a
      simp
  · intro h1
    have h0 : podIP E pod ≠ "" := fun e => hne (e ▸ h1)
    refine ⟨addressMap.filter (fun a => a != podIP E pod), ?_, hnd.filter _, ?_, ?_⟩
    · unfold podIP at h1 h0
      simp [handlePeerPodSelectorDelete, h1, h0, hnp, setAddressSet, podIP]
    · intro a
      simp
    · intro h
      rw [h]
      simp
  · intro h1
    unfold podIP at h1
    simp [handlePeerPodSelectorAddUpdate, h1]
  · intro h1
    unfold podIP at h1
    simp only [handlePeerPodSelectorDelete, h1, not_false_eq_true, if_true]
    split <;> [rfl; (split <;> rfl)]

/-- Witness for C13: on the empty address map the add of pod frontend-1 sets
the address set to its address; the delete that follows sets it to the empty
list. -/
theorem peerPod_callbacks_replace_witness :
    npAllowWeb.deleted = false ∧ ([] : List String).Nodup ∧ "" ∉ ([] : List String) ∧
    handlePeerPodSelectorAddUpdate Env.accepting (Controller.empty (fun _ => "")) npAllowWeb []
        "a1" podFrontend1 =
      ((Controller.empty (fun _ => "")).emit (Event.setAddressSet "a1" ["10.1.0.5"]),
        ["10.1.0.5"]) ∧
    (handlePeerPodSelectorDelete Env.accepting (Controller.empty (fun _ => "")) npAllowWeb
        ["10.1.0.5"] "a1" podFrontend1).2 = [] ∧
    (podIP Env.accepting podFrontend1 ∉ ([] : List String) →
      handlePeerPodSelectorDelete Env.accepting (Controller.empty (fun _ => "")) npAllowWeb []
        "a1" podFrontend1 = (Controller.empty (fun _ => ""), [])) :=
  ⟨by decide, by decide, by decide, by rfl, by decide,
    (peerPod_callbacks_replace Env.accepting (Controller.empty (fun _ => "")) npAllowWeb []
      "a1" podFrontend1 (by decide) (by decide) (by decide)).2.2.2⟩

theorem addressSetContents_set (tr : List Event) (h : String) (a : List String) :
    addressSetContents (tr ++ [Event.setAddressSet h a]) h = a := by
  simp [addressSetContents, List.foldl_append]

theorem mem_filter_key (pods : List Pod) (pod q : Pod) :
    q ∈ pods.filter (fun q => podKey q != podKey pod) ↔ q ∈ pods ∧ podKey q ≠ podKey pod := by
  simp [List.mem_filter]

/-- The add/update callback keeps the tracked addresses in step with the
present pods. -/
theorem tracksPods_addUpdate (E : Env) (np : namespacePolicy) (addressSet : String)
    (hnp : np.deleted = false) (pods : List Pod) (st : Controller × List String) (pod : Pod)
    (h : TracksPods E addressSet pods st)
    (hs : ∀ q ∈ pods, podKey q = podKey pod → podIP E q = "" ∨ podIP E q = podIP E pod) :
    TracksPods E addressSet (pod :: pods.filter (fun q => podKey q != podKey pod))
      (handlePeerPodSelectorAddUpdate E st.1 np st.2 addressSet pod) := by
  obtain ⟨hm, hnd, hc⟩ := h
  have key : ∀ ip, ip ≠ "" → ((∃ q ∈ pods, podIP E q = ip) ∨ ip = podIP E pod ↔
      ∃ q ∈ pod :: pods.filter (fun q => podKey q != podKey pod), podIP E q = ip) := by
    intro ip hip
    constructor
    · rintro (⟨q, hq, hqi⟩ | rfl)
      · by_cases hk : podKey q = podKey pod
        · rcases hs q hq hk with h0 | h1
          · exact absurd (h0 ▸ hqi.symm) hip
          · exact ⟨pod, List.mem_cons_self _ _, h1 ▸ hqi⟩
        · exact ⟨q, List.mem_cons_of_mem _ ((mem_filter_key _ _ _).2 ⟨hq, hk⟩), hqi⟩
      · exact ⟨pod, List.mem_cons_self _ _, rfl⟩
    · rintro ⟨q, hq, hqi⟩
      rcases List.mem_cons.1 hq with rfl | hq
      · exact Or.inr hqi.symm
      · exact Or.inl ⟨q, ((mem_filter_key _ _ _).1 hq).1, hqi⟩
  by_cases h0 : podIP E pod = ""
  · have he : handlePeerPodSelectorAddUpdate E st.1 np st.2 addressSet pod = st := by
      unfold podIP at h0
      simp [handlePeerPodSelectorAddUpdate, h0]
    rw [he]
    refine ⟨?_, hnd, hc⟩
    intro ip
    rw [hm ip]
    constructor
    · rintro ⟨hip, hq⟩
      exact ⟨hip, (key ip hip).1 (Or.inl hq)⟩
    · rintro ⟨hip, hq⟩
      refine ⟨hip, ?_⟩
      rcases (key ip hip).2 hq with h1 | h1
      · exact h1
      · exact absurd (h1.trans h0) hip
  · by_cases h1 : podIP E pod ∈ st.2
    · have he : handlePeerPodSelectorAddUpdate E st.1 np st.2 addressSet pod = st := by
        unfold podIP at h1
        simp [handlePeerPodSelectorAddUpdate, h1]
      rw [he]
      refine ⟨?_, hnd, hc⟩
      intro ip
      rw [hm ip]
      constructor
      · rintro ⟨hip, hq⟩
        exact ⟨hip, (key ip hip).1 (Or.inl hq)⟩
      · rintro ⟨hip, hq⟩
        refine ⟨hip, ?_⟩
        rcases (key ip hip).2 hq with h2 | h2
        · exact h2
        · exact ((hm ip).1 (h2 ▸ h1)).2
    · have he : handlePeerPodSelectorAddUpdate E st.1 np st.2 addressSet pod =
          (st.1.emit (Event.setAddressSet addressSet (st.2 ++ [podIP E pod])),
            st.2 ++ [podIP E pod]) := by
        unfold podIP at h0 h1
        simp [handlePeerPodSelectorAddUpdate, h0, h1, hnp, setAddressSet, podIP]
      rw [he]
      refine ⟨?_, ?_, ?_⟩
      · intro ip
        show ip ∈ st.2 ++ [podIP E pod] ↔ _
        rw [List.mem_append, List.mem_singleton, hm ip]
        constructor
        · rintro (⟨hip, hq⟩ | rfl)
          · exact ⟨hip, (key ip hip).1 (Or.inl hq)⟩
          · exact ⟨h0, (key _ h0).1 (Or.inr rfl)⟩
        · rintro ⟨hip, hq⟩
          rcases (key ip hip).2 hq with h2 | h2
          · exact Or.inl ⟨hip, h2⟩
          · exact Or.inr h2
      · show (st.2 ++ [podIP E pod]).Nodup
        rw [List.nodup_append]
        refine ⟨hnd, List.nodup_singleton _, ?_⟩
        intro a ha hb
        rw [List.mem_singleton] at hb
        exact h1 (hb ▸ ha)
      · exact addressSetContents_set _ _ _

/-- The delete callback keeps the tracked addresses in step with the present
pods. -/
theorem tracksPods_delete (E : Env) (np : namespacePolicy) (addressSet : String)
    (hnp : np.deleted = false) (pods : List Pod) (st : Controller × List String) (pod : Pod)
    (h : TracksPods E addressSet pods st)
    (hs1 : ∀ q ∈ pods, podKey q = podKey pod → podIP E q = podIP E pod)
    (hs2 : ∀ q ∈ pods, podKey q ≠ podKey pod → podIP E pod = "" ∨ podIP E q ≠ podIP E pod) :
    TracksPods E addressSet (pods.filter (fun q => podKey q != podKey pod))
      (handlePeerPodSelectorDelete E st.1 np st.2 addressSet pod) := by
  obtain ⟨hm, hnd, hc⟩ := h
  by_cases h1 : podIP E pod ∈ st.2
  · have h0 : podIP E pod ≠ "" := ((hm _).1 h1).1
    have he : handlePeerPodSelectorDelete E st.1 np st.2 addressSet pod =
        (st.1.emit (Event.setAddressSet addressSet
            (st.2.filter (fun a => a != podIP E pod))),
          st.2.filter (fun a => a != podIP E pod)) := by
      unfold podIP at h0 h1
      simp [handlePeerPodSelectorDelete, h0, h1, hnp, setAddressSet, podIP]
    rw [he]
    refine ⟨?_, hnd.filter _, addressSetContents_set _ _ _⟩
    intro ip
    show ip ∈ st.2.filter (fun a => a != podIP E pod) ↔ _
    rw [List.mem_filter, hm ip]
    simp only [bne_iff_ne, ne_eq]
    constructor
    · rintro ⟨⟨hip, q, hq, hqi⟩, hne⟩
      refine ⟨hip, q, (mem_filter_key _ _ _).2 ⟨hq, ?_⟩, hqi⟩
      intro hk
      exact hne (hqi ▸ hs1 q hq hk)
    · rintro ⟨hip, q, hq, hqi⟩
      obtain ⟨hq1, hk⟩ := (mem_filter_key _ _ _).1 hq
      refine ⟨⟨hip, q, hq1, hqi⟩, ?_⟩
      rcases hs2 q hq1 hk with h2 | h2
      · exact absurd h2 h0
      · exact fun e => h2 (hqi.trans e)
  · have he : handlePeerPodSelectorDelete E st.1 np st.2 addressSet pod = st := by
      unfold podIP at h1
      simp only [handlePeerPodSelectorDelete, h1, not_false_eq_true, if_true]
      split <;> [rfl; (split <;> rfl)]
    rw [he]
    refine ⟨?_, hnd, hc⟩
    intro ip
    rw [hm ip]
    constructor
    · rintro ⟨hip, q, hq, hqi⟩
      refine ⟨hip, q, (mem_filter_key _ _ _).2 ⟨hq, ?_⟩, hqi⟩
      intro hk
      exact h1 ((hm _).2 ⟨hip, q, hq, hqi⟩ |> fun hmem => (hs1 q hq hk) ▸ hqi ▸ hmem)
    · rintro ⟨hip, q, hq, hqi⟩
      exact ⟨hip, q, ((mem_filter_key _ _ _).1 hq).1, hqi⟩

theorem tracksPods_events (E : Env) (np : namespacePolicy) (addressSet : String)
    (hnp : np.deleted = false) (events : List PodEvent) :
    ∀ (pods : List Pod) (st : Controller × List String),
      TracksPods E addressSet pods st → SteadyEvents E pods events →
      TracksPods E addressSet (presentPods pods events)
        (peerPodEvents E np addressSet st events) := by
  induction events with
  | nil => intro pods st h _; exact h
  | cons e es ih =>
    intro pods st h hs
    obtain ⟨h1, h2⟩ := hs
    refine ih (presentAfter pods e) (peerPodEvent E np addressSet st e) ?_ h2
    cases e with
    | add pod => exact tracksPods_addUpdate E np addressSet hnp pods st pod h h1
    | update _ pod => exact tracksPods_addUpdate E np addressSet hnp pods st pod h h1
    | delete pod => exact tracksPods_delete E np addressSet hnp pods st pod h h1.1 h1.2

/-- C14, amended: for a policy that is not deleted and every finite sequence
of peer-pod add, update and delete events of one rule in which a pod that has
an address keeps it and a deleted pod shares its address with no other present
pod, starting from an empty address map and an address set without addresses,
the address set after the last event holds, each once, exactly the addresses
of the pods present at that point (added and not since deleted), and these are
the tracked addresses. -/
theorem peerPodEvents_addressSet (E : Env) (oc : Controller) (np : namespacePolicy)
    (addressSet : String) (events : List PodEvent) (hnp : np.deleted = false)
    (hempty : addressSetContents oc.trace addressSet = [])
    (hsteady : SteadyEvents E [] events) :
    (∀ ip, ip ∈ addressSetContents (peerPodEvents E np addressSet (oc, []) events).1.trace
        addressSet ↔
      ip ≠ "" ∧ ∃ q ∈ presentPods [] events, podIP E q = ip) ∧
    (addressSetContents (peerPodEvents E np addressSet (oc, []) events).1.trace
        addressSet).Nodup ∧
    addressSetContents (peerPodEvents E np addressSet (oc, []) events).1.trace addressSet =
      (peerPodEvents E np addressSet (oc, []) events).2 := by
  have h0 : TracksPods E addressSet [] (oc, []) := by
    refine ⟨?_, List.nodup_nil, hempty⟩
    intro ip
    simp
  obtain ⟨h1, h2, h3⟩ := tracksPods_events E np addressSet hnp events [] (oc, []) h0 hsteady
  rw [h3]
  exact ⟨h1, h2, rfl⟩

/-- C14 as stated fails: after the add of pod frontend-1 with address 10.1.0.5
and an update of the pod that shows the address 10.1.0.9, the only present pod
has the address 10.1.0.9, but the address set holds 10.1.0.5 as well: the
update callback adds the new address and never removes the old one. -/
theorem peerPodEvents_stale_address :
    npAllowWeb.deleted = false ∧
    (presentPods [] [PodEvent.add podFrontend1,
        PodEvent.update podFrontend1 podFrontend1Moved]).map (podIP Env.accepting) =
      ["10.1.0.9"] ∧
    addressSetContents
      (peerPodEvents Env.accepting npAllowWeb "a1" (Controller.empty (fun _ => ""), [])
        [PodEvent.add podFrontend1, PodEvent.update podFrontend1 podFrontend1Moved]).1.trace
      "a1" = ["10.1.0.5", "10.1.0.9"] := by
  refine ⟨by decide, by decide, by decide⟩

/-- Witness for C14, amended: pod frontend-1 is added, updated with the same
address, and deleted; the address set ends without addresses. -/
theorem peerPodEvents_addressSet_witness :
    npAllowWeb.deleted = false ∧
    addressSetContents (Controller.empty (fun _ => "")).trace "a1" = [] ∧
    SteadyEvents Env.accepting []
      [PodEvent.add podFrontend1, PodEvent.update podFrontend1 podFrontend1,
       PodEvent.delete podFrontend1] ∧
    (peerPodEvents Env.accepting npAllowWeb "a1" (Controller.empty (fun _ => ""), [])
      [PodEvent.add podFrontend1, PodEvent.update podFrontend1 podFrontend1]).2 =
      ["10.1.0.5"] ∧
    addressSetContents
      (peerPodEvents Env.accepting npAllowWeb "a1" (Controller.empty (fun _ => ""), [])
        [PodEvent.add podFrontend1, PodEvent.update podFrontend1 podFrontend1,
         PodEvent.delete podFrontend1]).1.trace "a1" =
      (peerPodEvents Env.accepting npAllowWeb "a1" (Controller.empty (fun _ => ""), [])
        [PodEvent.add podFrontend1, PodEvent.update podFrontend1 podFrontend1,
         PodEvent.delete podFrontend1]).2 := by
  have hs : SteadyEvents Env.accepting []
      [PodEvent.add podFrontend1, PodEvent.update podFrontend1 podFrontend1,
       PodEvent.delete podFrontend1] := by
    simp [SteadyEvents, SteadyEvent, presentAfter]
  exact ⟨by decide, by decide, hs, by decide,
    (peerPodEvents_addressSet Env.accepting (Controller.empty (fun _ => "")) npAllowWeb "a1"
      [PodEvent.add podFrontend1, PodEvent.update podFrontend1 podFrontend1,
       PodEvent.delete podFrontend1] (by decide) (by decide) hs).2.2⟩

theorem emitAll_nil (oc : Controller) : oc.emitAll [] = oc := by
  cases oc
  simp [Controller.emitAll]

theorem emitAll_emit (oc : Controller) (l : List Event) (e : Event) :
    (oc.emitAll l).emit e = oc.emitAll (l ++ [e]) := by
  simp [Controller.emitAll, Controller.emit, List.append_assoc]

theorem emit_emitAll (oc : Controller) (l : List Event) (e : Event) :
    (oc.emit e).emitAll l = oc.emitAll (e :: l) := by
  simp [Controller.emitAll, Controller.emit, List.append_assoc]

theorem emitAll_emitAll (oc : Controller) (l l2 : List Event) :
    (oc.emitAll l).emitAll l2 = oc.emitAll (l ++ l2) := by
  simp [Controller.emitAll, List.append_assoc]

/-- The loop over the rules in deleteNetworkPolicyPortGroup appends one
deleteAddressSet per index and changes nothing else. -/
theorem foldl_deleteAddressSet (f : Nat → String) (l : List Nat) :
    ∀ oc : Controller, l.foldl (fun oc i => deleteAddressSet oc (f i)) oc =
      oc.emitAll (l.map fun i => Event.deleteAddressSet (f i)) := by
  induction l with
  | nil => intro oc; exact (emitAll_nil oc).symm
  | cons a t ih =>
    intro oc
    rw [List.foldl_cons, ih, List.map_cons]
    simp only [deleteAddressSet]
    exact emit_emitAll _ _ _

theorem deleteFromACLDeny_policies (E : Env) (oc : Controller) (pg lp : String) :
    (deleteFromACLDeny E oc pg lp).namespacePolicies = oc.namespacePolicies := by
  simp only [deleteFromACLDeny]
  split
  · rfl
  · split
    · split <;> rfl
    · rfl

/-- What localPodDelDefaultDeny adds to the trace is default-deny bookkeeping,
and it leaves the index of policies alone. -/
theorem localPodDelDefaultDeny_bookkeeping (E : Env) (oc : Controller)
    (policy : NetworkPolicy) (lp : String) :
    ∃ l, Extends oc (localPodDelDefaultDeny E oc policy lp) l ∧
      (∀ e ∈ l, e.isDenyBookkeeping = true) ∧
      (localPodDelDefaultDeny E oc policy lp).namespacePolicies = oc.namespacePolicies := by
  rw [localPodDelDefaultDeny_eq]
  obtain ⟨w1, h1, hw1, -⟩ := delIngressStep_spec E oc policy lp
  obtain ⟨w2, h2, hw2, -⟩ := delEgressStep_spec E (delIngressStep E oc policy lp) policy lp
  refine ⟨_, extends_trans h1 h2, ?_, ?_⟩
  · intro e he
    rw [List.mem_append] at he
    rcases he with he | he
    · split at he
      · rcases List.mem_cons.1 he with rfl | he
        · rfl
        · rcases hw1 with rfl | rfl
          · exact absurd he (List.not_mem_nil _)
          · rw [List.mem_singleton] at he
            subst he
            rfl
      · exact absurd he (List.not_mem_nil _)
    · split at he
      · rcases List.mem_cons.1 he with rfl | he
        · rfl
        · rcases hw2 with rfl | rfl
          · exact absurd he (List.not_mem_nil _)
          · rw [List.mem_singleton] at he
            subst he
            rfl
      · exact absurd he (List.not_mem_nil _)
  · have a : (delIngressStep E oc policy lp).namespacePolicies = oc.namespacePolicies := by
      simp only [delIngressStep]
      split
      · split
        · split
          · exact deleteFromACLDeny_policies E _ _ _
          · rfl
        · rfl
      · rfl
    have b : (delEgressStep E (delIngressStep E oc policy lp) policy lp).namespacePolicies =
        (delIngressStep E oc policy lp).namespacePolicies := by
      simp only [delEgressStep]
      split
      · split
        · split
          · exact deleteFromACLDeny_policies E _ _ _
          · rfl
        · rfl
      · rfl
    rw [b, a]

/-- The loop over the local pods in deleteNetworkPolicyPortGroup. -/
theorem foldl_localPodDelDefaultDeny (E : Env) (policy : NetworkPolicy) (lps : List String) :
    ∀ oc : Controller,
      ∃ l, Extends oc (lps.foldl (fun oc lp => localPodDelDefaultDeny E oc policy lp) oc) l ∧
        (∀ e ∈ l, e.isDenyBookkeeping = true) ∧
        (lps.foldl (fun oc lp => localPodDelDefaultDeny E oc policy lp) oc).namespacePolicies =
          oc.namespacePolicies := by
  induction lps with
  | nil => intro oc; exact ⟨[], extends_refl oc, fun _ h => absurd h (List.not_mem_nil _), rfl⟩
  | cons a t ih =>
    intro oc
    obtain ⟨l1, h1, hb1, hp1⟩ := localPodDelDefaultDeny_bookkeeping E oc policy a
    obtain ⟨l2, h2, hb2, hp2⟩ := ih (localPodDelDefaultDeny E oc policy a)
    refine ⟨l1 ++ l2, extends_trans h1 h2, ?_, ?_⟩
    · intro e he
      rcases List.mem_append.1 he with he | he
      · exact hb1 e he
      · exact hb2 e he
    · rw [List.foldl_cons, hp2, hp1]

/-- The call deleteNetworkPolicyPortGroup on a tracked policy, step by step. -/
theorem deleteNetworkPolicyPortGroup_tracked (E : Env) (oc : Controller)
    (policy : NetworkPolicy) (np : namespacePolicy)
    (h : oc.namespacePolicies policy.Namespace policy.Name = some np) :
    deleteNetworkPolicyPortGroup E oc policy =
      ((((np.localPods.foldl (fun oc lp => localPodDelDefaultDeny E oc policy lp)
          (afterShutdown E oc policy np)).emit
          (Event.deletePortGroup np.portGroupName)).setPolicy
          policy.Namespace policy.Name none),
        some { np with deleted := true }) := by
  simp only [deleteNetworkPolicyPortGroup, h, foldl_deleteAddressSet, afterShutdown,
    addressSetDeletes, emitAll_emitAll, emitAll_emit]

/-- The trace of deleteNetworkPolicyPortGroup on a tracked policy: the
deletions of the address sets of the ingress rules and of the egress rules,
the shutdown of the handlers, the default-deny bookkeeping for the local pods,
and the deletion of the port group. -/
theorem deleteNetworkPolicyPortGroup_trace (E : Env) (oc : Controller)
    (policy : NetworkPolicy) (np : namespacePolicy)
    (h : oc.namespacePolicies policy.Namespace policy.Name = some np) :
    ∃ l, (∀ e ∈ l, e.isDenyBookkeeping = true) ∧
      (deleteNetworkPolicyPortGroup E oc policy).1.trace =
        oc.trace ++ (addressSetDeletes E policy "ingress" np.ingressPolicies.length ++
          addressSetDeletes E policy "egress" np.egressPolicies.length ++
          [Event.shutdownHandlers np.namespace_ np.name] ++ l ++
          [Event.deletePortGroup np.portGroupName]) ∧
      (∀ a b, (deleteNetworkPolicyPortGroup E oc policy).1.namespacePolicies a b =
        if a = policy.Namespace ∧ b = policy.Name then none else oc.namespacePolicies a b) := by
  obtain ⟨l, hl, hb, hp⟩ := foldl_localPodDelDefaultDeny E policy np.localPods
    (afterShutdown E oc policy np)
  rw [deleteNetworkPolicyPortGroup_tracked E oc policy np h]
  refine ⟨l, hb, ?_, ?_⟩
  · simp only [Extends] at hl
    simp only [Controller.setPolicy, Controller.emit]
    rw [hl]
    simp only [afterShutdown, Controller.emitAll, List.append_assoc]
  · intro a b
    simp only [Controller.setPolicy, Controller.emit]
    rw [hp]
    simp only [afterShutdown, Controller.emitAll]

theorem quietStep_refl (st : Controller × namespacePolicy) : QuietStep st st :=
  ⟨[], extends_refl _, fun _ h => absurd h (List.not_mem_nil _), rfl, rfl⟩

theorem quietStep_trans {a b c : Controller × namespacePolicy} (h1 : QuietStep a b)
    (h2 : QuietStep b c) : QuietStep a c := by
  obtain ⟨l1, e1, q1, i1, g1⟩ := h1
  obtain ⟨l2, e2, q2, i2, g2⟩ := h2
  refine ⟨l1 ++ l2, extends_trans e1 e2, ?_, i2.trans i1, g2.trans g1⟩
  intro e he
  rcases List.mem_append.1 he with he | he
  · exact q1 e he
  · exact q2 e he

theorem handleLocalPodSelector_quiet (E : Env) (oc : Controller) (policy : NetworkPolicy)
    (np : namespacePolicy) : QuietStep (oc, np) (handleLocalPodSelector E oc policy np) := by
  refine ⟨[Event.addHandler (Handler.localPod policy.Namespace policy.PodSelector)], ?_, ?_, ?_⟩
  · simp only [handleLocalPodSelector, registerHandler]
    split <;> rfl
  · intro e he
    rw [List.mem_singleton] at he
    subst he
    rfl
  · simp only [handleLocalPodSelector, registerHandler]
    split <;> exact ⟨rfl, rfl⟩

theorem handlePeerNamespaceAndPodSelector_quiet (E : Env) (oc : Controller)
    (nsSel podSel : LabelSelector) (addressSet : String) (np : namespacePolicy) :
    QuietStep (oc, np) (handlePeerNamespaceAndPodSelector E oc nsSel podSel addressSet np) := by
  refine ⟨[Event.addHandler (Handler.peerNamespaceAndPod nsSel podSel addressSet)], ?_, ?_, ?_⟩
  · simp only [handlePeerNamespaceAndPodSelector, registerHandler]
    split <;> rfl
  · intro e he
    rw [List.mem_singleton] at he
    subst he
    rfl
  · simp only [handlePeerNamespaceAndPodSelector, registerHandler]
    split <;> exact ⟨rfl, rfl⟩

theorem handlePeerPodSelector_quiet (E : Env) (oc : Controller) (policy : NetworkPolicy)
    (podSel : LabelSelector) (addressSet : String) (np : namespacePolicy) :
    QuietStep (oc, np) (handlePeerPodSelector E oc policy podSel addressSet np) := by
  refine ⟨[Event.addHandler (Handler.peerPod policy.Namespace podSel addressSet)], ?_, ?_, ?_⟩
  · simp only [handlePeerPodSelector, registerHandler]
    split <;> rfl
  · intro e he
    rw [List.mem_singleton] at he
    subst he
    rfl
  · simp only [handlePeerPodSelector, registerHandler]
    split <;> exact ⟨rfl, rfl⟩

theorem handlePeerNamespaceSelector_quiet (E : Env) (oc : Controller)
    (nsSel : LabelSelector) (gress : gressPolicy) (np : namespacePolicy) :
    QuietStep (oc, np) (handlePeerNamespaceSelector E oc nsSel gress np) := by
  refine ⟨[Event.addHandler (Handler.peerNamespace nsSel gress.policyType gress.idx)],
    ?_, ?_, ?_⟩
  · simp only [handlePeerNamespaceSelector, registerHandler]
    split <;> rfl
  · intro e he
    rw [List.mem_singleton] at he
    subst he
    rfl
  · simp only [handlePeerNamespaceSelector, registerHandler]
    split <;> exact ⟨rfl, rfl⟩

theorem addPeerHandler_quiet (E : Env) (policy : NetworkPolicy) (hashed : String)
    (gress : gressPolicy) (st : Controller × namespacePolicy) (peer : NetworkPolicyPeer) :
    QuietStep st (addPeerHandler E policy hashed gress st peer) := by
  unfold addPeerHandler
  split
  · exact handlePeerNamespaceAndPodSelector_quiet E st.1 _ _ _ st.2
  · exact handlePeerNamespaceSelector_quiet E st.1 _ _ st.2
  · exact handlePeerPodSelector_quiet E st.1 policy _ _ st.2
  · exact quietStep_refl st

theorem foldl_addPeerHandler_quiet (E : Env) (policy : NetworkPolicy) (hashed : String)
    (gress : gressPolicy) (peers : List NetworkPolicyPeer) :
    ∀ st : Controller × namespacePolicy,
      QuietStep st (peers.foldl (addPeerHandler E policy hashed gress) st) := by
  induction peers with
  | nil => intro st; exact quietStep_refl st
  | cons p t ih =>
    intro st
    exact quietStep_trans (addPeerHandler_quiet E policy hashed gress st p) (ih _)

theorem ruleEvent_createdSet (E : Env) (np : namespacePolicy) (gress : gressPolicy)
    (e : Event) (h : RuleEvent E np gress e) : e.createdSet = none := by
  rcases h with ⟨-, -, h⟩ | ⟨_, -, h⟩ | ⟨-, h⟩ | ⟨_, -, _, -, h⟩ <;> (subst h; rfl)

theorem localPodAddACL_quiet (E : Env) (oc : Controller) (np : namespacePolicy)
    (gress : gressPolicy) : QuietStep (oc, np) (localPodAddACL E oc np gress, np) := by
  obtain ⟨l, g, he, -⟩ := localPodAddACL_grows E oc np gress
  exact ⟨l, g.1, fun e h => ruleEvent_createdSet E np gress e (he e h), rfl, rfl⟩

/-- The body of the loop over the rules creates at most the address set of
its rule and leaves the lists of rules of the record alone. -/
theorem addGress_sets (E : Env) (policy : NetworkPolicy) (pt : PolicyType) (kind : String)
    (st : Controller × namespacePolicy) (i : Nat) (rule : NetworkPolicyRule) :
    ∃ l, Extends st.1 (addGress E policy pt kind st i rule).1.1 l ∧
      (∀ e ∈ l, ∀ h, e.createdSet = some h →
        h = E.hashedAddressSet (localPeerPods policy kind i)) ∧
      (addGress E policy pt kind st i rule).1.2.ingressPolicies = st.2.ingressPolicies ∧
      (addGress E policy pt kind st i rule).1.2.egressPolicies = st.2.egressPolicies := by
  have h1 : ∃ l1, Extends st.1
      (if rule.Peers.length ≠ 0 then
        createAddressSet st.1 (localPeerPods policy kind i)
          (if rule.Peers.length ≠ 0 then E.hashedAddressSet (localPeerPods policy kind i)
           else "")
       else st.1) l1 ∧
      ∀ e ∈ l1, ∀ h, e.createdSet = some h →
        h = E.hashedAddressSet (localPeerPods policy kind i) := by
    by_cases hp : rule.Peers.length ≠ 0
    · rw [if_pos hp, if_pos hp]
      refine ⟨[Event.createAddressSet (localPeerPods policy kind i)
        (E.hashedAddressSet (localPeerPods policy kind i))], rfl, ?_⟩
      intro e he h hh
      rw [List.mem_singleton] at he
      subst he
      injection hh with hh
      exact hh.symm
    · rw [if_neg hp]
      exact ⟨[], extends_refl _, fun _ he => absurd he (List.not_mem_nil _)⟩
  obtain ⟨l1, e1, q1⟩ := h1
  obtain ⟨l2, e2, q2, i2, g2⟩ := localPodAddACL_quiet E
    (if rule.Peers.length ≠ 0 then
        createAddressSet st.1 (localPeerPods policy kind i)
          (if rule.Peers.length ≠ 0 then E.hashedAddressSet (localPeerPods policy kind i)
           else "")
       else st.1) st.2 (buildGress E policy pt kind i rule)
  obtain ⟨l3, e3, q3, i3, g3⟩ := foldl_addPeerHandler_quiet E policy
    (if rule.Peers.length ≠ 0 then E.hashedAddressSet (localPeerPods policy kind i) else "")
    (buildGress E policy pt kind i rule) rule.Peers
    (localPodAddACL E
      (if rule.Peers.length ≠ 0 then
        createAddressSet st.1 (localPeerPods policy kind i)
          (if rule.Peers.length ≠ 0 then E.hashedAddressSet (localPeerPods policy kind i)
           else "")
       else st.1) st.2 (buildGress E policy pt kind i rule), st.2)
  refine ⟨l1 ++ l2 ++ l3, extends_trans (extends_trans e1 e2) e3, ?_, i3.trans i2,
    g3.trans g2⟩
  intro e he h hh
  rcases List.mem_append.1 he with he | he
  · rcases List.mem_append.1 he with he | he
    · exact q1 e he h hh
    · rw [q2 e he] at hh
      cases hh
  · rw [q3 e he] at hh
    cases hh

/-- The loop over the ingress rules, started at index k: the address sets it
creates are those of the indices it visits, and it appends one rule record
per rule. -/
theorem ingressLoop_sets (E : Env) (policy : NetworkPolicy) (rules : List NetworkPolicyRule) :
    ∀ (k : Nat) (st : Controller × namespacePolicy),
      ∃ l, Extends st.1 ((rules.enumFrom k).foldl
          (fun st ir =>
            let r := addGress E policy PolicyTypeIngress "ingress" st ir.1 ir.2
            (r.1.1, { r.1.2 with ingressPolicies := r.1.2.ingressPolicies ++ [r.2] }))
          st).1 l ∧
        (∀ e ∈ l, ∀ h, e.createdSet = some h → ∃ i, k ≤ i ∧ i < k + rules.length ∧
          h = E.hashedAddressSet (localPeerPods policy "ingress" i)) ∧
        ((rules.enumFrom k).foldl
          (fun st ir =>
            let r := addGress E policy PolicyTypeIngress "ingress" st ir.1 ir.2
            (r.1.1, { r.1.2 with ingressPolicies := r.1.2.ingressPolicies ++ [r.2] }))
          st).2.ingressPolicies.length = st.2.ingressPolicies.length + rules.length ∧
        ((rules.enumFrom k).foldl
          (fun st ir =>
            let r := addGress E policy PolicyTypeIngress "ingress" st ir.1 ir.2
            (r.1.1, { r.1.2 with ingressPolicies := r.1.2.ingressPolicies ++ [r.2] }))
          st).2.egressPolicies = st.2.egressPolicies := by
  induction rules with
  | nil =>
    intro k st
    exact ⟨[], extends_refl _, fun _ h => absurd h (List.not_mem_nil _), rfl, rfl⟩
  | cons a t ih =>
    intro k st
    obtain ⟨l1, e1, q1, i1, g1⟩ := addGress_sets E policy PolicyTypeIngress "ingress" st k a
    obtain ⟨l2, e2, q2, i2, g2⟩ := ih (k + 1)
      ((addGress E policy PolicyTypeIngress "ingress" st k a).1.1,
        { (addGress E policy PolicyTypeIngress "ingress" st k a).1.2 with
          ingressPolicies :=
            (addGress E policy PolicyTypeIngress "ingress" st k a).1.2.ingressPolicies ++
              [(addGress E policy PolicyTypeIngress "ingress" st k a).2] })
    rw [List.enumFrom_cons, List.foldl_cons]
    refine ⟨l1 ++ l2, extends_trans e1 e2, ?_, ?_, ?_⟩
    · intro e he h hh
      rcases List.mem_append.1 he with he | he
      · exact ⟨k, Nat.le_refl k, by simp, q1 e he h hh⟩
      · obtain ⟨i, hi1, hi2, hi3⟩ := q2 e he h hh
        exact ⟨i, by omega, by simp only [List.length_cons]; omega, hi3⟩
    · rw [i2]
      show ((addGress E policy PolicyTypeIngress "ingress" st k a).1.2.ingressPolicies ++
        [(addGress E policy PolicyTypeIngress "ingress" st k a).2]).length + t.length = _
      rw [List.length_append, i1]
      simp only [List.length_singleton, List.length_cons, List.length_nil]
      omega
    · rw [g2]
      exact g1

/-- The loop over the egress rules, started at index k. -/
theorem egressLoop_sets (E : Env) (policy : NetworkPolicy) (rules : List NetworkPolicyRule) :
    ∀ (k : Nat) (st : Controller × namespacePolicy),
      ∃ l, Extends st.1 ((rules.enumFrom k).foldl
          (fun st ir =>
            let r := addGress E policy PolicyTypeEgress "egress" st ir.1 ir.2
            (r.1.1, { r.1.2 with egressPolicies := r.1.2.egressPolicies ++ [r.2] }))
          st).1 l ∧
        (∀ e ∈ l, ∀ h, e.createdSet = some h → ∃ i, k ≤ i ∧ i < k + rules.length ∧
          h = E.hashedAddressSet (localPeerPods policy "egress" i)) ∧
        ((rules.enumFrom k).foldl
          (fun st ir =>
            let r := addGress E policy PolicyTypeEgress "egress" st ir.1 ir.2
            (r.1.1, { r.1.2 with egressPolicies := r.1.2.egressPolicies ++ [r.2] }))
          st).2.egressPolicies.length = st.2.egressPolicies.length + rules.length ∧
        ((rules.enumFrom k).foldl
          (fun st ir =>
            let r := addGress E policy PolicyTypeEgress "egress" st ir.1 ir.2
            (r.1.1, { r.1.2 with egressPolicies := r.1.2.egressPolicies ++ [r.2] }))
          st).2.ingressPolicies = st.2.ingressPolicies := by
  induction rules with
  | nil =>
    intro k st
    exact ⟨[], extends_refl _, fun _ h => absurd h (List.not_mem_nil _), rfl, rfl⟩
  | cons a t ih =>
    intro k st
    obtain ⟨l1, e1, q1, i1, g1⟩ := addGress_sets E policy PolicyTypeEgress "egress" st k a
    obtain ⟨l2, e2, q2, i2, g2⟩ := ih (k + 1)
      ((addGress E policy PolicyTypeEgress "egress" st k a).1.1,
        { (addGress E policy PolicyTypeEgress "egress" st k a).1.2 with
          egressPolicies :=
            (addGress E policy PolicyTypeEgress "egress" st k a).1.2.egressPolicies ++
              [(addGress E policy PolicyTypeEgress "egress" st k a).2] })
    rw [List.enumFrom_cons, List.foldl_cons]
    refine ⟨l1 ++ l2, extends_trans e1 e2, ?_, ?_, ?_⟩
    · intro e he h hh
      rcases List.mem_append.1 he with he | he
      · exact ⟨k, Nat.le_refl k, by simp, q1 e he h hh⟩
      · obtain ⟨i, hi1, hi2, hi3⟩ := q2 e he h hh
        exact ⟨i, by omega, by simp only [List.length_cons]; omega, hi3⟩
    · rw [i2]
      show ((addGress E policy PolicyTypeEgress "egress" st k a).1.2.egressPolicies ++
        [(addGress E policy PolicyTypeEgress "egress" st k a).2]).length + t.length = _
      rw [List.length_append, g1]
      simp only [List.length_singleton, List.length_cons, List.length_nil]
      omega
    · rw [g2]
      exact i1

theorem addIngressRules_sets (E : Env) (policy : NetworkPolicy)
    (st : Controller × namespacePolicy) :
    ∃ l, Extends st.1 (addIngressRules E policy st).1 l ∧
      (∀ e ∈ l, ∀ h, e.createdSet = some h → ∃ i, i < policy.Ingress.length ∧
        h = E.hashedAddressSet (localPeerPods policy "ingress" i)) ∧
      (addIngressRules E policy st).2.ingressPolicies.length =
        st.2.ingressPolicies.length + policy.Ingress.length ∧
      (addIngressRules E policy st).2.egressPolicies = st.2.egressPolicies := by
  obtain ⟨l, e1, q1, i1, g1⟩ := ingressLoop_sets E policy policy.Ingress 0 st
  refine ⟨l, e1, ?_, i1, g1⟩
  intro e he h hh
  obtain ⟨i, -, hi, hh2⟩ := q1 e he h hh
  exact ⟨i, by omega, hh2⟩

theorem addEgressRules_sets (E : Env) (policy : NetworkPolicy)
    (st : Controller × namespacePolicy) :
    ∃ l, Extends st.1 (addEgressRules E policy st).1 l ∧
      (∀ e ∈ l, ∀ h, e.createdSet = some h → ∃ i, i < policy.Egress.length ∧
        h = E.hashedAddressSet (localPeerPods policy "egress" i)) ∧
      (addEgressRules E policy st).2.egressPolicies.length =
        st.2.egressPolicies.length + policy.Egress.length ∧
      (addEgressRules E policy st).2.ingressPolicies = st.2.ingressPolicies := by
  obtain ⟨l, e1, q1, i1, g1⟩ := egressLoop_sets E policy policy.Egress 0 st
  refine ⟨l, e1, ?_, i1, g1⟩
  intro e he h hh
  obtain ⟨i, -, hi, hh2⟩ := q1 e he h hh
  exact ⟨i, by omega, hh2⟩

theorem policyAdded_sets (E : Env) (oc : Controller) (policy : NetworkPolicy) (uuid : String) :
    ∃ l, Extends oc (policyAdded E oc policy uuid).1 l ∧
      (∀ e ∈ l, ∀ h, e.createdSet = some h →
        (∃ i, i < policy.Ingress.length ∧
            h = E.hashedAddressSet (localPeerPods policy "ingress" i)) ∨
         (∃ i, i < policy.Egress.length ∧
            h = E.hashedAddressSet (localPeerPods policy "egress" i))) ∧
      (policyAdded E oc policy uuid).2.ingressPolicies.length = policy.Ingress.length ∧
      (policyAdded E oc policy uuid).2.egressPolicies.length = policy.Egress.length := by
  obtain ⟨l1, e1, q1, i1, g1⟩ := addIngressRules_sets E policy
    (oc.emit (Event.createPortGroup (policy.Namespace ++ "_" ++ policy.Name)
        (E.hashedPortGroup (policy.Namespace ++ "_" ++ policy.Name))),
      { name := policy.Name, namespace_ := policy.Namespace,
        ingressPolicies := [], egressPolicies := [],
        podHandlerList := [], nsHandlerList := [], localPods := [],
        portGroupUUID := uuid,
        portGroupName := E.hashedPortGroup (policy.Namespace ++ "_" ++ policy.Name),
        deleted := false })
  obtain ⟨l2, e2, q2, i2, g2⟩ := addEgressRules_sets E policy (addIngressRules E policy
    (oc.emit (Event.createPortGroup (policy.Namespace ++ "_" ++ policy.Name)
        (E.hashedPortGroup (policy.Namespace ++ "_" ++ policy.Name))),
      { name := policy.Name, namespace_ := policy.Namespace,
        ingressPolicies := [], egressPolicies := [],
        podHandlerList := [], nsHandlerList := [], localPods := [],
        portGroupUUID := uuid,
        portGroupName := E.hashedPortGroup (policy.Namespace ++ "_" ++ policy.Name),
        deleted := false }))
  obtain ⟨l3, e3, q3, i3, g3⟩ := handleLocalPodSelector_quiet E
    (addEgressRules E policy (addIngressRules E policy
    (oc.emit (Event.createPortGroup (policy.Namespace ++ "_" ++ policy.Name)
        (E.hashedPortGroup (policy.Namespace ++ "_" ++ policy.Name))),
      { name := policy.Name, namespace_ := policy.Namespace,
        ingressPolicies := [], egressPolicies := [],
        podHandlerList := [], nsHandlerList := [], localPods := [],
        portGroupUUID := uuid,
        portGroupName := E.hashedPortGroup (policy.Namespace ++ "_" ++ policy.Name),
        deleted := false }))).1 policy
    (addEgressRules E policy (addIngressRules E policy
    (oc.emit (Event.createPortGroup (policy.Namespace ++ "_" ++ policy.Name)
        (E.hashedPortGroup (policy.Namespace ++ "_" ++ policy.Name))),
      { name := policy.Name, namespace_ := policy.Namespace,
        ingressPolicies := [], egressPolicies := [],
        podHandlerList := [], nsHandlerList := [], localPods := [],
        portGroupUUID := uuid,
        portGroupName := E.hashedPortGroup (policy.Namespace ++ "_" ++ policy.Name),
        deleted := false }))).2
  have e0 : Extends oc
      (oc.emit (Event.createPortGroup (policy.Namespace ++ "_" ++ policy.Name)
        (E.hashedPortGroup (policy.Namespace ++ "_" ++ policy.Name))))
      [Event.createPortGroup (policy.Namespace ++ "_" ++ policy.Name)
        (E.hashedPortGroup (policy.Namespace ++ "_" ++ policy.Name))] := rfl
  refine ⟨_, extends_trans (extends_trans (extends_trans e0 e1) e2) e3, ?_, ?_, ?_⟩
  · intro e he h hh
    rcases List.mem_append.1 he with he | he
    · rcases List.mem_append.1 he with he | he
      · rcases List.mem_append.1 he with he | he
        · rw [List.mem_singleton] at he
          subst he
          cases hh
        · exact Or.inl (q1 e he h hh)
      · exact Or.inr (q2 e he h hh)
    · rw [q3 e he] at hh
      cases hh
  · show (handleLocalPodSelector E _ policy _).2.ingressPolicies.length = _
    rw [i3, g2, i1]
    simp
  · show (handleLocalPodSelector E _ policy _).2.egressPolicies.length = _
    rw [g3, i2, g1]
    simp

theorem addNetworkPolicyPortGroup_eq (E : Env) (oc : Controller) (policy : NetworkPolicy) :
    addNetworkPolicyPortGroup E oc policy = oc ∨
    addNetworkPolicyPortGroup E oc policy =
      oc.emit (Event.createPortGroup (policy.Namespace ++ "_" ++ policy.Name)
        (E.hashedPortGroup (policy.Namespace ++ "_" ++ policy.Name))) ∨
    ∃ uuid, addNetworkPolicyPortGroup E oc policy =
      (policyAdded E oc policy uuid).1.setPolicy policy.Namespace policy.Name
        (some (policyAdded E oc policy uuid).2) := by
  unfold addNetworkPolicyPortGroup
  split
  · exact Or.inl rfl
  · split
    · exact Or.inl rfl
    · simp only [createPortGroup]
      split
      · exact Or.inr (Or.inl rfl)
      · rename_i uuid _
        exact Or.inr (Or.inr ⟨uuid, rfl⟩)

/-- The address sets that addNetworkPolicyPortGroup creates are those of the
rules of the policy, and when it creates one the policy ends up tracked with
one rule record per rule. -/
theorem addNetworkPolicyPortGroup_sets (E : Env) (oc : Controller) (policy : NetworkPolicy) :
    ∃ l, Extends oc (addNetworkPolicyPortGroup E oc policy) l ∧
      ∀ e ∈ l, ∀ h, e.createdSet = some h →
        (∃ np, (addNetworkPolicyPortGroup E oc policy).namespacePolicies
            policy.Namespace policy.Name = some np ∧
          np.ingressPolicies.length = policy.Ingress.length ∧
          np.egressPolicies.length = policy.Egress.length) ∧
        ((∃ i, i < policy.Ingress.length ∧
            h = E.hashedAddressSet (localPeerPods policy "ingress" i)) ∨
         (∃ i, i < policy.Egress.length ∧
            h = E.hashedAddressSet (localPeerPods policy "egress" i))) := by
  rcases addNetworkPolicyPortGroup_eq E oc policy with h | h | ⟨uuid, h⟩
  · rw [h]
    exact ⟨[], extends_refl _, fun _ h => absurd h (List.not_mem_nil _)⟩
  · rw [h]
    refine ⟨[Event.createPortGroup _ _], rfl, ?_⟩
    intro e he h hh
    rw [List.mem_singleton] at he
    subst he
    cases hh
  · rw [h]
    obtain ⟨l, e1, q1, i1, g1⟩ := policyAdded_sets E oc policy uuid
    refine ⟨l, e1, ?_⟩
    intro e he h hh
    refine ⟨⟨(policyAdded E oc policy uuid).2, ?_, i1, g1⟩, q1 e he h hh⟩
    simp [Controller.setPolicy]

theorem mem_addressSetDeletes (E : Env) (policy : NetworkPolicy) (kind : String) (n i : Nat)
    (h : i < n) :
    Event.deleteAddressSet (E.hashedAddressSet (localPeerPods policy kind i)) ∈
      addressSetDeletes E policy kind n := by
  unfold addressSetDeletes
  exact List.mem_map.2 ⟨i, List.mem_range.2 h, rfl⟩

/-- C15: for a policy tracked with the record np, deleteNetworkPolicyPortGroup
leaves the record with its deleted flag set; it requests the deletion of the
address set of every ingress and of every egress rule index of the record,
hence of every address set that addNetworkPolicyPortGroup created for the
policy; after these requests and the shutdown of the handlers it calls
localPodDelDefaultDeny once for every logical port in localPods, in turn;
it then requests the deletion of the port group of the policy and removes
the policy from the index, the other entries of the index staying as they
were.  For a policy that is not tracked it returns the state as it was. -/
theorem deleteNetworkPolicyPortGroup_effects (E : Env) (oc : Controller)
    (policy : NetworkPolicy) (np : namespacePolicy)
    (h : oc.namespacePolicies policy.Namespace policy.Name = some np) :
    (deleteNetworkPolicyPortGroup E oc policy).2 = some { np with deleted := true } ∧
    (∀ i, i < np.ingressPolicies.length →
      Event.deleteAddressSet (E.hashedAddressSet (localPeerPods policy "ingress" i)) ∈
        (deleteNetworkPolicyPortGroup E oc policy).1.trace) ∧
    (∀ i, i < np.egressPolicies.length →
      Event.deleteAddressSet (E.hashedAddressSet (localPeerPods policy "egress" i)) ∈
        (deleteNetworkPolicyPortGroup E oc policy).1.trace) ∧
    (∀ oc0 l, oc = addNetworkPolicyPortGroup E oc0 policy → oc.trace = oc0.trace ++ l →
      ∀ n hashName, Event.createAddressSet n hashName ∈ l →
        Event.deleteAddressSet hashName ∈ (deleteNetworkPolicyPortGroup E oc policy).1.trace) ∧
    (deleteNetworkPolicyPortGroup E oc policy).1 =
      ((np.localPods.foldl (fun oc lp => localPodDelDefaultDeny E oc policy lp)
        (afterShutdown E oc policy np)).emit
        (Event.deletePortGroup np.portGroupName)).setPolicy policy.Namespace policy.Name none ∧
    (∃ l, (deleteNetworkPolicyPortGroup E oc policy).1.trace =
      oc.trace ++ (addressSetDeletes E policy "ingress" np.ingressPolicies.length ++
        addressSetDeletes E policy "egress" np.egressPolicies.length ++
        [Event.shutdownHandlers np.namespace_ np.name] ++ l ++
        [Event.deletePortGroup np.portGroupName])) ∧
    (∀ a b, (deleteNetworkPolicyPortGroup E oc policy).1.namespacePolicies a b =
      if a = policy.Namespace ∧ b = policy.Name then none else oc.namespacePolicies a b) ∧
    (∀ policy2 : NetworkPolicy, oc.namespacePolicies policy2.Namespace policy2.Name = none →
      deleteNetworkPolicyPortGroup E oc policy2 = (oc, none)) := by
  obtain ⟨l, -, ht, hp⟩ := deleteNetworkPolicyPortGroup_trace E oc policy np h
  have hin : ∀ i, i < np.ingressPolicies.length →
      Event.deleteAddressSet (E.hashedAddressSet (localPeerPods policy "ingress" i)) ∈
        (deleteNetworkPolicyPortGroup E oc policy).1.trace := by
    intro i hi
    rw [ht]
    have := mem_addressSetDeletes E policy "ingress" _ i hi
    simp only [List.mem_append]
    tauto
  have heg : ∀ i, i < np.egressPolicies.length →
      Event.deleteAddressSet (E.hashedAddressSet (localPeerPods policy "egress" i)) ∈
        (deleteNetworkPolicyPortGroup E oc policy).1.trace := by
    intro i hi
    rw [ht]
    have := mem_addressSetDeletes E policy "egress" _ i hi
    simp only [List.mem_append]
    tauto
  refine ⟨?_, hin, heg, ?_, ?_, ⟨l, ht⟩, hp, ?_⟩
  · rw [deleteNetworkPolicyPortGroup_tracked E oc policy np h]
  · intro oc0 l0 hoc htr n hashName hmem
    obtain ⟨l1, e1, q1⟩ := addNetworkPolicyPortGroup_sets E oc0 policy
    rw [← hoc] at e1 q1
    have hl : l1 = l0 := List.append_cancel_left (e1.symm.trans htr)
    subst hl
    obtain ⟨⟨np2, hnp2, hi2, he2⟩, hidx⟩ := q1 _ hmem hashName rfl
    have hnp : np2 = np := Option.some.inj (hnp2.symm.trans h)
    subst hnp
    rcases hidx with ⟨i, hi, rfl⟩ | ⟨i, hi, rfl⟩
    · exact hin i (by omega)
    · exact heg i (by omega)
  · rw [deleteNetworkPolicyPortGroup_tracked E oc policy np h]
  · intro policy2 h2
    simp only [deleteNetworkPolicyPortGroup, h2]

/-- Witness for C15: the policy from-frontend, added to the empty controller
and then deleted; the trace grows by the deletion of the address set of its
ingress rule, the shutdown of the handlers and the deletion of its port
group. -/
theorem deleteNetworkPolicyPortGroup_effects_witness :
    ocFromFrontend.namespacePolicies policyFromFrontend.Namespace policyFromFrontend.Name =
      some npFromFrontend ∧
    (deleteNetworkPolicyPortGroup Env.accepting ocFromFrontend policyFromFrontend).1.trace.drop
        ocFromFrontend.trace.length =
      [Event.deleteAddressSet "adev.from-frontend.ingress.0",
       Event.shutdownHandlers "dev" "from-frontend",
       Event.deletePortGroup "adev_from-frontend"] ∧
    (deleteNetworkPolicyPortGroup Env.accepting ocFromFrontend policyFromFrontend).2 =
      some { npFromFrontend with deleted := true } ∧
    (∀ a b, (deleteNetworkPolicyPortGroup Env.accepting ocFromFrontend
        policyFromFrontend).1.namespacePolicies a b =
      if a = policyFromFrontend.Namespace ∧ b = policyFromFrontend.Name then none
      else ocFromFrontend.namespacePolicies a b) :=
  have h := deleteNetworkPolicyPortGroup_effects Env.accepting ocFromFrontend
    policyFromFrontend npFromFrontend (by decide)
  ⟨by decide, by decide, h.1, h.2.2.2.2.2.2.1⟩

/-- C16, amended: on a tracked policy deleteNetworkPolicyPortGroup marks the
record deleted and produces its effects in this order: the deletions of the
address sets of the ingress rules, those of the egress rules, the shutdown of
the handlers, default-deny bookkeeping for the local pods, and last the
deletion of the port group.  So the shutdown occurs after every address-set
deletion and before the port-group deletion. -/
theorem deleteNetworkPolicyPortGroup_order (E : Env) (oc : Controller)
    (policy : NetworkPolicy) (np : namespacePolicy)
    (h : oc.namespacePolicies policy.Namespace policy.Name = some np) :
    (deleteNetworkPolicyPortGroup E oc policy).2 = some { np with deleted := true } ∧
    ∃ l, (∀ e ∈ l, e.isDenyBookkeeping = true) ∧
      (deleteNetworkPolicyPortGroup E oc policy).1.trace =
        oc.trace ++ (addressSetDeletes E policy "ingress" np.ingressPolicies.length ++
          addressSetDeletes E policy "egress" np.egressPolicies.length ++
          [Event.shutdownHandlers np.namespace_ np.name] ++ l ++
          [Event.deletePortGroup np.portGroupName]) := by
  obtain ⟨l, hb, ht, -⟩ := deleteNetworkPolicyPortGroup_trace E oc policy np h
  refine ⟨?_, l, hb, ht⟩
  rw [deleteNetworkPolicyPortGroup_tracked E oc policy np h]

/-- C16 as stated fails: when the policy from-frontend, tracked with one
ingress rule, is deleted, the address set of the rule is deleted first and
the handlers are shut down after it. -/
theorem deleteNetworkPolicyPortGroup_shutdown_late :
    (ocFromFrontend.namespacePolicies "dev" "from-frontend").isSome = true ∧
    (deleteNetworkPolicyPortGroup Env.accepting ocFromFrontend policyFromFrontend).1.trace =
      ocFromFrontend.trace ++
        [Event.deleteAddressSet "adev.from-frontend.ingress.0",
         Event.shutdownHandlers "dev" "from-frontend",
         Event.deletePortGroup "adev_from-frontend"] := by
  constructor <;> decide

/-- Witness for C16, amended: the policy from-frontend, added to the empty
controller and then deleted. -/
theorem deleteNetworkPolicyPortGroup_order_witness :
    ocFromFrontend.namespacePolicies policyFromFrontend.Namespace policyFromFrontend.Name =
      some npFromFrontend ∧
    (deleteNetworkPolicyPortGroup Env.accepting ocFromFrontend policyFromFrontend).2 =
      some { npFromFrontend with deleted := true } ∧
    ∃ l, (∀ e ∈ l, e.isDenyBookkeeping = true) ∧
      (deleteNetworkPolicyPortGroup Env.accepting ocFromFrontend policyFromFrontend).1.trace =
        ocFromFrontend.trace ++
          (addressSetDeletes Env.accepting policyFromFrontend "ingress"
              npFromFrontend.ingressPolicies.length ++
            addressSetDeletes Env.accepting policyFromFrontend "egress"
              npFromFrontend.egressPolicies.length ++
            [Event.shutdownHandlers npFromFrontend.namespace_ npFromFrontend.name] ++ l ++
            [Event.deletePortGroup npFromFrontend.portGroupName]) :=
  ⟨by decide, deleteNetworkPolicyPortGroup_order Env.accepting ocFromFrontend
    policyFromFrontend npFromFrontend (by decide)⟩

/-- C17: when the deleted flag of the record of a policy is set, each callback
attached to the policy returns the controller and the record it was given:
the local-pod add and delete callbacks, the peer-pod add/update and delete
callbacks with the address map, the peer-namespace add and delete callbacks
with the rule record, and the namespace add callback of a peer with both
selectors.  So no request is issued, and localPods, the address map, the
default-deny counters and the handler lists keep their values. -/
theorem deleted_callbacks_noop (E : Env) (oc : Controller) (policy : NetworkPolicy)
    (np : namespacePolicy) (hd : np.deleted = true) (pod : Pod)
    (addressMap : List String) (addressSet : String) (gress : gressPolicy)
    (namespaceName : String) (podSelector : LabelSelector) :
    handleLocalPodSelectorAddFunc E oc policy np pod = (oc, np) ∧
    handleLocalPodSelectorDelFunc E oc policy np pod = (oc, np) ∧
    handlePeerPodSelectorAddUpdate E oc np addressMap addressSet pod = (oc, addressMap) ∧
    handlePeerPodSelectorDelete E oc np addressMap addressSet pod = (oc, addressMap) ∧
    handlePeerNamespaceSelectorAddFunc E oc np gress namespaceName = (oc, gress) ∧
    handlePeerNamespaceSelectorDelFunc E oc np gress namespaceName = (oc, gress) ∧
    handlePeerNamespaceAndPodSelectorAddFunc E oc np podSelector addressSet namespaceName =
      (oc, np) := by
  refine ⟨?_, ?_, ?_, ?_, ?_, ?_, ?_⟩
  · simp only [handleLocalPodSelectorAddFunc, hd, if_true]
    split
    · rfl
    · split
      · rfl
      · split <;> rfl
  · simp only [handleLocalPodSelectorDelFunc, hd, if_true]
    split <;> rfl
  · simp only [handlePeerPodSelectorAddUpdate, hd, if_true]
    split <;> rfl
  · simp only [handlePeerPodSelectorDelete, hd, if_true]
    split <;> rfl
  · simp only [handlePeerNamespaceSelectorAddFunc, hd, if_true]
  · simp only [handlePeerNamespaceSelectorDelFunc, hd, if_true]
  · simp only [handlePeerNamespaceAndPodSelectorAddFunc, hd, if_true]

/-- Witness for C17: the deleted record of the policy allow-web, with pod
web-1, whose logical port is known. -/
theorem deleted_callbacks_noop_witness :
    npAllowWebDeleted.deleted = true ∧
    handleLocalPodSelectorAddFunc Env.accepting (Controller.empty webPorts) policyAllowWeb
        npAllowWebDeleted podWeb1 = (Controller.empty webPorts, npAllowWebDeleted) ∧
    handleLocalPodSelectorDelFunc Env.accepting (Controller.empty webPorts) policyAllowWeb
        npAllowWebDeleted podWeb1 = (Controller.empty webPorts, npAllowWebDeleted) ∧
    (handleLocalPodSelectorDelFunc Env.accepting (Controller.empty webPorts) policyAllowWeb
        { npAllowWebDeleted with deleted := false } podWeb1).2.localPods = [] :=
  have h := deleted_callbacks_noop Env.accepting (Controller.empty webPorts) policyAllowWeb
    npAllowWebDeleted (by decide) podWeb1 [] "a1" gressPlain "dev" "app=frontend"
  ⟨by decide, h.1, h.2.1, by decide⟩

theorem expectedPolicies_true (networkPolicies : List (Option NetworkPolicy)) :
    ∀ (m : String → String → Bool) (ns name : String),
      networkPolicies.foldl
        (fun m o => match o with
          | none => m
          | some policy =>
            Function.update m policy.Namespace (fun name => decide (name = policy.Name)))
        m ns name = true →
      m ns name = true ∨
        ∃ policy, some policy ∈ networkPolicies ∧ policy.Namespace = ns ∧
          policy.Name = name := by
  induction networkPolicies with
  | nil => intro m ns name h; exact Or.inl h
  | cons o t ih =>
    intro m ns name h
    rw [List.foldl_cons] at h
    rcases ih _ ns name h with h1 | ⟨p, hp, h2⟩
    · cases o with
      | none => exact Or.inl h1
      | some policy =>
        simp only at h1
        by_cases hn : ns = policy.Namespace
        · subst hn
          rw [Function.update_same] at h1
          exact Or.inr ⟨policy, List.mem_cons_self _ _, rfl, (of_decide_eq_true h1).symm⟩
        · rw [Function.update_noteq hn] at h1
          exact Or.inl h1
    · exact Or.inr ⟨p, List.mem_cons_of_mem _ hp, h2⟩

theorem syncAddressSet_trace (E : Env) (expected : String → String → Bool) (oc : Controller)
    (a : String × String × String) :
    ∃ l, Extends oc (syncAddressSet E expected oc a) l ∧
      (a.2.2 ≠ "" → expected a.2.1 a.2.2 = false →
        l = [Event.deletePortGroup (E.hashedPortGroup (a.2.1 ++ "_" ++ a.2.2)),
             Event.deleteAddressSet (E.hashedAddressSet a.1)]) := by
  unfold syncAddressSet
  split
  · refine ⟨[Event.deletePortGroup (E.hashedPortGroup (a.2.1 ++ "_" ++ a.2.2)),
      Event.deleteAddressSet (E.hashedAddressSet a.1)], ?_, fun _ _ => rfl⟩
    simp [Extends, deleteAddressSet, deletePortGroup, Controller.emit]
  · rename_i h
    exact ⟨[], extends_refl oc, fun h1 h2 => absurd ⟨h1, h2⟩ h⟩

theorem foldl_syncAddressSet (E : Env) (expected : String → String → Bool)
    (addressSets : List (String × String × String)) :
    ∀ oc : Controller, ∃ l, Extends oc (addressSets.foldl (syncAddressSet E expected) oc) l ∧
      ∀ a ∈ addressSets, a.2.2 ≠ "" → expected a.2.1 a.2.2 = false →
        Event.deletePortGroup (E.hashedPortGroup (a.2.1 ++ "_" ++ a.2.2)) ∈ l ∧
        Event.deleteAddressSet (E.hashedAddressSet a.1) ∈ l := by
  induction addressSets with
  | nil => intro oc; exact ⟨[], extends_refl oc, fun _ h => absurd h (List.not_mem_nil _)⟩
  | cons a t ih =>
    intro oc
    obtain ⟨l1, e1, q1⟩ := syncAddressSet_trace E expected oc a
    obtain ⟨l2, e2, q2⟩ := ih (syncAddressSet E expected oc a)
    refine ⟨l1 ++ l2, extends_trans e1 e2, ?_⟩
    intro b hb h1 h2
    rcases List.mem_cons.1 hb with rfl | hb
    · rw [q1 h1 h2]
      simp
    · obtain ⟨h3, h4⟩ := q2 b hb h1 h2
      exact ⟨List.mem_append_right _ h3, List.mem_append_right _ h4⟩

/-- C19: for every list of objects passed to syncNetworkPoliciesPortGroup and
every address set visited whose unhashed name carries a non-empty policy name
that, with the namespace, is not the namespace and name of a policy of the
list, the sync requests the deletion of the port group of that namespace and
policy name and the deletion of the address set. -/
theorem syncNetworkPoliciesPortGroup_deletes_stale (E : Env) (oc : Controller)
    (networkPolicies : List (Option NetworkPolicy))
    (addressSets : List (String × String × String))
    (addrSetName namespaceName policyName : String)
    (hmem : (addrSetName, namespaceName, policyName) ∈ addressSets)
    (hname : policyName ≠ "")
    (hstale : ∀ policy, some policy ∈ networkPolicies →
      ¬ (policy.Namespace = namespaceName ∧ policy.Name = policyName)) :
    ∃ l, (syncNetworkPoliciesPortGroup E oc networkPolicies addressSets).trace = oc.trace ++ l ∧
      Event.deleteAddressSet (E.hashedAddressSet addrSetName) ∈ l ∧
      Event.deletePortGroup (E.hashedPortGroup (namespaceName ++ "_" ++ policyName)) ∈ l := by
  obtain ⟨l, e1, q1⟩ := foldl_syncAddressSet E (expectedPolicies networkPolicies) addressSets oc
  have hexp : expectedPolicies networkPolicies namespaceName policyName = false := by
    cases hx : expectedPolicies networkPolicies namespaceName policyName with
    | false => rfl
    | true =>
      rcases expectedPolicies_true networkPolicies _ namespaceName policyName hx with h | h
      · cases h
      · obtain ⟨p, hp, h1, h2⟩ := h
        exact absurd ⟨h1, h2⟩ (hstale p hp)
  obtain ⟨h3, h4⟩ := q1 _ hmem hname hexp
  exact ⟨l, e1, h4, h3⟩

/-- Witness for C19: the list with the policy allow-web alone and the address
set of ingress rule 0 of a policy old of namespace dev. -/
theorem syncNetworkPoliciesPortGroup_deletes_stale_witness :
    (syncNetworkPoliciesPortGroup Env.accepting (Controller.empty (fun _ => ""))
      [some policyAllowWeb] [("dev.old.ingress.0", "dev", "old")]).trace =
      [Event.deletePortGroup "adev_old", Event.deleteAddressSet "adev.old.ingress.0"] ∧
    ∃ l, (syncNetworkPoliciesPortGroup Env.accepting (Controller.empty (fun _ => ""))
        [some policyAllowWeb] [("dev.old.ingress.0", "dev", "old")]).trace =
        (Controller.empty (fun _ => "")).trace ++ l ∧
      Event.deleteAddressSet (Env.accepting.hashedAddressSet "dev.old.ingress.0") ∈ l ∧
      Event.deletePortGroup (Env.accepting.hashedPortGroup ("dev" ++ "_" ++ "old")) ∈ l :=
  ⟨by decide,
    syncNetworkPoliciesPortGroup_deletes_stale Env.accepting (Controller.empty (fun _ => ""))
      [some policyAllowWeb] [("dev.old.ingress.0", "dev", "old")] "dev.old.ingress.0" "dev"
      "old" (by decide) (by decide) (by
        intro policy hp
        rw [List.mem_singleton] at hp
        injection hp with hp
        subst hp
        decide)⟩

/-- C20 fails on the code: the list holds the policies allow-web and
from-frontend, both of namespace dev; the second replaces the map of the
namespace, so the sync takes allow-web for absent and requests the deletion of
its port group and of the address set of its ingress rule 0. -/
theorem syncNetworkPoliciesPortGroup_deletes_listed :
    policyAllowWeb.Namespace = "dev" ∧ policyAllowWeb.Name = "allow-web" ∧
    (syncNetworkPoliciesPortGroup Env.accepting (Controller.empty (fun _ => ""))
      [some policyAllowWeb, some policyFromFrontend]
      [("dev.allow-web.ingress.0", "dev", "allow-web")]).trace =
      [Event.deletePortGroup "adev_allow-web",
       Event.deleteAddressSet "adev.allow-web.ingress.0"] ∧
    (syncNetworkPoliciesPortGroup Env.accepting (Controller.empty (fun _ => ""))
      [some policyAllowWeb]
      [("dev.allow-web.ingress.0", "dev", "allow-web")]).trace = [] := by
  refine ⟨rfl, rfl, by decide, by decide⟩

/-- The add callback of the local-pod watcher does nothing for a pod without
address, without node, or without known logical port, and for a logical port
that is among the local pods of the policy. -/
theorem handleLocalPodSelectorAddFunc_skips (E : Env) (oc : Controller)
    (policy : NetworkPolicy) (np : namespacePolicy) (pod : Pod)
    (h : E.getIPFromOvnAnnotation pod.ovnAnnotation = "" ∨ pod.NodeName = "" ∨
      getLogicalPortUUID oc (pod.Namespace ++ "_" ++ pod.Name) = "" ∨
      pod.Namespace ++ "_" ++ pod.Name ∈ np.localPods) :
    handleLocalPodSelectorAddFunc E oc policy np pod = (oc, np) := by
  simp only [handleLocalPodSelectorAddFunc]
  split
  · rfl
  · split
    · rfl
    · split
      · rfl
      · split
        · rfl
        · split
          · rfl
          · rename_i h1 h2 h3 _ h5
            rcases h with h | h | h | h
            · exact absurd h h1
            · exact absurd h h2
            · exact absurd h h3
            · exact absurd h h5

/-- When the port group of the policy has a uuid, a second delivery of the
same add event changes nothing. -/
theorem handleLocalPodSelectorAddFunc_again (E : Env) (oc : Controller)
    (policy : NetworkPolicy) (np : namespacePolicy) (pod : Pod)
    (hpg : np.portGroupUUID ≠ "") :
    handleLocalPodSelectorAddFunc E
        (handleLocalPodSelectorAddFunc E oc policy np pod).1 policy
        (handleLocalPodSelectorAddFunc E oc policy np pod).2 pod =
      handleLocalPodSelectorAddFunc E oc policy np pod := by
  by_cases h1 : E.getIPFromOvnAnnotation pod.ovnAnnotation = ""
  · rw [handleLocalPodSelectorAddFunc_skips E oc policy np pod (Or.inl h1)]
    exact handleLocalPodSelectorAddFunc_skips E oc policy np pod (Or.inl h1)
  · by_cases h2 : pod.NodeName = ""
    · rw [handleLocalPodSelectorAddFunc_skips E oc policy np pod (Or.inr (Or.inl h2))]
      exact handleLocalPodSelectorAddFunc_skips E oc policy np pod (Or.inr (Or.inl h2))
    · by_cases h3 : getLogicalPortUUID oc (pod.Namespace ++ "_" ++ pod.Name) = ""
      · rw [handleLocalPodSelectorAddFunc_skips E oc policy np pod
          (Or.inr (Or.inr (Or.inl h3)))]
        exact handleLocalPodSelectorAddFunc_skips E oc policy np pod
          (Or.inr (Or.inr (Or.inl h3)))
      · by_cases h5 : pod.Namespace ++ "_" ++ pod.Name ∈ np.localPods
        · rw [handleLocalPodSelectorAddFunc_skips E oc policy np pod
            (Or.inr (Or.inr (Or.inr h5)))]
          exact handleLocalPodSelectorAddFunc_skips E oc policy np pod
            (Or.inr (Or.inr (Or.inr h5)))
        · by_cases h4 : np.deleted = true
          · have e : handleLocalPodSelectorAddFunc E oc policy np pod = (oc, np) := by
              simp only [handleLocalPodSelectorAddFunc, h1, h2, h3, h4, if_false, if_true]
            rw [e]
            exact e
          · apply handleLocalPodSelectorAddFunc_skips
            right; right; right
            simp only [handleLocalPodSelectorAddFunc, h1, h2, h3, h4, h5, hpg, if_false]
            simp

/-- C18 fails on the code: when the port group of the policy has an empty
uuid, the add event of pod web-1, which has an address, a node and a known
logical port that is not among the local pods, raises the ingress counter of
dev_web-1 to 1 and leaves localPods empty; the same event once more is
therefore not skipped and raises the counter to 2. -/
theorem handleLocalPodSelectorAddFunc_twice_differs :
    (handleLocalPodSelectorAddFunc Env.accepting (Controller.empty webPorts) policyAllowWeb
        npNoGroup podWeb1).1.lspIngressDenyCache "dev_web-1" = 1 ∧
    (handleLocalPodSelectorAddFunc Env.accepting (Controller.empty webPorts) policyAllowWeb
        npNoGroup podWeb1).2.localPods = [] ∧
    (handleLocalPodSelectorAddFunc Env.accepting
        (handleLocalPodSelectorAddFunc Env.accepting (Controller.empty webPorts) policyAllowWeb
          npNoGroup podWeb1).1
        policyAllowWeb
        (handleLocalPodSelectorAddFunc Env.accepting (Controller.empty webPorts) policyAllowWeb
          npNoGroup podWeb1).2
        podWeb1).1.lspIngressDenyCache "dev_web-1" = 2 := by
  refine ⟨by decide, by decide, by decide⟩

/-- On a string that the pattern matches, modifyACLAllow writes what
addACLAllow stores: the group of the pattern. -/
theorem writtenMatch_of_match (m g : String) (h : FindStringSubmatch m = some g) :
    writtenMatch m = g ∧ storedMatch m = g := by
  simp only [writtenMatch, storedMatch, h, and_self]

/-- On a string that the pattern does not match, modifyACLAllow writes the
empty string, addACLAllow stores the string itself. -/
theorem writtenMatch_of_no_match (m : String) (h : FindStringSubmatch m = none) :
    writtenMatch m = "" ∧ storedMatch m = m := by
  simp only [writtenMatch, storedMatch, h, and_self]

/-- The two values agree exactly on the strings that the pattern matches and
on the empty string. -/
theorem writtenMatch_eq_storedMatch_iff (m : String) :
    writtenMatch m = storedMatch m ↔ (FindStringSubmatch m).isSome = true ∨ m = "" := by
  cases h : FindStringSubmatch m with
  | some g =>
    obtain ⟨h1, h2⟩ := writtenMatch_of_match m g h
    rw [h1, h2]
    simp
  | none =>
    obtain ⟨h1, h2⟩ := writtenMatch_of_no_match m h
    rw [h1, h2]
    simp only [Option.isSome_none, Bool.false_eq_true, false_or]
    exact ⟨fun e => e.symm, fun e => e.symm⟩

/-- C21 fails on the code: for the string outport == @a1, which has no
wrapper, the specification and addACLAllow give the string itself (addACLAllow
stores it in the match column of the row it inserts), while modifyACLAllow,
which locates the row with the match a, writes the empty string into its match
column. -/
theorem modifyACLAllow_unwrapped_writes_empty :
    FindStringSubmatch "outport == @a1" = none ∧
    strippedMatchSpec "outport == @a1" = "outport == @a1" ∧
    (addACLAllow Env.accepting (Controller.empty (fun _ => "")) npAllowWeb "outport == @a1"
        "None" false 0 PolicyTypeIngress).acls.map (fun r => r.2.match_) =
      ["outport == @a1"] ∧
    (modifyACLAllow Env.accepting ocOneAllow "dev" "allow-web" "match=\"a\"" "outport == @a1" 0
        PolicyTypeIngress).trace =
      ocOneAllow.trace ++ [Event.updateACLMatch "acl-0" ""] ∧
    (modifyACLAllow Env.accepting ocOneAllow "dev" "allow-web" "match=\"a\"" "outport == @a1" 0
        PolicyTypeIngress).acls.map (fun r => r.2.match_) = [""] ∧
    strippedMatchSpec "match=\"b\"" = "b" ∧
    (modifyACLAllow Env.accepting ocOneAllow "dev" "allow-web" "match=\"a\"" "match=\"b\"" 0
        PolicyTypeIngress).acls.map (fun r => r.2.match_) = ["b"] := by
  refine ⟨by decide, by decide, by decide, by decide, by decide, by decide, by decide⟩

/-- C5 fails on the code, by the defect of C4: for the policy whose
PolicyTypes is the list Ingress, Ingress and whose Egress is empty, egress is
not counted (PolicyTypes is not the list with only Egress, there is no egress
rule, Egress is not among the policy types), and still localPodAddDefaultDeny,
called for the port dev_web-1 on the empty controller, asks addToACLDeny to
add the port to the egress default-deny port group, and the port is inserted
into the ports of that group: the requests of the call are one for the
ingress and one for the egress group. -/
theorem localPodAddDefaultDeny_requests_ingressTwice :
    policyIngressTwice.PolicyTypes ≠ [PolicyTypeEgress] ∧
    policyIngressTwice.Egress = [] ∧
    PolicyTypeEgress ∉ policyIngressTwice.PolicyTypes ∧
    (localPodAddDefaultDeny Env.accepting (Controller.empty webPorts) policyIngressTwice
        "dev_web-1").trace.filter Event.isRequest =
      [Event.addToACLDeny "pg-ingressDefaultDeny" "dev_web-1",
       Event.addToACLDeny "pg-egressDefaultDeny" "dev_web-1"] ∧
    (localPodAddDefaultDeny Env.accepting (Controller.empty webPorts) policyIngressTwice
        "dev_web-1").trace.filter Event.isPortWrite =
      [Event.insertPort "pg-ingressDefaultDeny" "lsp-1",
       Event.insertPort "pg-egressDefaultDeny" "lsp-1"] := by
  refine ⟨by decide, rfl, by decide, by decide, by decide⟩

end Ovn
